import Mathlib

/-! Deploy strategies of the configuration-as-code tool.

A shallow embedding of

* `pkg/resource/slo/deploy.go`: the externalId-correlated deploy of service
  level objectives (`Deploy`, `addExternalIdAndValidate`,
  `responseFromHttpData`, `createResolveEntity`, `findMatchOnRemote`);
* `pkg/deploy/classic.go`: the name-keyed deploy of classic configurations
  (`deployClassicConfig`, `upsertNonUniqueNameConfig`).

Remote collaborators (`DeploySource`, `ConfigClient`) are Go interfaces. They
are embedded as records of state-passing functions over an arbitrary state
type `σ`, so that every sequential behaviour of an implementation is covered.
The calls a function issues are observed by wrapping the collaborator in a
recorder that appends every call to a log.

Byte strings holding JSON text (`[]byte`, the rendered config) are values of
an arbitrary type `B`; `encoding/json` enters through the functions of
`Json B`, and what it does to a value on the way into and out of a Go `any`
is spelled out (`anyOf`, `written`). Helpers of the repository that the two files only call
(`idutils.*`, `api.IsNotFoundError`, `extractConfigName`,
`entityMap.contains`) are parameters.
-/

namespace Monaco

/-! ## Data model -/

/-- The `coordinate.Coordinate` triple. -/
structure Coordinate where
  Project : String
  Type_ : String
  ConfigId : String
  deriving DecidableEq, Repr

/-- A JSON value, as `encoding/json` sees it. Numbers keep their literal. -/
inductive JVal where
  | null
  | bool (b : Bool)
  | num (lit : String)
  | str (s : String)
  | arr (items : List JVal)
  | obj (members : List (String × JVal))

/-- A non-nil Go `map[string]any`: an association list with at most one entry
per key (every map below is built by `mapStore`). A nil map that is only read
behaves as the empty list. -/
abbrev GoMap := List (String × JVal)

/-- The Go expression `m[k]` with the comma-ok form: `v, exists := m[k]`. -/
def mapLookup (m : GoMap) (k : String) : Option JVal :=
  match m with
  | [] => none
  | (k1, v) :: rest => if k1 = k then some v else mapLookup rest k

/-- The entries of `m` under keys other than `k`. -/
def mapDelete (m : GoMap) (k : String) : GoMap :=
  match m with
  | [] => []
  | (k1, v) :: rest => if k1 = k then mapDelete rest k else (k1, v) :: mapDelete rest k

/-- The Go statement `m[k] = v` on a non-nil map. -/
def mapStore (m : GoMap) (k : String) (v : JVal) : GoMap :=
  (k, v) :: mapDelete m k

/-- The map `encoding/json` builds from the members of a JSON object, in
document order: a later member with the same key replaces an earlier one. -/
def mapOfMembers (members : List (String × JVal)) : GoMap :=
  members.foldl (fun m p => mapStore m p.1 p.2) []

/-- `parameter.Properties`, a `map[string]interface{}`. The deploy functions
write into it, so the embedding takes it to be non-nil, as the map the
resolver allocates for every config is. -/
abbrev Properties := GoMap

/-- The constant `config.IdParameter`. -/
def IdParameter : String := "id"

/-- The constant `config.NameParameter`. -/
def NameParameter : String := "name"

/-- The two ways `json.Unmarshal` fails: the text is not JSON, or a JSON value
does not fit the Go type it is decoded into. -/
inductive JsonError where
  | invalid
  | typeMismatch
  deriving DecidableEq, Repr

/-- The part of `encoding/json` that depends on the bytes: `decode` reads a
JSON text (`none` when the text is not valid JSON) and keeps every number as
the literal it is written with; `float64` is what becomes of a number literal
that is stored in an `any`, `strconv.ParseFloat(lit, 64)`, given as the literal
that `json.Marshal` writes for that `float64` (`none` when the literal is out
of the `float64` range); `encode` is `json.Marshal` of a `map[string]any` whose
values came from decoding, which cannot fail. -/
structure Json (B : Type) where
  decode : B → Option JVal
  float64 : String → Option String
  encode : GoMap → B

/-- What `Deploy` takes from outside `deploy.go`: the JSON codec,
`idutils.GenerateExternalID` and `api.IsNotFoundError`. -/
structure Env (B E : Type) extends Json B where
  GenerateExternalID : Coordinate → String
  IsNotFoundError : E → Bool

/-- The interface `config.Type` as the deploy functions use it: a config is of
`config.ClassicApiType` with its `Api`, or of another type, of which only the
`ID()` is read. -/
inductive ConfigType where
  | ClassicApiType (Api : String)
  | other (ID : String)
  deriving DecidableEq, Repr

/-- The fields of `config.Config` that the deploy functions read. -/
structure Config where
  Coordinate : Coordinate
  Type_ : ConfigType
  OriginObjectId : String
  deriving DecidableEq, Repr

/-- The struct `entities.ResolvedEntity` (`parameter.ResolvedEntity` in
`classic.go`). -/
structure ResolvedEntity where
  EntityName : String
  Coordinate : Coordinate
  Properties : Properties
  Skip : Bool

/-- The zero value `ResolvedEntity{}`; its nil `Properties` reads as empty. -/
def ResolvedEntity.zero : ResolvedEntity :=
  { EntityName := "", Coordinate := ⟨"", "", ""⟩, Properties := [], Skip := false }

/-- A Go call either returns or stops in a runtime panic. -/
inductive Run (α : Type) where
  | returned (a : α)
  | panicked

/-! ## `pkg/resource/slo/deploy.go` -/

/-- The interface `DeploySource`. Each method takes the state of the remote
side and gives back the Go result pair and the next state. `List` stands for
`List(ctx)` followed by `All()` on the paged response; the `api.Response` of
`Update` and `Create` is its `Data`. -/
structure DeploySource (σ B E : Type) where
  Update : String → B → σ → Except E B × σ
  Create : B → σ → Except E B × σ
  List : σ → Except E (List B) × σ

/-- The struct `sloResponse`. -/
structure sloResponse where
  ID : String
  ExternalID : String
  deriving DecidableEq, Repr

/-- The zero value `sloResponse{}`. -/
def sloResponse.zero : sloResponse := { ID := "", ExternalID := "" }

/-- The name `encoding/json` compares with a struct field name when the exact
spelling does not match: letters are folded to one case. The folds that leave
ASCII do not reach any letter of `id` or `externalId`. -/
def foldName (k : String) : List Char := k.data.map Char.toLower

/-- One member `k : v` of a JSON object decoded into a `sloResponse`: a member
whose name matches a field sets it from a JSON string, leaves it alone for
`null` and is a type error otherwise; other members are skipped.
(`encoding/json` goes on decoding after a type error and reports the first one
at the end; both callers drop the struct when an error is reported.) -/
def sloResponse.setMember (res : sloResponse) (k : String) (v : JVal) :
    Except JsonError sloResponse :=
  if foldName k = foldName "id" then
    match v with
    | .str s => .ok { res with ID := s }
    | .null => .ok res
    | _ => .error .typeMismatch
  else if foldName k = foldName "externalId" then
    match v with
    | .str s => .ok { res with ExternalID := s }
    | .null => .ok res
    | _ => .error .typeMismatch
  else .ok res

/-- The members of a JSON object decoded into a `sloResponse`, in order. -/
def sloResponse.setMembers (res : sloResponse) :
    List (String × JVal) → Except JsonError sloResponse
  | [] => .ok res
  | (k, v) :: rest =>
    match res.setMember k v with
    | .error e => .error e
    | .ok res1 => sloResponse.setMembers res1 rest

/-- The call `json.Unmarshal(raw, &res)` for a `res` of type `sloResponse`
that already holds values: the result is the content of `res` afterwards.
Invalid text and a value that is neither an object nor `null` are errors;
`null` changes nothing; an object sets the fields it names and keeps the
others as they were. -/
def unmarshalSloResponse {B : Type} (J : Json B) (raw : B) (res : sloResponse) :
    Except JsonError sloResponse :=
  match J.decode raw with
  | none => .error .invalid
  | some .null => .ok res
  | some (.obj members) => res.setMembers members
  | some _ => .error .typeMismatch

mutual
/-- The Go value that `json.Unmarshal` stores in an `any` for a JSON value. A
number becomes a `float64`, held here as the literal that `json.Marshal` writes
for it, and is a type error when it is out of the `float64` range; an object
becomes a `map[string]any`, in which a later member replaces an earlier one of
the same name; an array becomes a `[]any`. (`encoding/json` goes on decoding
after a type error and reports the first one at the end.) -/
def anyOf {B : Type} (J : Json B) : JVal → Except JsonError JVal
  | .null => .ok .null
  | .bool b => .ok (.bool b)
  | .num lit =>
    match J.float64 lit with
    | none => .error .typeMismatch
    | some text => .ok (.num text)
  | .str s => .ok (.str s)
  | .arr items =>
    match anyItems J items with
    | .error err => .error err
    | .ok values => .ok (.arr values)
  | .obj members =>
    match anyMembers J members with
    | .error err => .error err
    | .ok values => .ok (.obj (mapOfMembers values))
/-- The items of a JSON array, each as `anyOf` has it. -/
def anyItems {B : Type} (J : Json B) : List JVal → Except JsonError (List JVal)
  | [] => .ok []
  | v :: rest =>
    match anyOf J v with
    | .error err => .error err
    | .ok a =>
      match anyItems J rest with
      | .error err => .error err
      | .ok values => .ok (a :: values)
/-- The members of a JSON object in document order, each value as `anyOf` has
it. -/
def anyMembers {B : Type} (J : Json B) :
    List (String × JVal) → Except JsonError (List (String × JVal))
  | [] => .ok []
  | (k, v) :: rest =>
    match anyOf J v with
    | .error err => .error err
    | .ok a =>
      match anyMembers J rest with
      | .error err => .error err
      | .ok values => .ok ((k, a) :: values)
end

/-- The call `json.Unmarshal([]byte(renderedConfig), &request)` for the nil
`request map[string]any` of `addExternalIdAndValidate`: the value of `request`
afterwards, `none` for a map that is still nil (the JSON text `null`). The
values of the map are of type `any`. -/
def unmarshalMap {B : Type} (J : Json B) (data : B) : Except JsonError (Option GoMap) :=
  match J.decode data with
  | none => .error .invalid
  | some .null => .ok none
  | some (.obj members) =>
    match anyMembers J members with
    | .error err => .error err
    | .ok values => .ok (some (mapOfMembers values))
  | some _ => .error .typeMismatch

/-- The order in which `json.Marshal` writes the keys of a map: `a` is not
after `b` when the texts are compared character by character. -/
def keyNotAfter : List Char → List Char → Bool
  | [], _ => true
  | _ :: _, [] => false
  | a :: as, b :: bs => a.toNat < b.toNat || (a.toNat = b.toNat && keyNotAfter as bs)

/-- A member put into a list of members that is sorted by key. -/
def insertMember (p : String × JVal) : List (String × JVal) → List (String × JVal)
  | [] => [p]
  | q :: rest =>
    if keyNotAfter p.1.data q.1.data then p :: q :: rest else q :: insertMember p rest

/-- The members of a map sorted by key. -/
def sortMembers : List (String × JVal) → List (String × JVal)
  | [] => []
  | p :: rest => insertMember p (sortMembers rest)

mutual
/-- The JSON value that `json.Marshal` writes for a Go value held in an `any`:
the members of a map are written sorted by key, every other value as it is. -/
def written : JVal → JVal
  | .null => .null
  | .bool b => .bool b
  | .num lit => .num lit
  | .str s => .str s
  | .arr items => .arr (writtenItems items)
  | .obj members => .obj (sortMembers (writtenMembers members))
/-- The items of a slice, each as `written` has it. -/
def writtenItems : List JVal → List JVal
  | [] => []
  | v :: rest => written v :: writtenItems rest
/-- The members of a map, each value as `written` has it. -/
def writtenMembers : List (String × JVal) → List (String × JVal)
  | [] => []
  | (k, v) :: rest => (k, written v) :: writtenMembers rest
end

/-- The codec reads back the maps it writes. For a map `m` that holds every
key once and only values that `json.Unmarshal` stores in an `any`, decoding
`encode m` gives a JSON object that has the keys of `m`, each once and in some
order, and holds under every key what `json.Marshal` writes for the value that
`m` holds there. -/
def readsBack {B : Type} (J : Json B) : Prop :=
  ∀ m : GoMap, (m.map Prod.fst).Nodup → (∀ p ∈ m, ∃ v, anyOf J v = .ok p.2) →
    ∃ members, J.decode (J.encode m) = some (.obj members)
      ∧ (members.map Prod.fst).Perm (m.map Prod.fst)
      ∧ ∀ k, mapLookup members k = (mapLookup m k).map written

/-- The errors that `Deploy` wraps into its own. -/
inductive Cause (E : Type) where
  /-- `failed to add externalID to slo request payload: %w` -/
  | addExternalID (e : JsonError)
  /-- `tried to deploy an slo-v1 configuration to slo-v2` -/
  | sloV1
  /-- an error of the `DeploySource` -/
  | remote (e : E)
  /-- an error of `json.Unmarshal` in `findMatchOnRemote` -/
  | listItem (e : JsonError)
  /-- `failed to unmarshal response: %w` -/
  | response (e : JsonError)

/-- The error `deployErrors.NewConfigDeployErr(c, reason).WithError(err)`. -/
structure ConfigDeployErr (E : Type) where
  Config : Coordinate
  Reason : String
  Err : Cause E

/-- What a deploy function hands back when it returns: the Go result pair and
the caller's `properties` map as the call left it (Go maps are shared). -/
structure Returned (E : Type) where
  entity : ResolvedEntity
  err : Option (ConfigDeployErr E)
  properties : Properties

/-- The function `addExternalIdAndValidate`. Writing `request["externalId"]`
into the nil map left by the text `null` is a runtime panic. -/
def addExternalIdAndValidate {B E : Type} (env : Env B E) (externalId : String)
    (renderedConfig : B) : Run (Except (Cause E) B) :=
  match unmarshalMap env.toJson renderedConfig with
  | .error err => .returned (.error (.addExternalID err))
  | .ok none => .panicked
  | .ok (some request) =>
    let request := mapStore request "externalId" (.str externalId)
    if (mapLookup request "evaluationType").isSome then
      .returned (.error .sloV1)
    else
      .returned (.ok (env.encode request))

/-- The function `responseFromHttpData`: the response data decoded into a
fresh `sloResponse`. -/
def responseFromHttpData {B E : Type} (env : Env B E) (rawResponse : B) :
    Except (Cause E) sloResponse :=
  match unmarshalSloResponse env.toJson rawResponse sloResponse.zero with
  | .error err => .error (.response err)
  | .ok response => .ok response

/-- The function `createResolveEntity`: it writes the id into the caller's
map and returns an entity holding that same map. -/
def createResolveEntity (id : String) (properties : Properties) (c : Config) :
    ResolvedEntity :=
  let properties := mapStore properties IdParameter (.str id)
  { EntityName := "", Coordinate := c.Coordinate, Properties := properties, Skip := false }

/-- The return `createResolveEntity(id, properties, c), nil` of `Deploy`. The
caller's map is the map the entity holds. -/
def deployedAs {E : Type} (id : String) (properties : Properties) (c : Config) : Returned E :=
  { entity := createResolveEntity id properties c,
    err := none,
    properties := (createResolveEntity id properties c).Properties }

/-- An error return of `Deploy`: `entities.ResolvedEntity{}` and the error. -/
def deployFailed {E : Type} (properties : Properties) (c : Config) (reason : String)
    (err : Cause E) : Returned E :=
  { entity := ResolvedEntity.zero,
    err := some { Config := c.Coordinate, Reason := reason, Err := err },
    properties := properties }

/-- The loop of `findMatchOnRemote` over `apiResponse.All()`. The struct `res`
is declared once before the loop and every item is decoded into it. -/
def scanItems {B : Type} (J : Json B) (externalId : String) :
    List B → sloResponse → Except JsonError (String × Bool)
  | [], _ => .ok ("", false)
  | raw :: rest, res =>
    match unmarshalSloResponse J raw res with
    | .error err => .error err
    | .ok res1 =>
      if res1.ExternalID = externalId then .ok (res1.ID, true)
      else scanItems J externalId rest res1

/-- The method `findMatchOnRemote`; `.ok (id, match)` is the return
`id, match, nil`. -/
def findMatchOnRemote {σ B E : Type} (env : Env B E) (src : DeploySource σ B E)
    (externalId : String) (s : σ) : Except (Cause E) (String × Bool) × σ :=
  match src.List s with
  | (.error err, s1) => (.error (.remote err), s1)
  | (.ok items, s1) =>
    match scanItems env.toJson externalId items sloResponse.zero with
    | .error err => (.error (.listItem err), s1)
    | .ok r => (.ok r, s1)

/-- Strategies 2 and 3 of `Deploy`: the body from the call of
`findMatchOnRemote` to the end. -/
def deployByExternalID {σ B E : Type} (env : Env B E) (src : DeploySource σ B E)
    (properties : Properties) (requestPayload : B) (externalID : String) (c : Config)
    (s : σ) : Returned E × σ :=
  match findMatchOnRemote env src externalID s with
  | (.error err, s1) =>
    (deployFailed properties c ("error finding slo with externalID: " ++ externalID) err, s1)
  | (.ok (matchID, true), s1) =>
    match src.Update matchID requestPayload s1 with
    | (.error err, s2) =>
      (deployFailed properties c ("failed to update slo with externalID: " ++ externalID)
        (.remote err), s2)
    | (.ok _, s2) => (deployedAs matchID properties c, s2)
  | (.ok (_, false), s1) =>
    match src.Create requestPayload s1 with
    | (.error err, s2) =>
      (deployFailed properties c ("failed to deploy slo with externalID: " ++ externalID)
        (.remote err), s2)
    | (.ok createResponse, s2) =>
      match responseFromHttpData env createResponse with
      | .error err =>
        (deployFailed properties c ("failed to unmarshal slo with externalID: " ++ externalID)
          err, s2)
      | .ok response => (deployedAs response.ID properties c, s2)

/-- The method `DeployAPI.Deploy`, run on the remote state `s`. The context
and its one-minute timeout are not part of the embedding: a call that times
out is a call that returns an error. -/
def Deploy {σ B E : Type} (env : Env B E) (src : DeploySource σ B E)
    (properties : Properties) (renderedConfig : B) (c : Config) (s : σ) :
    Run (Returned E) × σ :=
  let externalID := env.GenerateExternalID c.Coordinate
  match addExternalIdAndValidate env externalID renderedConfig with
  | .panicked => (.panicked, s)
  | .returned (.error err) =>
    (.returned (deployFailed properties c "failed to validate slo payload" err), s)
  | .returned (.ok requestPayload) =>
    if c.OriginObjectId ≠ "" then
      match src.Update c.OriginObjectId requestPayload s with
      | (.ok _, s1) => (.returned (deployedAs c.OriginObjectId properties c), s1)
      | (.error err, s1) =>
        if !env.IsNotFoundError err then
          (.returned (deployFailed properties c ("failed to deploy slo: " ++ c.OriginObjectId)
            (.remote err)), s1)
        else
          let r := deployByExternalID env src properties requestPayload externalID c s1
          (.returned r.1, r.2)
    else
      let r := deployByExternalID env src properties requestPayload externalID c s
      (.returned r.1, r.2)

/-! ## Observing the calls on a `DeploySource` -/

/-- A call on a `DeploySource`, with its arguments. -/
inductive Call (B : Type) where
  | list
  | update (id : String) (data : B)
  | create (data : B)

/-- The source `src` with a log: every call does what `src` does and appends
itself to the log. -/
def recording {σ B E : Type} (src : DeploySource σ B E) :
    DeploySource (σ × List (Call B)) B E where
  Update := fun id data st => ((src.Update id data st.1).1,
    ((src.Update id data st.1).2, st.2 ++ [Call.update id data]))
  Create := fun data st => ((src.Create data st.1).1,
    ((src.Create data st.1).2, st.2 ++ [Call.create data]))
  List := fun st => ((src.List st.1).1, ((src.List st.1).2, st.2 ++ [Call.list]))

/-! ## Numbers in `map[string]any`

`json.Unmarshal` stores a JSON number in an `any` as a `float64`
(`strconv.ParseFloat(lit, 64)`), and `json.Marshal` writes a `float64` with
the fewest digits that read back as the same `float64`. Both belong to the Go
standard library. -/

/-- The value of a decimal digit character, `none` for another character. -/
def decimalDigit (c : Char) : Option Nat :=
  if 48 ≤ c.toNat ∧ c.toNat ≤ 57 then some (c.toNat - 48) else none

/-- The number that a run of decimal digits writes. -/
def digitsNumber (cs : List Char) : Nat :=
  cs.foldl (fun acc c => acc * 10 + (decimalDigit c).getD 0) 0

/-- Modelled from the spec: the exponent that `strconv` reads from the digits
after `e`. Digits met once the number has reached 10000 are dropped. -/
def cappedExponent (cs : List Char) : Nat :=
  cs.foldl (fun e c => if e < 10000 then e * 10 + (decimalDigit c).getD 0 else e) 0

/-- A number literal in parts: the sign, the digits before and after the
decimal point as one number, and the power of ten that number is scaled by. -/
structure Decimal where
  neg : Bool
  digits : Nat
  exp10 : Int

/-- The digits at the head of a text are all of it, and there is one at
least. -/
def allDigits (cs : List Char) : Bool :=
  !cs.isEmpty && cs.all (fun c => (decimalDigit c).isSome)

/-- The exponent part of a number literal, after the `e`: an optional sign
and digits. -/
def readExponent (cs : List Char) : Option Int :=
  match cs with
  | '+' :: rest => if allDigits rest then some (cappedExponent rest : Int) else none
  | '-' :: rest => if allDigits rest then some (-(cappedExponent rest : Int)) else none
  | _ => if allDigits cs then some (cappedExponent cs : Int) else none

/-- The text before the first `e` or `E`, and the text after it when there is
one. -/
def splitExponent (cs : List Char) : List Char × Option (List Char) :=
  match cs.span (fun c => c ≠ 'e' ∧ c ≠ 'E') with
  | (front, []) => (front, none)
  | (front, _ :: back) => (front, some back)

/-- The text before the first period, and the text after it when there is
one. -/
def splitFraction (cs : List Char) : List Char × Option (List Char) :=
  match cs.span (fun c => c ≠ '.') with
  | (front, []) => (front, none)
  | (front, _ :: back) => (front, some back)

/-- A JSON number literal read into its parts: an optional minus sign, `0` or
digits that do not start with `0`, an optional fraction of one digit at least,
an optional exponent. `none` for a text that is not a JSON number. -/
def readNumber (lit : List Char) : Option Decimal :=
  let neg := lit.head? = some '-'
  let body := if neg then lit.drop 1 else lit
  let (mantissa, exponent) := splitExponent body
  let (whole, fraction) := splitFraction mantissa
  let frac := fraction.getD []
  if !allDigits whole || (whole.head? = some '0' && whole.length ≠ 1) then none
  else if fraction.isSome && !allDigits frac then none
  else
    match exponent with
    | none => some ⟨neg, digitsNumber (whole ++ frac), -(frac.length : Int)⟩
    | some e =>
      match readExponent e with
      | none => none
      | some x => some ⟨neg, digitsNumber (whole ++ frac), x - (frac.length : Int)⟩

/-- The number of binary digits of a number, counted with `fuel` steps. -/
def bitLengthAux : Nat → Nat → Nat
  | 0, _ => 0
  | fuel + 1, n => if n = 0 then 0 else bitLengthAux fuel (n / 2) + 1

/-- The number of binary digits of a number. -/
def bitLength (n : Nat) : Nat := bitLengthAux n n

/-- The fraction `num / den` scaled by `2 ^ (-k)`, as a numerator and a
denominator. -/
def scaleBinary (num den : Nat) (k : Int) : Nat × Nat :=
  (num * 2 ^ (-k).toNat, den * 2 ^ k.toNat)

/-- The fraction `num / den` scaled by `10 ^ (-q)`, as a numerator and a
denominator. -/
def scaleDecimal (num den : Nat) (q : Int) : Nat × Nat :=
  (num * 10 ^ (-q).toNat, den * 10 ^ q.toNat)

/-- The integer nearest to `n / d`, the even one of two that are equally
near. -/
def roundHalfEven (n d : Nat) : Nat :=
  let q := n / d
  let r := n % d
  if 2 * r < d then q
  else if d < 2 * r then q + 1
  else if q % 2 = 0 then q else q + 1

/-- The largest `e` with `2 ^ e ≤ num / den`, for a positive fraction. -/
def binaryExponent (num den : Nat) : Int :=
  let c : Int := (bitLength num : Int) - (bitLength den : Int)
  let s := scaleBinary num den c
  if s.2 ≤ s.1 then c else c - 1

/-- A finite `float64` of magnitude `mant * 2 ^ exp`: `mant` is below `2 ^ 53`
and `exp` is between -1074 and 971; `mant` is `2 ^ 52` at least unless `exp`
is -1074. -/
structure Float64 where
  neg : Bool
  mant : Nat
  exp : Int

/-- Modelled from the spec: `strconv.ParseFloat(lit, 64)` on the parts of a
literal. The result is the `float64` nearest to the number, the one with the
even mantissa of two that are equally near; `none` is the range error of a
number that rounds to more than the largest `float64`. A number too small
rounds to zero without an error. -/
def parseFloat64 (d : Decimal) : Option Float64 :=
  if d.digits = 0 then some ⟨d.neg, 0, -1074⟩
  else
    let num := d.digits * 10 ^ d.exp10.toNat
    let den := 10 ^ (-d.exp10).toNat
    let k := max (binaryExponent num den - 52) (-1074)
    let s := scaleBinary num den k
    let m := roundHalfEven s.1 s.2
    if m = 2 ^ 53 then
      if 971 < k + 1 then none else some ⟨d.neg, 2 ^ 52, k + 1⟩
    else
      if 971 < k then none else some ⟨d.neg, m, k⟩

/-- The number of decimal digits of a number, counted with `fuel` steps. -/
def decimalLengthAux : Nat → Nat → Nat
  | 0, _ => 0
  | fuel + 1, n => if n = 0 then 0 else decimalLengthAux fuel (n / 10) + 1

/-- The number of decimal digits before the decimal point of the positive
fraction `num / den`: the `p` with `10 ^ (p - 1) ≤ num / den < 10 ^ p`. -/
def decimalPoint (num den : Nat) : Int :=
  let c : Int := (decimalLengthAux num num : Int) - (decimalLengthAux den den : Int)
  let s := scaleDecimal num den c
  if s.2 ≤ s.1 then c + 1 else c

/-- The shortest decimal of a positive `float64` `mant * 2 ^ exp`, looked for
digit by digit. `lower` and `upper` are the numerators over `2 ^ 2` of the
ends of the interval of numbers that round to the `float64`, in units of
`2 ^ exp`; the ends themselves round to it when `inclusive`. At the digit of
weight `10 ^ q`, the number cut off after that digit may be taken when it is
in the interval, and so may the next number up; of two that may be taken the
nearer one is, the even one when both are equally near. The result is the
digits taken, as a number, and the weight of its last digit. -/
def shortestAux : Nat → Nat → Int → Nat → Nat → Bool → Int → Nat × Int
  | 0, mant, exp, _, _, _, q =>
    let v := scaleDecimal (scaleBinary mant 1 (-exp)).1 (scaleBinary mant 1 (-exp)).2 q
    (v.1 / v.2, q)
  | fuel + 1, mant, exp, lower, upper, inclusive, q =>
    let v := scaleDecimal (scaleBinary mant 1 (-exp)).1 (scaleBinary mant 1 (-exp)).2 q
    let lo := scaleDecimal (scaleBinary lower 4 (-exp)).1 (scaleBinary lower 4 (-exp)).2 q
    let up := scaleDecimal (scaleBinary upper 4 (-exp)).1 (scaleBinary upper 4 (-exp)).2 q
    let down := v.1 / v.2
    let okdown := if inclusive then lo.1 ≤ down * lo.2 else lo.1 < down * lo.2
    let okup := if inclusive then (down + 1) * up.2 ≤ up.1 else (down + 1) * up.2 < up.1
    if okdown && okup then (roundHalfEven v.1 v.2, q)
    else if okdown then (down, q)
    else if okup then (down + 1, q)
    else shortestAux fuel mant exp lower upper inclusive (q - 1)

/-- A number without the zeros at its end, and how many there were. -/
def dropZerosAux : Nat → Nat → Int → Nat × Int
  | 0, n, q => (n, q)
  | fuel + 1, n, q => if n ≠ 0 ∧ n % 10 = 0 then dropZerosAux fuel (n / 10) (q + 1) else (n, q)

/-- Modelled from the spec: the digits that `strconv` writes for a positive
`float64` with precision -1, the fewest that read back as the same `float64`,
and the weight of the last of them as a power of ten. -/
def shortestDecimal (mant : Nat) (exp : Int) : Nat × Int :=
  let upper := 4 * mant + 2
  let lower := if 2 ^ 52 < mant ∨ exp = -1074 then 4 * mant - 2 else 4 * mant - 1
  let p := decimalPoint (scaleBinary upper 4 (-exp)).1 (scaleBinary upper 4 (-exp)).2
  let r := shortestAux 1200 mant exp lower upper (mant % 2 = 0) (p - 1)
  dropZerosAux r.1 r.1 r.2

/-- The decimal digits of a number, with `fuel` digits at most. -/
def decimalCharsAux : Nat → Nat → List Char → List Char
  | 0, _, acc => acc
  | fuel + 1, n, acc =>
    if n < 10 then Char.ofNat (48 + n) :: acc
    else decimalCharsAux fuel (n / 10) (Char.ofNat (48 + n % 10) :: acc)

/-- The decimal digits of a number. -/
def decimalChars (n : Nat) : List Char := decimalCharsAux (n + 1) n []

/-- Modelled from the spec: the text that `json.Marshal` writes for a finite
`float64`. The digits are the shortest ones; the number is written with an
exponent when its magnitude is below `1e-6` or is `1e21` at least, which is
when its first digit has a weight below `10 ^ (-6)` or of `10 ^ 21` at least,
and the exponent is written with a sign and no leading zero. -/
def marshalFloat64 (f : Float64) : List Char :=
  let sign := if f.neg then ['-'] else []
  if f.mant = 0 then sign ++ ['0']
  else
    let r := shortestDecimal f.mant f.exp
    let digits := decimalChars r.1
    let point : Int := (digits.length : Int) + r.2
    if point < -5 ∨ 21 < point then
      let e := point - 1
      sign ++ digits.take 1 ++ (if digits.length = 1 then [] else '.' :: digits.drop 1)
        ++ 'e' :: (if e < 0 then '-' else '+') :: decimalChars e.natAbs
    else if point ≤ 0 then
      sign ++ '0' :: '.' :: (List.replicate (-point).toNat '0' ++ digits)
    else if (digits.length : Int) ≤ point then
      sign ++ digits ++ List.replicate (point - (digits.length : Int)).toNat '0'
    else
      sign ++ digits.take point.toNat ++ '.' :: digits.drop point.toNat

/-- Modelled from the spec: a JSON number literal after a pass through a
`float64`, as `json.Unmarshal` into an `any` followed by `json.Marshal` leaves
it (both of the Go standard library, which is not among the sources). `none`
when `strconv.ParseFloat` reports the literal as out of range, and for a text
that is not a number literal. -/
def float64Text (lit : String) : Option String :=
  match readNumber lit.data with
  | none => none
  | some d =>
    match parseFloat64 d with
    | none => none
    | some f => some (String.mk (marshalFloat64 f))

/-! ## Concrete collaborators used to run the definitions -/

/-- JSON texts represented by the value they denote; `none` is a text that is
not valid JSON. A number read into an `any` goes through `float64Text`, and a
map is written with its keys sorted. -/
def plainJson : Json (Option JVal) where
  decode := fun b => b
  float64 := float64Text
  encode := fun m => some (written (.obj m))

/-- An environment over `plainJson`: errors are booleans, `true` being a
not-found error, and the external id is spelled out from the coordinate. -/
def plainEnv : Env (Option JVal) Bool where
  toJson := plainJson
  GenerateExternalID := fun c => "monaco-" ++ c.Project ++ "-" ++ c.Type_ ++ "-" ++ c.ConfigId
  IsNotFoundError := fun e => e

/-- A stateless source that answers every call with a fixed result. -/
def fixedSource {B E : Type} (update create : Except E B) (list : Except E (List B)) :
    DeploySource Unit B E where
  Update := fun _ _ s => (update, s)
  Create := fun _ s => (create, s)
  List := fun s => (list, s)

/-- The config `project:slo-v2:my-slo` without origin object id. -/
def sloConfig : Config :=
  { Coordinate := ⟨"project", "slo-v2", "my-slo"⟩, Type_ := .other "slo-v2",
    OriginObjectId := "" }

/-- The config `sloConfig` pinned to the remote object `origin-1`. -/
def pinnedConfig : Config := { sloConfig with OriginObjectId := "origin-1" }

/-- The external id of `sloConfig` and `pinnedConfig` under `plainEnv`. -/
def sloExternalID : String := "monaco-project-slo-v2-my-slo"

/-- The rendered config `{"name": "availability"}`. -/
def sloRendered : Option JVal := some (.obj [("name", .str "availability")])

/-- The payload sent for `sloRendered`. -/
def sloPayload : Option JVal :=
  some (.obj [("externalId", .str sloExternalID), ("name", .str "availability")])

/-- The rendered config `{"target": 99.50, "name": "availability"}`. -/
def targetRendered : Option JVal :=
  some (.obj [("target", .num "99.50"), ("name", .str "availability")])

/-- The payload sent for `targetRendered`. -/
def targetPayload : Option JVal :=
  some (.obj [("externalId", .str sloExternalID), ("name", .str "availability"),
    ("target", .num "99.5")])

/-- The rendered config `{"limit": 12345678901234567890}`. -/
def limitRendered : Option JVal := some (.obj [("limit", .num "12345678901234567890")])

/-- A listed object with id `slo-1` that carries the external id of
`sloConfig`. -/
def matchingItem : Option JVal :=
  some (.obj [("id", .str "slo-1"), ("externalId", .str sloExternalID)])

/-- A listed object with id `slo-0` and another external id. -/
def otherItem : Option JVal :=
  some (.obj [("id", .str "slo-0"), ("externalId", .str "monaco-other")])

/-- A listed object that carries the external id of `sloConfig` and no id. -/
def idlessItem : Option JVal := some (.obj [("externalId", .str sloExternalID)])

/-- A listed object whose `id` is a number. -/
def numericIdItem : Option JVal := some (.obj [("id", .num "5")])

/-- The response `{"id": "new-1"}` of a create call. -/
def createdResponse : Option JVal := some (.obj [("id", .str "new-1")])

/-! ## Strategy 1 seen from strategies 2 and 3 -/

/-- Strategy 1 leaves the deploy to strategies 2 and 3: the config has no
`OriginObjectId`, or the update by it fails with a not-found error. -/
def tier1FallsThrough {σ B E : Type} (env : Env B E) (src : DeploySource σ B E) (c : Config)
    (payload : B) (s : σ) : Prop :=
  c.OriginObjectId = "" ∨
    ∃ e, (src.Update c.OriginObjectId payload s).1 = .error e ∧ env.IsNotFoundError e = true

/-- The remote state in which strategy 2 starts. -/
def tier1State {σ B E : Type} (src : DeploySource σ B E) (c : Config) (payload : B) (s : σ) : σ :=
  if c.OriginObjectId = "" then s else (src.Update c.OriginObjectId payload s).2

/-- The calls made before strategy 2 starts. -/
def tier1Calls {B : Type} (c : Config) (payload : B) : List (Call B) :=
  if c.OriginObjectId = "" then [] else [Call.update c.OriginObjectId payload]

/-! ## A remote store

The remote side as a store of objects, to run `Deploy` twice in a row: a list
of pairs of an id and the payload last sent for it. -/

/-- The external id of a stored payload: the string under its `externalId`
key, empty when the payload has none. -/
def storedExternalId {B : Type} (J : Json B) (data : B) : String :=
  match J.decode data with
  | some (.obj members) =>
    match mapLookup members "externalId" with
    | some (.str e) => e
    | _ => ""
  | _ => ""

/-- What the store lists for a stored object: its id and its external id. -/
def listItem {B : Type} (J : Json B) (p : String × B) : B :=
  J.encode [("id", .str p.1), ("externalId", .str (storedExternalId J p.2))]

/-- An id that none of `ids` is: it is longer than all of them together. -/
def freshId (ids : List String) : String :=
  String.mk (List.replicate ((ids.map String.length).sum + 1) 'x')

/-- The store as a `DeploySource`. `Create` adds the sent payload under a
fresh id and answers with `{"id": <that id>}`; `List` lists every stored
object; `Update` replaces the payload stored under the given id and fails with
`notFound` when there is none. -/
def storeSource {B E : Type} (J : Json B) (notFound : E) :
    DeploySource (List (String × B)) B E where
  Update := fun id data st =>
    if id ∈ st.map Prod.fst then
      (.ok data, st.map (fun p => if p.1 = id then (id, data) else p))
    else (.error notFound, st)
  Create := fun data st =>
    (.ok (J.encode [("id", .str (freshId (st.map Prod.fst)))]),
      st ++ [(freshId (st.map Prod.fst), data)])
  List := fun st => (.ok (st.map (listItem J)), st)

/-- A source that lists `otherItem` and `matchingItem`, accepts every update
and answers a create with `createdResponse`. -/
def listingSource : DeploySource Unit (Option JVal) Bool :=
  fixedSource (.ok none) (.ok createdResponse) (.ok [otherItem, matchingItem])

/-! ## The id a deploy ends with -/

/-- The id `id` is the one a successful `Deploy` with the calls `log` used: the
`OriginObjectId`, updated as the only call (strategy 1); or the id that
`findMatchOnRemote` matched, updated after `List` (strategy 2); or the `ID` that
`responseFromHttpData` reads from the response of the `Create` made after
`List` (strategy 3). -/
def idFinallyUsed {σ B E : Type} (env : Env B E) (src : DeploySource σ B E) (c : Config)
    (payload : B) (s : σ) (log : List (Call B)) (id : String) : Prop :=
  (c.OriginObjectId ≠ "" ∧ id = c.OriginObjectId
      ∧ (∃ response, (src.Update c.OriginObjectId payload s).1 = .ok response)
      ∧ log = [Call.update c.OriginObjectId payload])
  ∨ ((findMatchOnRemote env src (env.GenerateExternalID c.Coordinate)
        (tier1State src c payload s)).1 = .ok (id, true)
      ∧ log = tier1Calls c payload ++ [Call.list, Call.update id payload])
  ∨ (∃ response r,
      (src.Create payload (findMatchOnRemote env src
        (env.GenerateExternalID c.Coordinate) (tier1State src c payload s)).2).1
        = .ok response
      ∧ responseFromHttpData env response = .ok r ∧ r.ID = id
      ∧ log = tier1Calls c payload ++ [Call.list, Call.create payload])

/-! ## `pkg/deploy/classic.go` -/

/-- The fields of `api.API` that `deployClassicConfig` reads. -/
structure API where
  ID : String
  NonUniqueName : Bool
  DeprecatedBy : String
  deriving DecidableEq, Repr

/-- The catalog `api.APIs`, a `map[string]API`, as an association list. -/
abbrev APIs := List (String × API)

/-- The lookup `apis[name]` with the comma-ok form. -/
def apiLookup (apis : APIs) (name : String) : Option API :=
  match apis with
  | [] => none
  | (k, a) :: rest => if k = name then some a else apiLookup rest name

/-- The struct `dtclient.DynatraceEntity`. -/
structure DynatraceEntity where
  Id : String
  Name : String
  deriving DecidableEq, Repr

/-- The two methods of `dtclient.ConfigClient` that the classic deploy calls,
as state-passing functions; the payload is `[]byte(renderedConfig)`. -/
structure ConfigClient (σ E : Type) where
  UpsertConfigByName : API → String → String → σ → Except E DynatraceEntity × σ
  UpsertConfigByNonUniqueNameAndId :
    API → String → String → String → σ → Except E DynatraceEntity × σ

/-- The type `entityMap` as `deployClassicConfig` uses it: the method
`contains(apiID, name)`. -/
structure entityMap where
  contains : String → String → Bool

/-- What `classic.go` takes from the rest of the repository: three functions
of `idutils` and `extractConfigName`, whose errors are of type `N`. -/
structure ClassicEnv (N : Type) where
  IsUUID : String → Bool
  IsMeId : String → Bool
  GenerateUUIDFromConfigId : String → String → String
  extractConfigName : Config → Properties → Except N String

/-- The errors `deployClassicConfig` returns. -/
inductive ClassicError (E N : Type) where
  /-- `config was not of expected type %q, but %q` -/
  | notClassic (got : String)
  /-- `unknown api %s. this is most likely a bug` -/
  | unknownApi (api : String)
  /-- the error of `extractConfigName`, returned as it is -/
  | configName (err : N)
  /-- `newConfigDeployErr(conf, "duplicated config name ...")` -/
  | duplicatedName (config : Coordinate) (name : String)
  /-- `newConfigDeployErr(conf, err.Error())` for an error of the client -/
  | upsert (config : Coordinate) (err : E)

/-- What `deployClassicConfig` hands back: the entity behind the returned
pointer, the error, and the caller's `properties` map as the call left it. -/
structure ClassicReturned (E N : Type) where
  entity : ResolvedEntity
  err : Option (ClassicError E N)
  properties : Properties

/-- An error return of `deployClassicConfig`: `&parameter.ResolvedEntity{}`
and the error. -/
def classicFailed {E N : Type} (properties : Properties) (err : ClassicError E N) :
    ClassicReturned E N :=
  { entity := ResolvedEntity.zero, err := some err, properties := properties }

/-- The function `upsertNonUniqueNameConfig`. -/
def upsertNonUniqueNameConfig {σ E N : Type} (env : ClassicEnv N) (client : ConfigClient σ E)
    (apiToDeploy : API) (conf : Config) (configName : String) (renderedConfig : String)
    (s : σ) : Except E DynatraceEntity × σ :=
  let configID := conf.Coordinate.ConfigId
  let projectId := conf.Coordinate.Project
  let entityUuid := configID
  let isUUIDOrMeID := env.IsUUID entityUuid || env.IsMeId entityUuid
  let entityUuid := if !isUUIDOrMeID then env.GenerateUUIDFromConfigId projectId configID
    else entityUuid
  client.UpsertConfigByNonUniqueNameAndId apiToDeploy entityUuid configName renderedConfig s

/-- The function `deployClassicConfig`. The deprecation warning it logs has no
effect on the result. -/
def deployClassicConfig {σ E N : Type} (env : ClassicEnv N) (configClient : ConfigClient σ E)
    (apis : APIs) (entities : entityMap) (properties : Properties) (renderedConfig : String)
    (conf : Config) (s : σ) : ClassicReturned E N × σ :=
  match conf.Type_ with
  | .other id => (classicFailed properties (.notClassic id), s)
  | .ClassicApiType tApi =>
    match apiLookup apis tApi with
    | none => (classicFailed properties (.unknownApi tApi), s)
    | some apiToDeploy =>
      match env.extractConfigName conf properties with
      | .error err => (classicFailed properties (.configName err), s)
      | .ok configName =>
        if entities.contains apiToDeploy.ID configName && !apiToDeploy.NonUniqueName then
          (classicFailed properties (.duplicatedName conf.Coordinate configName), s)
        else
          match (if apiToDeploy.NonUniqueName then
              upsertNonUniqueNameConfig env configClient apiToDeploy conf configName
                renderedConfig s
            else configClient.UpsertConfigByName apiToDeploy configName renderedConfig s) with
          | (.error err, s1) => (classicFailed properties (.upsert conf.Coordinate err), s1)
          | (.ok entity, s1) =>
            let properties := mapStore properties IdParameter (.str entity.Id)
            let properties := mapStore properties NameParameter (.str entity.Name)
            ({ entity := { EntityName := entity.Name, Coordinate := conf.Coordinate,
                           Properties := properties, Skip := false },
               err := none,
               properties := properties }, s1)

/-- A call on a `ConfigClient`, with its arguments. -/
inductive ClientCall where
  | byName (api : API) (name : String) (payload : String)
  | byNonUniqueNameAndId (api : API) (id : String) (name : String) (payload : String)
  deriving DecidableEq, Repr

/-- The client `client` with a log of the calls made on it. -/
def recordingClient {σ E : Type} (client : ConfigClient σ E) :
    ConfigClient (σ × List ClientCall) E where
  UpsertConfigByName := fun a name payload st =>
    ((client.UpsertConfigByName a name payload st.1).1,
      ((client.UpsertConfigByName a name payload st.1).2,
        st.2 ++ [ClientCall.byName a name payload]))
  UpsertConfigByNonUniqueNameAndId := fun a id name payload st =>
    ((client.UpsertConfigByNonUniqueNameAndId a id name payload st.1).1,
      ((client.UpsertConfigByNonUniqueNameAndId a id name payload st.1).2,
        st.2 ++ [ClientCall.byNonUniqueNameAndId a id name payload]))

/-- Modelled from the spec: `extractConfigName`, which is not among the
sources, computes the display name from the resolved properties. Here it is
the string under `name`, and an error text when there is none. The theorems
hold for every `extractConfigName`; this one is used to run the definitions. -/
def nameProperty (_conf : Config) (properties : Properties) : Except String String :=
  match mapLookup properties NameParameter with
  | some (.str name) => .ok name
  | some _ => .error "`name` in config is not of type string"
  | none => .error "missing `name` for config"

/-- A `ClassicEnv` to run the definitions: an id counts as a UUID when it has
36 characters, as a monitored-entity id when it starts with `HOST-`, and the
generated identifier spells out project and config id. -/
def plainClassicEnv : ClassicEnv String where
  IsUUID := fun id => id.length = 36
  IsMeId := fun id => "HOST-".data.isPrefixOf id.data
  GenerateUUIDFromConfigId := fun project configId => "uuid-of-" ++ project ++ "-" ++ configId
  extractConfigName := nameProperty

/-- A client that answers every upsert with the entity `(id-of-<name>, <name>)`. -/
def echoClient : ConfigClient Unit String where
  UpsertConfigByName := fun _ name _ s => (.ok ⟨"id-of-" ++ name, name⟩, s)
  UpsertConfigByNonUniqueNameAndId := fun _ id name _ s => (.ok ⟨id, name⟩, s)

/-- A catalog with the name-unique API `alerting-profile` and the
non-unique-name API `dashboard`. -/
def demoApis : APIs :=
  [("alerting-profile", ⟨"alerting-profile", false, ""⟩), ("dashboard", ⟨"dashboard", true, ""⟩)]

/-- An entity map that holds the name `taken` for every API. -/
def demoEntities : entityMap := { contains := fun _ name => name = "taken" }

/-- A classic config of the API `alerting-profile`. -/
def profileConfig : Config :=
  { Coordinate := ⟨"project", "alerting-profile", "profile"⟩,
    Type_ := .ClassicApiType "alerting-profile", OriginObjectId := "" }

/-- A classic config of the non-unique-name API `dashboard`. -/
def dashboardConfig : Config :=
  { Coordinate := ⟨"project", "dashboard", "board"⟩,
    Type_ := .ClassicApiType "dashboard", OriginObjectId := "" }

/-- A config with the project and config id of `dashboardConfig` and another
coordinate type. -/
def boardCopyConfig : Config :=
  { Coordinate := ⟨"project", "dashboard-copy", "board"⟩,
    Type_ := .ClassicApiType "dashboard", OriginObjectId := "origin" }

/-- A classic config of an API that `demoApis` does not hold. -/
def unknownApiConfig : Config :=
  { Coordinate := ⟨"project", "no-such-api", "x"⟩,
    Type_ := .ClassicApiType "no-such-api", OriginObjectId := "" }

/-- Modelled from the spec: an object a run has deployed, as the duplicate
guard sees it (coordinate, remote type, display name). The type `entityMap`
is not among the sources. -/
structure DeployedEntity where
  Coordinate : Coordinate
  Api : String
  Name : String
  deriving DecidableEq, Repr

/-- Modelled from the spec: the entity map holding the objects `deployed`;
`contains` tells whether one of them has the API and the name. -/
def entityMapOf (deployed : List DeployedEntity) : entityMap :=
  { contains := fun api name => deployed.any (fun d => d.Api = api ∧ d.Name = name) }

/-- A source that lists `otherItem` only and answers a create with
`createdResponse`. -/
def creatingSource : DeploySource Unit (Option JVal) Bool :=
  fixedSource (.ok none) (.ok createdResponse) (.ok [otherItem])

/-! ## `pkg/report/record.go` -/

/-- What `ReadReportFile` sees of an opened file through `bufio.NewScanner`:
the lines that the successive calls of `s.Scan()` hand out in `s.Bytes()`, in
file order, and the value of `s.Err()` once `Scan` has returned false. The
error is `none` when the scanner reached the end of the file, and an error
when it stopped before that (a read error, or `bufio.ErrTooLong` at a line
longer than the scanner's maximum token size). -/
structure ScannedFile (B E : Type) where
  lines : List B
  err : Option E

/-- The errors `ReadReportFile` can return: the error of `fs.Open`, or the
error of `json.Unmarshal` on a line. -/
inductive ReadError (E J : Type) where
  | fs (err : E)
  | unmarshal (err : J)

/-- The loop `for s.Scan()` of `ReadReportFile` over the lines the scanner
hands out: each line is decoded into a fresh `Record` and appended; the first
line that does not decode ends the loop with its error. -/
def readRecords {B J R : Type} (unmarshal : B → Except J R) :
    List B → List R → Except J (List R)
  | [], records => .ok records
  | line :: rest, records =>
    match unmarshal line with
    | .error err => .error err
    | .ok r => readRecords unmarshal rest (records ++ [r])

/-- The function `ReadReportFile`. `Open` is `fs.Open` followed by the scan of
the file, `unmarshal` is `json.Unmarshal` into a `Record`. The result is the
Go pair: the slice (nil is the empty list) and the error. After the loop the
code tests `s.Err()` and returns `nil, err`, where `err` is the variable
assigned by `fs.Open`, which is nil at that point. -/
def ReadReportFile {B E J R : Type} (Open : String → Except E (ScannedFile B E))
    (unmarshal : B → Except J R) (filename : String) : List R × Option (ReadError E J) :=
  match Open filename with
  | .error err => ([], some (.fs err))
  | .ok f =>
    let err : Option (ReadError E J) := none
    match readRecords unmarshal f.lines [] with
    | .error err1 => ([], some (.unmarshal err1))
    | .ok records =>
      if f.err.isSome then ([], err)
      else (records, none)

/-- A file system with one file: `report.jsonl` is `f`, nothing else opens. -/
def oneFile {B : Type} (f : ScannedFile B String) : String → Except String (ScannedFile B String) :=
  fun name => if name = "report.jsonl" then .ok f else .error "file does not exist"

/-- Lines represented by the record they decode to, a number here; `none` is
a line that is not a JSON record. -/
def plainUnmarshal : Option Nat → Except JsonError Nat
  | some r => .ok r
  | none => .error .invalid

/-! ## `pkg/client/dtclient/dummy_settings_client.go` -/

/-- The fields of `dtclient.SettingsObject` that the dummy client reads. -/
structure SettingsObject where
  Coordinate : Coordinate
  SchemaId : String
  deriving DecidableEq, Repr

/-- What `DummySettingsClient.Upsert` takes from its imports: `uuid.New()`
followed by `String()`, which draws from a random source of state `ρ`, and
`base64.RawURLEncoding.EncodeToString` of the bytes of a string. -/
structure DummyEnv (ρ : Type) where
  newUUID : ρ → String × ρ
  base64 : String → String

/-- The method `DummySettingsClient.Upsert`, run on the state `rng` of the
random source: the Go result pair (the error is always nil) and the state of
the random source afterwards. The context and the options are not read. -/
def DummySettingsClient.Upsert {ρ : Type} (env : DummyEnv ρ) (obj : SettingsObject) (rng : ρ) :
    (DynatraceEntity × Option String) × ρ :=
  let id := obj.Coordinate.ConfigId
  if obj.SchemaId = "builtin:management-zones" then
    let uuid := env.newUUID rng
    let id := env.base64 uuid.1
    (({ Id := id, Name := obj.Coordinate.ConfigId }, none), uuid.2)
  else
    (({ Id := id, Name := obj.Coordinate.ConfigId }, none), rng)

/-- A random source that hands out the UUIDs of a list one after the other,
and an encoding that marks its argument. -/
def listedUUIDs : DummyEnv (List String) where
  newUUID := fun rng =>
    match rng with
    | [] => ("00000000-0000-4000-8000-000000000000", [])
    | u :: rest => (u, rest)
  base64 := fun s => "base64:" ++ s

/-- A settings object of the schema `builtin:management-zones`. -/
def zoneObject : SettingsObject :=
  { Coordinate := ⟨"project", "builtin:management-zones", "zone"⟩,
    SchemaId := "builtin:management-zones" }

/-- A settings object of another schema. -/
def tagObject : SettingsObject :=
  { Coordinate := ⟨"project", "builtin:tags.auto-tagging", "tag"⟩,
    SchemaId := "builtin:tags.auto-tagging" }

/-! ## `JSONTime` of `pkg/report/record.go`

`MarshalJSON` and `UnmarshalJSON` are two lines each: `time.Time.Format` and
`time.Parse` with the layout `time.RFC3339`, and `encoding/json` on a Go
string. The Go standard library is not among the sources; its RFC3339 text is
modelled here from the format the spec names, on the proleptic Gregorian
calendar that `time.Time` uses. -/

/-- A `time.Time` as `JSONTime` holds it: the instant, in seconds since
1970-01-01T00:00:00Z and nanoseconds within the second, and the offset of its
zone east of UTC, in seconds. -/
structure JSONTime where
  sec : Int
  nsec : Nat
  offset : Int
  deriving DecidableEq, Repr

/-- The struct `Record`; the type `Detail` of its details is declared in
another file of the package. -/
structure Record (Detail : Type) where
  Type_ : String
  Time : JSONTime
  Config : Coordinate
  State : String
  Details : List Detail
  Error : Option String

/-- Modelled from the spec: leap years of the Gregorian calendar, on which the
Go standard library (not among the sources) places a `time.Time`. -/
def isLeap (year : Int) : Bool := year % 4 = 0 && (year % 100 ≠ 0 || year % 400 = 0)

/-- Modelled from the spec: the days of a year without leap day that lie
before the first of the month. -/
def daysBefore (month : Int) : Int :=
  if month ≤ 1 then 0 else if month = 2 then 31 else if month = 3 then 59
  else if month = 4 then 90 else if month = 5 then 120 else if month = 6 then 151
  else if month = 7 then 181 else if month = 8 then 212 else if month = 9 then 243
  else if month = 10 then 273 else if month = 11 then 304 else 334

/-- Modelled from the spec: the number of days of a month. -/
def daysIn (month year : Int) : Int :=
  if month = 2 then (if isLeap year then 29 else 28)
  else if month = 4 ∨ month = 6 ∨ month = 9 ∨ month = 11 then 30 else 31

/-- Modelled from the spec: the days from 1970-01-01 to a date of the
calendar, as `time.Date` counts them for a valid date. -/
def daysFromCivil (year month day : Int) : Int :=
  let y := year - 1
  365 * y + y / 4 - y / 100 + y / 400 + daysBefore month
    + (if isLeap year ∧ 3 ≤ month then 1 else 0) + (day - 1) - 719162

/-- Modelled from the spec: month and day of the day `day`, counted from 0, of
a year without leap day. -/
def monthDayOf (day : Int) : Int × Int :=
  if day < 31 then (1, day + 1) else if day < 59 then (2, day - 30)
  else if day < 90 then (3, day - 58) else if day < 120 then (4, day - 89)
  else if day < 151 then (5, day - 119) else if day < 181 then (6, day - 150)
  else if day < 212 then (7, day - 180) else if day < 243 then (8, day - 211)
  else if day < 273 then (9, day - 242) else if day < 304 then (10, day - 272)
  else if day < 334 then (11, day - 303) else (12, day - 333)

/-- Modelled from the spec: month and day of the day `yday`, counted from 0,
of a year; day 59 of a leap year is the 29th of February. -/
def monthDay (leap : Bool) (yday : Int) : Int × Int :=
  if leap ∧ yday = 59 then (2, 29)
  else monthDayOf (if leap ∧ 59 < yday then yday - 1 else yday)

/-- Modelled from the spec: year and day of the year of the day `z` after
1970-01-01, by cycles of 400, 100, 4 and 1 years counted from the year 1; the
last year of a cycle of 400 or 4 years has one day more. -/
def yearDay (z : Int) : Int × Int :=
  let d := z + 719162
  let n400 := d / 146097
  let d := d - 146097 * n400
  let n100 := if d / 36524 = 4 then 3 else d / 36524
  let d := d - 36524 * n100
  let n4 := d / 1461
  let d := d - 1461 * n4
  let n1 := if d / 365 = 4 then 3 else d / 365
  let d := d - 365 * n1
  (400 * n400 + 100 * n100 + 4 * n4 + n1 + 1, d)

/-- Modelled from the spec: the date (year, month, day) of the day `z` after
1970-01-01. -/
def civilFromDays (z : Int) : Int × Int × Int :=
  let yd := yearDay z
  let md := monthDay (isLeap yd.1) yd.2
  (yd.1, md.1, md.2)

/-- The character of a decimal digit. -/
def digitChar (d : Nat) : Char := Char.ofNat (48 + d)

/-- The last `width` decimal digits of `x`, leading zeros included. -/
def fixedDigits (x : Nat) : Nat → List Char
  | 0 => []
  | w + 1 => fixedDigits (x / 10) w ++ [digitChar (x % 10)]

/-- Modelled from the spec: a number in decimal, padded with zeros to the
width; a number with more digits is written in full. -/
def appendInt (x width : Nat) : List Char :=
  if x < 10 ^ width then fixedDigits x width else Nat.toDigits 10 x

/-- Modelled from the spec: the year of a date, four digits at least. -/
def appendYear (year : Int) : List Char :=
  if year < 0 then '-' :: appendInt (-year).toNat 4 else appendInt year.toNat 4

/-- Modelled from the spec: the zone of an RFC3339 text for an offset in
seconds: `Z` for the offset 0, else sign, hours, a colon and minutes, the
seconds of the offset being cut off (Go's division truncates toward zero). -/
def zoneText (offset : Int) : List Char :=
  if offset = 0 then ['Z']
  else
    let zone := offset.tdiv 60
    (if zone < 0 then '-' else '+')
      :: (appendInt (zone.natAbs / 60) 2 ++ ':' :: appendInt (zone.natAbs % 60) 2)

/-- Modelled from the spec: `time.Time.Format(time.RFC3339)` of the Go standard
library, which is not among the sources. The layout is
`2006-01-02T15:04:05Z07:00`: date and clock of the instant in the zone of the
time, then the zone; the nanoseconds are not written. -/
def formatRFC3339 (t : JSONTime) : List Char :=
  let abs := t.sec + t.offset
  let date := civilFromDays (abs / 86400)
  let clock := (abs % 86400).toNat
  appendYear date.1 ++ '-' :: (appendInt date.2.1.toNat 2 ++ '-' :: (appendInt date.2.2.toNat 2
    ++ 'T' :: (appendInt (clock / 3600) 2 ++ ':' :: (appendInt (clock % 3600 / 60) 2
    ++ ':' :: (appendInt (clock % 60) 2 ++ zoneText t.offset)))))

/-- The value of a decimal digit, `none` for another character. -/
def digitValue (c : Char) : Option Nat :=
  if 48 ≤ c.toNat ∧ c.toNat ≤ 57 then some (c.toNat - 48) else none

/-- The number written by decimal digits, read after `acc`. -/
def parseDigits : List Char → Nat → Option Nat
  | [], acc => some acc
  | c :: cs, acc =>
    match digitValue c with
    | none => none
    | some v => parseDigits cs (acc * 10 + v)

/-- A field of digits whose number lies in `lo..hi`. -/
def parseUint (cs : List Char) (lo hi : Nat) : Option Nat :=
  match parseDigits cs 0 with
  | none => none
  | some x => if lo ≤ x ∧ x ≤ hi then some x else none

/-- The nanoseconds written by the digits of a fraction of a second; digits
after the ninth do not count. -/
def fractionNanos : List Char → Nat → Nat → Nat
  | [], acc, scale => acc * scale
  | c :: cs, acc, scale =>
    match digitValue c with
    | none => acc * scale
    | some v => if scale = 1 then acc else fractionNanos cs (acc * 10 + v) (scale / 10)

/-- An optional fraction of a second, a period and digits, at the head of a
text: its nanoseconds and the text after it. -/
def parseFraction (s : List Char) : Nat × List Char :=
  match s with
  | '.' :: c :: rest =>
    if (digitValue c).isSome then
      (fractionNanos (c :: rest) 0 1000000000,
        (c :: rest).dropWhile (fun x => (digitValue x).isSome))
    else (0, s)
  | _ => (0, s)

/-- The offset in seconds that the zone of an RFC3339 text writes: `Z`, or a
sign, hours up to 23, a colon and minutes up to 59. -/
def parseZone (s : List Char) : Option Int :=
  match s with
  | ['Z'] => some 0
  | [sign, h1, h2, colon, m1, m2] =>
    match parseUint [h1, h2] 0 23, parseUint [m1, m2] 0 59 with
    | some hr, some mm =>
      if colon = ':' then
        if sign = '+' then some (((hr * 60 + mm) * 60 : Nat) : Int)
        else if sign = '-' then some (-(((hr * 60 + mm) * 60 : Nat) : Int))
        else none
      else none
    | _, _ => none
  | _ => none

/-- The fields of an RFC3339 text read into a time: year up to 9999, month,
a day that the month has, clock, then fraction and zone. The instant is the
date and clock, taken in the zone. -/
def parseFields (year month day hour minute second : List Char) (separators : List Char)
    (rest : List Char) : Option JSONTime :=
  match parseUint year 0 9999, parseUint month 1 12 with
  | some y, some mo =>
    match parseUint day 1 (daysIn mo y).toNat, parseUint hour 0 23, parseUint minute 0 59,
        parseUint second 0 59 with
    | some d, some h, some mi, some s =>
      if separators = ['-', '-', 'T', ':', ':'] then
        let fraction := parseFraction rest
        match parseZone fraction.2 with
        | some offset =>
          some { sec := daysFromCivil y mo d * 86400 + h * 3600 + mi * 60 + s - offset,
                 nsec := fraction.1, offset := offset }
        | none => none
      else none
    | _, _, _, _ => none
  | _, _ => none

/-- Modelled from the spec: `time.Parse(time.RFC3339, s)` of the Go standard
library, which is not among the sources. The texts read are the date-times of
RFC 3339 (`2006-01-02T15:04:05`, an optional fraction of a second, then `Z` or
an offset `+07:00`); the result is the time the text writes, and `none`, the
error of `time.Parse`, for a text outside this grammar. -/
def parseRFC3339 (s : List Char) : Option JSONTime :=
  match s with
  | y1 :: y2 :: y3 :: y4 :: c1 :: m1 :: m2 :: c2 :: d1 :: d2 :: c3 :: h1 :: h2 :: c4 :: n1 :: n2
      :: c5 :: s1 :: s2 :: rest =>
    parseFields [y1, y2, y3, y4] [m1, m2] [d1, d2] [h1, h2] [n1, n2] [s1, s2]
      [c1, c2, c3, c4, c5] rest
  | _ => none

/-- The codec `Json B` together with `json.Marshal` of a Go string, which
cannot fail. -/
structure StringJson (B : Type) extends Json B where
  encodeString : String → B

/-- The errors of `UnmarshalJSON`: the error of `json.Unmarshal` into a string,
or the error of `time.Parse`. -/
inductive TimeError where
  | json (err : JsonError)
  | parse
  deriving DecidableEq, Repr

/-- The method `JSONTime.MarshalJSON`. -/
def JSONTime.MarshalJSON {B : Type} (J : StringJson B) (t : JSONTime) : Except TimeError B :=
  let s := String.mk (formatRFC3339 t)
  .ok (J.encodeString s)

/-- The call `json.Unmarshal(b, &s)` for an empty Go string `s`: the value of
`s` afterwards. The JSON value `null` leaves it empty. -/
def unmarshalString {B : Type} (J : Json B) (b : B) : Except JsonError String :=
  match J.decode b with
  | none => .error .invalid
  | some (.str s) => .ok s
  | some .null => .ok ""
  | some _ => .error .typeMismatch

/-- The method `JSONTime.UnmarshalJSON` with the receiver `*t`: the value of
`*t` afterwards and the returned error. -/
def JSONTime.UnmarshalJSON {B : Type} (J : StringJson B) (t : JSONTime) (b : B) :
    JSONTime × Option TimeError :=
  match unmarshalString J.toJson b with
  | .error err => (t, some (.json err))
  | .ok s =>
    match parseRFC3339 s.data with
    | none => (t, some .parse)
    | some tVal => (tVal, none)

/-- The codec `plainJson` with strings: a Go string is the JSON string of the
same characters. -/
def plainStringJson : StringJson (Option JVal) where
  toJson := plainJson
  encodeString := fun s => some (.str s)

/-! # Theorems -/

/-! ## Maps -/

theorem mapLookup_mapDelete (m : GoMap) (k k1 : String) :
    mapLookup (mapDelete m k) k1 = if k = k1 then none else mapLookup m k1 := by
  induction m with
  | nil => simp [mapDelete, mapLookup]
  | cons p rest ih =>
    obtain ⟨k2, v⟩ := p
    by_cases hp : k2 = k
    · by_cases h : k = k1
      · subst h
        simpa [mapDelete, hp] using ih
      · simp [mapDelete, mapLookup, hp, ih, h]
    · by_cases h : k = k1
      · subst h
        simp [mapDelete, hp, ih, mapLookup]
      · simp [mapDelete, hp, ih, mapLookup, h]

/-- Reading a map after `m[k] = v`: the key `k` holds `v`, every other key
holds what it held. -/
theorem mapLookup_mapStore (m : GoMap) (k k1 : String) (v : JVal) :
    mapLookup (mapStore m k v) k1 = if k = k1 then some v else mapLookup m k1 := by
  by_cases h : k = k1
  · simp [mapStore, mapLookup, h]
  · simp [mapStore, mapLookup, h, mapLookup_mapDelete]

/-- Deleting a key leaves a part of the keys, in their order. -/
theorem mapDelete_keys_sublist (m : GoMap) (k : String) :
    ((mapDelete m k).map Prod.fst).Sublist (m.map Prod.fst) := by
  induction m with
  | nil => simp [mapDelete]
  | cons p rest ih =>
    obtain ⟨k1, v⟩ := p
    by_cases h : k1 = k
    · simpa [mapDelete, h] using List.Sublist.cons k1 ih
    · simpa [mapDelete, h] using List.Sublist.cons₂ k1 ih

theorem mapDelete_not_mem (m : GoMap) (k : String) : k ∉ (mapDelete m k).map Prod.fst := by
  induction m with
  | nil => simp [mapDelete]
  | cons p rest ih =>
    obtain ⟨k1, v⟩ := p
    by_cases h : k1 = k
    · simpa [mapDelete, h] using ih
    · simp only [mapDelete, h, if_false, List.map_cons, List.mem_cons, not_or]
      exact ⟨fun h1 => h h1.symm, ih⟩

/-- The statement `m[k] = v` keeps every key of a map single. -/
theorem mapStore_nodup (m : GoMap) (k : String) (v : JVal) (h : (m.map Prod.fst).Nodup) :
    ((mapStore m k v).map Prod.fst).Nodup := by
  simp only [mapStore, List.map_cons, List.nodup_cons]
  exact ⟨mapDelete_not_mem m k, h.sublist (mapDelete_keys_sublist m k)⟩

theorem foldl_mapStore_nodup (members : List (String × JVal)) (acc : GoMap)
    (h : (acc.map Prod.fst).Nodup) :
    ((members.foldl (fun m p => mapStore m p.1 p.2) acc).map Prod.fst).Nodup := by
  induction members generalizing acc with
  | nil => exact h
  | cons p rest ih => exact ih _ (mapStore_nodup acc p.1 p.2 h)

/-- The map built from the members of an object holds every key once. -/
theorem mapOfMembers_nodup (members : List (String × JVal)) :
    ((mapOfMembers members).map Prod.fst).Nodup :=
  foldl_mapStore_nodup members [] (by simp)

/-- In a list of members with single keys, the value read under a key is the
value of the member with that key. -/
theorem mapLookup_eq_some_iff (m : GoMap) (h : (m.map Prod.fst).Nodup) (k : String) (v : JVal) :
    mapLookup m k = some v ↔ (k, v) ∈ m := by
  induction m with
  | nil => simp [mapLookup]
  | cons p rest ih =>
    obtain ⟨k1, v1⟩ := p
    simp only [List.map_cons, List.nodup_cons] at h
    by_cases hk : k1 = k
    · subst hk
      simp only [mapLookup, if_true, List.mem_cons, Prod.mk.injEq, true_and, Option.some.injEq]
      constructor
      · intro h1
        exact Or.inl h1.symm
      · rintro (h1 | h1)
        · exact h1.symm
        · exact absurd (List.mem_map_of_mem Prod.fst h1) h.1
    · simp only [mapLookup, hk, if_false, List.mem_cons, Prod.mk.injEq]
      rw [ih h.2]
      constructor
      · exact Or.inr
      · rintro (⟨h1, -⟩ | h1)
        · exact absurd h1.symm hk
        · exact h1

/-- Two lists of members with single keys that hold the same members in
another order read the same under every key. -/
theorem mapLookup_perm (m1 m2 : GoMap) (hp : m1.Perm m2) (h : (m2.map Prod.fst).Nodup)
    (k : String) : mapLookup m1 k = mapLookup m2 k := by
  have h1 : (m1.map Prod.fst).Nodup := (hp.map Prod.fst).nodup_iff.mpr h
  apply Option.ext
  intro v
  simp only [Option.mem_def]
  rw [mapLookup_eq_some_iff m1 h1, mapLookup_eq_some_iff m2 h]
  exact hp.mem_iff

/-! ## Values on the way into and out of an `any` -/

/-- The maps built from the members of an object and from the same members
with each value turned into an `any` agree on their keys, and under each key
the second holds what `anyOf` makes of the value the first holds. -/
theorem foldl_anyMembers_lookup {B : Type} (J : Json B) (members values : List (String × JVal))
    (acc acc1 : GoMap) (h : anyMembers J members = .ok values)
    (hacc : ∀ k, (mapLookup acc k = none ∧ mapLookup acc1 k = none)
      ∨ ∃ v a, mapLookup acc k = some v ∧ anyOf J v = .ok a ∧ mapLookup acc1 k = some a)
    (k : String) :
    (mapLookup (members.foldl (fun m p => mapStore m p.1 p.2) acc) k = none
        ∧ mapLookup (values.foldl (fun m p => mapStore m p.1 p.2) acc1) k = none)
    ∨ ∃ v a, mapLookup (members.foldl (fun m p => mapStore m p.1 p.2) acc) k = some v
        ∧ anyOf J v = .ok a
        ∧ mapLookup (values.foldl (fun m p => mapStore m p.1 p.2) acc1) k = some a := by
  induction members generalizing values acc acc1 with
  | nil =>
    simp only [anyMembers, Except.ok.injEq] at h
    subst h
    exact hacc k
  | cons p rest ih =>
    obtain ⟨k1, v1⟩ := p
    simp only [anyMembers] at h
    cases ha : anyOf J v1 with
    | error e => simp [ha] at h
    | ok a1 =>
      cases hr : anyMembers J rest with
      | error e => simp [ha, hr] at h
      | ok values1 =>
        simp only [ha, hr, Except.ok.injEq] at h
        subst h
        simp only [List.foldl_cons]
        apply ih values1 (mapStore acc k1 v1) (mapStore acc1 k1 a1) hr
        intro k2
        rw [mapLookup_mapStore, mapLookup_mapStore]
        by_cases hk : k1 = k2
        · simp only [hk, if_true]
          exact Or.inr ⟨v1, a1, rfl, ha, rfl⟩
        · simp only [hk, if_false]
          exact hacc k2

theorem anyMembers_lookup {B : Type} (J : Json B) (members values : List (String × JVal))
    (h : anyMembers J members = .ok values) (k : String) :
    (mapLookup (mapOfMembers members) k = none ∧ mapLookup (mapOfMembers values) k = none)
    ∨ ∃ v a, mapLookup (mapOfMembers members) k = some v ∧ anyOf J v = .ok a
        ∧ mapLookup (mapOfMembers values) k = some a :=
  foldl_anyMembers_lookup J members values [] [] h (fun _ => Or.inl ⟨rfl, rfl⟩) k

theorem mem_of_mem_mapDelete (m : GoMap) (k : String) (p : String × JVal)
    (h : p ∈ mapDelete m k) : p ∈ m := by
  induction m with
  | nil => simp [mapDelete] at h
  | cons q rest ih =>
    obtain ⟨k1, v⟩ := q
    by_cases hk : k1 = k
    · simp only [mapDelete, hk, if_true] at h
      exact List.mem_cons_of_mem _ (ih h)
    · simp only [mapDelete, hk, if_false, List.mem_cons] at h
      rcases h with h | h
      · exact h ▸ List.mem_cons_self _ _
      · exact List.mem_cons_of_mem _ (ih h)

theorem mem_foldl_mapStore (members : List (String × JVal)) (acc : GoMap) (p : String × JVal)
    (h : p ∈ members.foldl (fun m q => mapStore m q.1 q.2) acc) : p ∈ acc ∨ p ∈ members := by
  induction members generalizing acc with
  | nil => exact Or.inl h
  | cons q rest ih =>
    rcases ih _ h with h1 | h1
    · simp only [mapStore, List.mem_cons] at h1
      rcases h1 with h1 | h1
      · exact Or.inr (h1 ▸ List.mem_cons_self _ _)
      · exact Or.inl (mem_of_mem_mapDelete acc q.1 p h1)
    · exact Or.inr (List.mem_cons_of_mem _ h1)

/-- Every value that `anyMembers` gives is `anyOf` of a JSON value. -/
theorem anyMembers_values {B : Type} (J : Json B) (members values : List (String × JVal))
    (h : anyMembers J members = .ok values) : ∀ p ∈ values, ∃ v, anyOf J v = .ok p.2 := by
  induction members generalizing values with
  | nil =>
    simp only [anyMembers, Except.ok.injEq] at h
    subst h
    simp
  | cons q rest ih =>
    obtain ⟨k1, v1⟩ := q
    simp only [anyMembers] at h
    cases ha : anyOf J v1 with
    | error e => simp [ha] at h
    | ok a1 =>
      cases hr : anyMembers J rest with
      | error e => simp [ha, hr] at h
      | ok values1 =>
        simp only [ha, hr, Except.ok.injEq] at h
        subst h
        intro p hp
        rcases List.mem_cons.mp hp with h1 | h1
        · subst h1
          exact ⟨v1, ha⟩
        · exact ih values1 hr p h1

/-- The request map of `addExternalIdAndValidate` holds only values that
`json.Unmarshal` stores in an `any`, the external id being a string. -/
theorem request_values {B : Type} (J : Json B) (members values : List (String × JVal))
    (externalId : String) (h : anyMembers J members = .ok values) :
    ∀ p ∈ mapStore (mapOfMembers values) "externalId" (.str externalId),
      ∃ v, anyOf J v = .ok p.2 := by
  intro p hp
  simp only [mapStore, List.mem_cons] at hp
  rcases hp with hp | hp
  · subst hp
    exact ⟨.str externalId, rfl⟩
  · rcases mem_foldl_mapStore values [] p (mem_of_mem_mapDelete _ _ p hp) with h1 | h1
    · simp at h1
    · exact anyMembers_values J members values h p h1

theorem insertMember_perm (p : String × JVal) (l : List (String × JVal)) :
    (insertMember p l).Perm (p :: l) := by
  induction l with
  | nil => simp [insertMember]
  | cons q rest ih =>
    simp only [insertMember]
    split_ifs
    · exact List.Perm.refl _
    · exact ((List.Perm.cons q ih).trans (List.Perm.swap p q rest))

/-- Sorting the members keeps them, in another order. -/
theorem sortMembers_perm (l : List (String × JVal)) : (sortMembers l).Perm l := by
  induction l with
  | nil => simp [sortMembers]
  | cons p rest ih =>
    simp only [sortMembers]
    exact (insertMember_perm p _).trans (List.Perm.cons p ih)

theorem writtenMembers_keys (m : List (String × JVal)) :
    (writtenMembers m).map Prod.fst = m.map Prod.fst := by
  induction m with
  | nil => simp [writtenMembers]
  | cons p rest ih =>
    obtain ⟨k, v⟩ := p
    simp [writtenMembers, ih]

theorem mapLookup_writtenMembers (m : List (String × JVal)) (k : String) :
    mapLookup (writtenMembers m) k = (mapLookup m k).map written := by
  induction m with
  | nil => simp [writtenMembers, mapLookup]
  | cons p rest ih =>
    obtain ⟨k1, v⟩ := p
    by_cases h : k1 = k
    · simp [writtenMembers, mapLookup, h]
    · simp [writtenMembers, mapLookup, h, ih]

/-- The codec `plainJson` reads back the maps it writes. -/
theorem plainJson_readsBack : readsBack plainJson := by
  intro m hm _
  have hkeys : ((writtenMembers m).map Prod.fst).Nodup := by
    rw [writtenMembers_keys]
    exact hm
  refine ⟨sortMembers (writtenMembers m), by simp [plainJson, written], ?_, ?_⟩
  · rw [← writtenMembers_keys m]
    exact (sortMembers_perm _).map Prod.fst
  · intro k
    rw [mapLookup_perm _ _ (sortMembers_perm _) hkeys, mapLookup_writtenMembers]

/-! ## The recorder -/

theorem recording_Update {σ B E : Type} (src : DeploySource σ B E) (id : String) (data : B)
    (st : σ × List (Call B)) :
    (recording src).Update id data st =
      ((src.Update id data st.1).1, ((src.Update id data st.1).2, st.2 ++ [Call.update id data])) :=
  rfl

theorem recording_Create {σ B E : Type} (src : DeploySource σ B E) (data : B)
    (st : σ × List (Call B)) :
    (recording src).Create data st =
      ((src.Create data st.1).1, ((src.Create data st.1).2, st.2 ++ [Call.create data])) :=
  rfl

theorem recording_List {σ B E : Type} (src : DeploySource σ B E) (st : σ × List (Call B)) :
    (recording src).List st = ((src.List st.1).1, ((src.List st.1).2, st.2 ++ [Call.list])) :=
  rfl

/-! ## Validation before sending -/

/-- A rendered config that `json.Unmarshal` rejects, or that is a JSON object
with the key `evaluationType`, makes `Deploy` return an error without any call
on the source. -/
theorem Deploy_rejects_before_sending {σ B E : Type} (env : Env B E)
    (src : DeploySource σ B E) (properties : Properties) (renderedConfig : B) (c : Config)
    (s : σ)
    (h : (∃ e, unmarshalMap env.toJson renderedConfig = .error e) ∨
      (∃ members, env.decode renderedConfig = some (.obj members) ∧
        (mapLookup (mapOfMembers members) "evaluationType").isSome)) :
    ∃ r, Deploy env (recording src) properties renderedConfig c (s, []) = (.returned r, (s, []))
      ∧ r.err.isSome ∧ r.properties = properties := by
  rcases h with ⟨e, he⟩ | ⟨members, hm, hk⟩
  · refine ⟨deployFailed properties c "failed to validate slo payload" (.addExternalID e), ?_,
      rfl, rfl⟩
    simp [Deploy, addExternalIdAndValidate, he]
  · cases ha : anyMembers env.toJson members with
    | error e =>
      refine ⟨deployFailed properties c "failed to validate slo payload" (.addExternalID e), ?_,
        rfl, rfl⟩
      simp [Deploy, addExternalIdAndValidate, unmarshalMap, hm, ha]
    | ok values =>
      refine ⟨deployFailed properties c "failed to validate slo payload" .sloV1, ?_, rfl, rfl⟩
      have hk1 : (mapLookup (mapOfMembers values) "evaluationType").isSome := by
        rcases anyMembers_lookup env.toJson members values ha "evaluationType" with
          ⟨h1, -⟩ | ⟨v, a, -, -, h3⟩
        · simp [h1] at hk
        · simp [h3]
      have hk2 : (mapLookup (mapStore (mapOfMembers values) "externalId"
          (.str (env.GenerateExternalID c.Coordinate))) "evaluationType").isSome := by
        rw [mapLookup_mapStore]
        simpa using hk1
      simp [Deploy, addExternalIdAndValidate, unmarshalMap, hm, ha, hk2]

/-- On the JSON text `null` the write into the nil request map stops `Deploy`
in a panic; nothing has been called. -/
theorem Deploy_panics_on_null {σ B E : Type} (env : Env B E) (src : DeploySource σ B E)
    (properties : Properties) (renderedConfig : B) (c : Config) (s : σ)
    (h : env.decode renderedConfig = some .null) :
    Deploy env (recording src) properties renderedConfig c (s, []) = (.panicked, (s, [])) := by
  simp [Deploy, addExternalIdAndValidate, unmarshalMap, h]

/-- C1, at the failing input: for the rendered config `null`, which is not a
JSON object, `Deploy` does not return an error. It stops in a runtime panic,
with no call made on the source. -/
theorem Deploy_null_payload_panics :
    Deploy plainEnv (recording (fixedSource (.ok none) (.ok none) (.ok []))) []
      (some .null) sloConfig ((), []) = (.panicked, ((), [])) :=
  rfl

/-! ## Strategy 1: update by origin object id -/

/-- C2: with a non-empty `OriginObjectId` and a payload that passes
validation, a successful `Update(OriginObjectId, payload)` is the only call
`Deploy` makes, and `Deploy` returns without error an entity whose `id`
property is `OriginObjectId`. -/
theorem Deploy_tier1_update_by_origin {σ B E : Type} (env : Env B E)
    (src : DeploySource σ B E) (properties : Properties) (renderedConfig : B) (c : Config)
    (s : σ) (payload response : B)
    (hid : c.OriginObjectId ≠ "")
    (hvalid : addExternalIdAndValidate env (env.GenerateExternalID c.Coordinate) renderedConfig
      = .returned (.ok payload))
    (hupdate : (src.Update c.OriginObjectId payload s).1 = .ok response) :
    ∃ r, Deploy env (recording src) properties renderedConfig c (s, []) =
        (.returned r, ((src.Update c.OriginObjectId payload s).2,
          [Call.update c.OriginObjectId payload]))
      ∧ r.err = none
      ∧ r.entity.Coordinate = c.Coordinate
      ∧ mapLookup r.entity.Properties IdParameter = some (.str c.OriginObjectId) := by
  refine ⟨deployedAs c.OriginObjectId properties c, ?_, rfl, rfl, ?_⟩
  · simp [Deploy, hvalid, hid, recording_Update, hupdate]
  · simp [deployedAs, createResolveEntity, mapLookup_mapStore]

/-- C2 on `pinnedConfig`, with a source that accepts the update. -/
theorem Deploy_tier1_update_by_origin_witness :
    ∃ r, Deploy plainEnv (recording (fixedSource (.ok none) (.ok none) (.ok []))) []
        sloRendered pinnedConfig ((), []) =
        (.returned r, ((), [Call.update "origin-1" sloPayload]))
      ∧ r.err = none
      ∧ r.entity.Coordinate = pinnedConfig.Coordinate
      ∧ mapLookup r.entity.Properties IdParameter = some (.str "origin-1") :=
  Deploy_tier1_update_by_origin plainEnv (fixedSource (.ok none) (.ok none) (.ok [])) []
    sloRendered pinnedConfig () sloPayload none (by decide) rfl rfl

/-- Strategies 2 and 3 read only the coordinate of the config. -/
theorem deployByExternalID_origin {σ B E : Type} (env : Env B E) (src : DeploySource σ B E)
    (properties : Properties) (payload : B) (externalID : String) (c : Config) (s : σ) :
    deployByExternalID env src properties payload externalID { c with OriginObjectId := "" } s
      = deployByExternalID env src properties payload externalID c s :=
  rfl

/-- C3: when the `Update` by `OriginObjectId` fails, a not-found error makes
`Deploy` go on exactly as `Deploy` of the same config without
`OriginObjectId` does from the state the failed call left (same calls, same
result); any other error makes `Deploy` return an error after that one call,
with neither `List` nor `Create` called. -/
theorem Deploy_tier1_update_fails {σ B E : Type} (env : Env B E)
    (src : DeploySource σ B E) (properties : Properties) (renderedConfig : B) (c : Config)
    (s : σ) (log : List (Call B)) (payload : B) (e : E)
    (hid : c.OriginObjectId ≠ "")
    (hvalid : addExternalIdAndValidate env (env.GenerateExternalID c.Coordinate) renderedConfig
      = .returned (.ok payload))
    (hupdate : (src.Update c.OriginObjectId payload s).1 = .error e) :
    (env.IsNotFoundError e = true →
      Deploy env (recording src) properties renderedConfig c (s, log) =
        Deploy env (recording src) properties renderedConfig { c with OriginObjectId := "" }
          ((src.Update c.OriginObjectId payload s).2,
            log ++ [Call.update c.OriginObjectId payload]))
    ∧ (env.IsNotFoundError e = false →
      ∃ r, Deploy env (recording src) properties renderedConfig c (s, log) =
          (.returned r, ((src.Update c.OriginObjectId payload s).2,
            log ++ [Call.update c.OriginObjectId payload]))
        ∧ r.err.isSome ∧ r.properties = properties) := by
  constructor
  · intro hnf
    have hvalid2 : addExternalIdAndValidate env
        (env.GenerateExternalID ({ c with OriginObjectId := "" } : Config).Coordinate)
        renderedConfig = .returned (.ok payload) := hvalid
    simp only [Deploy, hvalid, hvalid2]
    simp [hid, recording_Update, hupdate, hnf, deployByExternalID_origin]
  · intro hnf
    refine ⟨deployFailed properties c ("failed to deploy slo: " ++ c.OriginObjectId)
      (.remote e), ?_, rfl, rfl⟩
    simp [Deploy, hvalid, hid, recording_Update, hupdate, hnf]

/-- C3 on `pinnedConfig`, once with a not-found error of the update and once
with another error. -/
theorem Deploy_tier1_update_fails_witness :
    ((plainEnv.IsNotFoundError true = true →
      Deploy plainEnv (recording (fixedSource (.error true) (.ok none) (.ok []))) []
          sloRendered pinnedConfig ((), []) =
        Deploy plainEnv (recording (fixedSource (.error true) (.ok none) (.ok []))) []
          sloRendered { pinnedConfig with OriginObjectId := "" }
          ((), [] ++ [Call.update "origin-1" sloPayload]))
    ∧ (plainEnv.IsNotFoundError true = false →
      ∃ r, Deploy plainEnv (recording (fixedSource (.error true) (.ok none) (.ok []))) []
          sloRendered pinnedConfig ((), []) =
          (.returned r, ((), [] ++ [Call.update "origin-1" sloPayload]))
        ∧ r.err.isSome ∧ r.properties = []))
    ∧ ((plainEnv.IsNotFoundError false = true →
      Deploy plainEnv (recording (fixedSource (.error false) (.ok none) (.ok []))) []
          sloRendered pinnedConfig ((), []) =
        Deploy plainEnv (recording (fixedSource (.error false) (.ok none) (.ok []))) []
          sloRendered { pinnedConfig with OriginObjectId := "" }
          ((), [] ++ [Call.update "origin-1" sloPayload]))
    ∧ (plainEnv.IsNotFoundError false = false →
      ∃ r, Deploy plainEnv (recording (fixedSource (.error false) (.ok none) (.ok []))) []
          sloRendered pinnedConfig ((), []) =
          (.returned r, ((), [] ++ [Call.update "origin-1" sloPayload]))
        ∧ r.err.isSome ∧ r.properties = [])) :=
  ⟨Deploy_tier1_update_fails plainEnv (fixedSource (.error true) (.ok none) (.ok [])) []
      sloRendered pinnedConfig () [] sloPayload true (by decide) rfl rfl,
   Deploy_tier1_update_fails plainEnv (fixedSource (.error false) (.ok none) (.ok [])) []
      sloRendered pinnedConfig () [] sloPayload false (by decide) rfl rfl⟩

/-! ## Decoding list items into the shared struct -/

/-- Decoding one member into two structs: it fails for both or for neither,
and each field ends equal in both (the member set it) or is in both what it
was (the member did not touch it). -/
theorem setMember_pair (a b : sloResponse) (k : String) (v : JVal) (a1 : sloResponse)
    (h : a.setMember k v = .ok a1) :
    ∃ b1, b.setMember k v = .ok b1
      ∧ (a1.ID = b1.ID ∨ (a1.ID = a.ID ∧ b1.ID = b.ID))
      ∧ (a1.ExternalID = b1.ExternalID
          ∨ (a1.ExternalID = a.ExternalID ∧ b1.ExternalID = b.ExternalID)) := by
  unfold sloResponse.setMember at h ⊢
  split_ifs at h ⊢ with h1 h2
  · cases v <;> simp at h ⊢ <;> subst h <;> simp
  · cases v <;> simp at h ⊢ <;> subst h <;> simp
  · simp at h ⊢
    subst h
    simp

theorem setMembers_pair (members : List (String × JVal)) (a b a1 : sloResponse)
    (h : a.setMembers members = .ok a1) :
    ∃ b1, b.setMembers members = .ok b1
      ∧ (a1.ID = b1.ID ∨ (a1.ID = a.ID ∧ b1.ID = b.ID))
      ∧ (a1.ExternalID = b1.ExternalID
          ∨ (a1.ExternalID = a.ExternalID ∧ b1.ExternalID = b.ExternalID)) := by
  induction members generalizing a b with
  | nil =>
    simp [sloResponse.setMembers] at h ⊢
    subst h
    simp
  | cons p rest ih =>
    obtain ⟨k, v⟩ := p
    simp only [sloResponse.setMembers] at h ⊢
    cases ha : a.setMember k v with
    | error e => simp [ha] at h
    | ok a2 =>
      obtain ⟨b2, hb, hid, hext⟩ := setMember_pair a b k v a2 ha
      rw [ha] at h
      obtain ⟨b1, hb1, hid1, hext1⟩ := ih a2 b2 h
      refine ⟨b1, by simp [hb, hb1], ?_, ?_⟩
      · rcases hid1 with h1 | ⟨h1, h2⟩
        · exact Or.inl h1
        · rcases hid with h3 | ⟨h3, h4⟩
          · exact Or.inl (by rw [h1, h2, h3])
          · exact Or.inr ⟨by rw [h1, h3], by rw [h2, h4]⟩
      · rcases hext1 with h1 | ⟨h1, h2⟩
        · exact Or.inl h1
        · rcases hext with h3 | ⟨h3, h4⟩
          · exact Or.inl (by rw [h1, h2, h3])
          · exact Or.inr ⟨by rw [h1, h3], by rw [h2, h4]⟩

/-- The same for a whole item: `json.Unmarshal` of one text into two structs. -/
theorem unmarshalSloResponse_pair {B : Type} (J : Json B) (raw : B) (a b a1 : sloResponse)
    (h : unmarshalSloResponse J raw a = .ok a1) :
    ∃ b1, unmarshalSloResponse J raw b = .ok b1
      ∧ (a1.ID = b1.ID ∨ (a1.ID = a.ID ∧ b1.ID = b.ID))
      ∧ (a1.ExternalID = b1.ExternalID
          ∨ (a1.ExternalID = a.ExternalID ∧ b1.ExternalID = b.ExternalID)) := by
  unfold unmarshalSloResponse at h ⊢
  cases hd : J.decode raw with
  | none => simp [hd] at h
  | some v =>
    cases v with
    | null =>
      simp [hd] at h ⊢
      subst h
      simp
    | obj members =>
      simp only [hd] at h ⊢
      exact setMembers_pair members a b a1 h
    | bool x => simp [hd] at h
    | num x => simp [hd] at h
    | str x => simp [hd] at h
    | arr x => simp [hd] at h

/-- The loop finds nothing when every item, decoded on its own, has an
external id other than the one searched, whatever the struct held on entry
(as long as that is not the searched id, or is the empty string). -/
theorem scanItems_no_match {B : Type} (J : Json B) (externalId : String) (items : List B)
    (res : sloResponse)
    (hres : res.ExternalID ≠ externalId ∨ res.ExternalID = "")
    (hitems : ∀ raw ∈ items, ∃ r0, unmarshalSloResponse J raw sloResponse.zero = .ok r0
      ∧ r0.ExternalID ≠ externalId) :
    scanItems J externalId items res = .ok ("", false) := by
  induction items generalizing res with
  | nil => rfl
  | cons raw rest ih =>
    obtain ⟨r0, hr0, hne⟩ := hitems raw (List.mem_cons_self _ _)
    obtain ⟨r1, hr1, -, hext⟩ := unmarshalSloResponse_pair J raw sloResponse.zero res r0 hr0
    have hne1 : r1.ExternalID ≠ externalId := by
      rcases hext with h1 | ⟨h1, h2⟩
      · rw [← h1]; exact hne
      · have h0 : r0.ExternalID = "" := h1
        have hE : externalId ≠ "" := fun h => hne (h0.trans h.symm)
        rw [h2]
        rcases hres with h3 | h3
        · exact h3
        · rw [h3]; exact fun h => hE h.symm
    simp only [scanItems, hr1, if_neg hne1]
    exact ih r1 (Or.inl hne1) (fun raw1 h1 => hitems raw1 (List.mem_cons_of_mem _ h1))

/-- The loop returns the id of the first item whose own external id is the
one searched, when the items before it decode and that item sets both of its
fields itself. -/
theorem scanItems_match {B : Type} (J : Json B) (externalId : String) (pre post : List B)
    (m : B) (r res : sloResponse)
    (hres : res.ExternalID ≠ externalId ∨ res.ExternalID = "")
    (hpre : ∀ raw ∈ pre, ∃ r0, unmarshalSloResponse J raw sloResponse.zero = .ok r0
      ∧ r0.ExternalID ≠ externalId)
    (hm : unmarshalSloResponse J m sloResponse.zero = .ok r)
    (hext : r.ExternalID = externalId)
    (hown : ∀ res1, unmarshalSloResponse J m res1 = unmarshalSloResponse J m sloResponse.zero) :
    scanItems J externalId (pre ++ m :: post) res = .ok (r.ID, true) := by
  induction pre generalizing res with
  | nil => simp [scanItems, hown res, hm, hext]
  | cons raw rest ih =>
    obtain ⟨r0, hr0, hne⟩ := hpre raw (List.mem_cons_self _ _)
    obtain ⟨r1, hr1, -, hext1⟩ := unmarshalSloResponse_pair J raw sloResponse.zero res r0 hr0
    have hne1 : r1.ExternalID ≠ externalId := by
      rcases hext1 with h1 | ⟨h1, h2⟩
      · rw [← h1]; exact hne
      · have h0 : r0.ExternalID = "" := h1
        have hE : externalId ≠ "" := fun h => hne (h0.trans h.symm)
        rw [h2]
        rcases hres with h3 | h3
        · exact h3
        · rw [h3]; exact fun h => hE h.symm
    simp only [List.cons_append, scanItems, hr1, if_neg hne1]
    exact ih r1 (Or.inl hne1) (fun raw1 h1 => hpre raw1 (List.mem_cons_of_mem _ h1))

/-! ## Strategies 2 and 3 -/

theorem findMatchOnRemote_recording {σ B E : Type} (env : Env B E) (src : DeploySource σ B E)
    (externalId : String) (s : σ) (log : List (Call B)) (items : List B)
    (r : String × Bool)
    (hlist : (src.List s).1 = .ok items)
    (hscan : scanItems env.toJson externalId items sloResponse.zero = .ok r) :
    findMatchOnRemote env (recording src) externalId (s, log)
      = (.ok r, ((src.List s).2, log ++ [Call.list])) := by
  simp [findMatchOnRemote, recording_List, hlist, hscan]

/-- When strategy 1 falls through, `Deploy` is strategies 2 and 3 run from
the state and the log that strategy 1 left. -/
theorem Deploy_after_tier1 {σ B E : Type} (env : Env B E) (src : DeploySource σ B E)
    (properties : Properties) (renderedConfig : B) (c : Config) (s : σ) (payload : B)
    (hvalid : addExternalIdAndValidate env (env.GenerateExternalID c.Coordinate) renderedConfig
      = .returned (.ok payload))
    (htier1 : tier1FallsThrough env src c payload s) :
    Deploy env (recording src) properties renderedConfig c (s, []) =
      (.returned (deployByExternalID env (recording src) properties payload
          (env.GenerateExternalID c.Coordinate) c
          (tier1State src c payload s, tier1Calls c payload)).1,
        (deployByExternalID env (recording src) properties payload
          (env.GenerateExternalID c.Coordinate) c
          (tier1State src c payload s, tier1Calls c payload)).2) := by
  by_cases hid : c.OriginObjectId = ""
  · simp [Deploy, hvalid, hid, tier1State, tier1Calls]
  · rcases htier1 with h | ⟨e, he, hnf⟩
    · exact absurd h hid
    · simp [Deploy, hvalid, hid, tier1State, tier1Calls, recording_Update, he, hnf]

/-- C4, as amended: when strategy 1 falls through and `List` succeeds, let
`m` be the first listed object whose own external id is the generated one. If
the objects before `m` decode and `m` sets both of its fields itself, `Deploy`
calls `Update` on the id of `m` and never `Create`; a successful update makes
`Deploy` return that id, a failed one makes it return an error. -/
theorem Deploy_tier2_update_match {σ B E : Type} (env : Env B E)
    (src : DeploySource σ B E) (properties : Properties) (renderedConfig : B) (c : Config)
    (s : σ) (payload : B) (pre post : List B) (m : B) (r : sloResponse)
    (hvalid : addExternalIdAndValidate env (env.GenerateExternalID c.Coordinate) renderedConfig
      = .returned (.ok payload))
    (htier1 : tier1FallsThrough env src c payload s)
    (hlist : (src.List (tier1State src c payload s)).1 = .ok (pre ++ m :: post))
    (hpre : ∀ raw ∈ pre, ∃ r0, unmarshalSloResponse env.toJson raw sloResponse.zero = .ok r0
      ∧ r0.ExternalID ≠ env.GenerateExternalID c.Coordinate)
    (hm : unmarshalSloResponse env.toJson m sloResponse.zero = .ok r)
    (hext : r.ExternalID = env.GenerateExternalID c.Coordinate)
    (hown : ∀ res, unmarshalSloResponse env.toJson m res
      = unmarshalSloResponse env.toJson m sloResponse.zero) :
    (∀ response, (src.Update r.ID payload (src.List (tier1State src c payload s)).2).1
        = .ok response →
      ∃ ret, Deploy env (recording src) properties renderedConfig c (s, []) =
          (.returned ret, ((src.Update r.ID payload (src.List (tier1State src c payload s)).2).2,
            tier1Calls c payload ++ [Call.list, Call.update r.ID payload]))
        ∧ ret.err = none
        ∧ mapLookup ret.entity.Properties IdParameter = some (.str r.ID))
    ∧ (∀ e, (src.Update r.ID payload (src.List (tier1State src c payload s)).2).1 = .error e →
      ∃ ret, Deploy env (recording src) properties renderedConfig c (s, []) =
          (.returned ret, ((src.Update r.ID payload (src.List (tier1State src c payload s)).2).2,
            tier1Calls c payload ++ [Call.list, Call.update r.ID payload]))
        ∧ ret.err.isSome) := by
  have hscan := scanItems_match env.toJson (env.GenerateExternalID c.Coordinate) pre post m r
    sloResponse.zero (Or.inr rfl) hpre hm hext hown
  have hfind := findMatchOnRemote_recording env src (env.GenerateExternalID c.Coordinate)
    (tier1State src c payload s) (tier1Calls c payload) (pre ++ m :: post) (r.ID, true)
    hlist hscan
  rw [Deploy_after_tier1 env src properties renderedConfig c s payload hvalid htier1]
  constructor
  · intro response hupdate
    refine ⟨deployedAs r.ID properties c, ?_, rfl, ?_⟩
    · simp [deployByExternalID, hfind, recording_Update, hupdate]
    · simp [deployedAs, createResolveEntity, mapLookup_mapStore]
  · intro e hupdate
    refine ⟨deployFailed properties c ("failed to update slo with externalID: "
      ++ env.GenerateExternalID c.Coordinate) (.remote e), ?_, rfl⟩
    simp [deployByExternalID, hfind, recording_Update, hupdate]

/-- C4, as amended, on a list of `otherItem` and `matchingItem`. -/
theorem Deploy_tier2_update_match_witness :
    ∃ ret, Deploy plainEnv
          (recording (fixedSource (.ok none) (.ok none) (.ok ([otherItem] ++ matchingItem :: []))))
          [] sloRendered sloConfig ((), []) =
        (.returned ret, ((), tier1Calls sloConfig sloPayload
          ++ [Call.list, Call.update "slo-1" sloPayload]))
      ∧ ret.err = none
      ∧ mapLookup ret.entity.Properties IdParameter = some (.str "slo-1") :=
  (Deploy_tier2_update_match plainEnv
    (fixedSource (.ok none) (.ok none) (.ok ([otherItem] ++ matchingItem :: []))) []
    sloRendered sloConfig () sloPayload [otherItem] [] matchingItem ⟨"slo-1", sloExternalID⟩
    rfl (Or.inl rfl) rfl
    (by
      intro raw h
      rw [List.mem_singleton] at h
      subst h
      exact ⟨⟨"slo-0", "monaco-other"⟩, rfl, by decide⟩)
    rfl rfl (fun _ => rfl)).1 none rfl

/-- C4, as stated, fails on two inputs. (1) `List` returns the object
`{"id": 5}`, which does not decode, followed by an object with the generated
external id: `Deploy` returns an error after `List` and calls no `Update`.
(2) `List` returns `otherItem` (id `slo-0`, another external id) followed by an
object with the generated external id and no id: `Deploy` calls `Update` on
`slo-0` and returns it. -/
theorem Deploy_tier2_counterexample :
    ((∃ r, unmarshalSloResponse plainJson matchingItem sloResponse.zero = .ok r
        ∧ r.ExternalID = plainEnv.GenerateExternalID sloConfig.Coordinate)
      ∧ (Deploy plainEnv (recording (fixedSource (.ok none) (.ok none)
            (.ok [numericIdItem, matchingItem]))) [] sloRendered sloConfig ((), [])).2.2
          = [Call.list]
      ∧ ∃ ret, (Deploy plainEnv (recording (fixedSource (.ok none) (.ok none)
            (.ok [numericIdItem, matchingItem]))) [] sloRendered sloConfig ((), [])).1
            = .returned ret
          ∧ ret.err.isSome)
    ∧ (unmarshalSloResponse plainJson otherItem sloResponse.zero
        = .ok ⟨"slo-0", "monaco-other"⟩
      ∧ unmarshalSloResponse plainJson idlessItem sloResponse.zero
        = .ok ⟨"", plainEnv.GenerateExternalID sloConfig.Coordinate⟩
      ∧ Deploy plainEnv (recording (fixedSource (.ok none) (.ok none)
            (.ok [otherItem, idlessItem]))) [] sloRendered sloConfig ((), [])
        = (.returned (deployedAs "slo-0" [] sloConfig),
            ((), [Call.list, Call.update "slo-0" sloPayload]))) :=
  ⟨⟨⟨⟨"slo-1", sloExternalID⟩, rfl, rfl⟩, rfl, ⟨_, rfl, rfl⟩⟩, rfl, rfl, rfl⟩

/-- A payload that passes `addExternalIdAndValidate` is the encoding of the
map read from the rendered JSON object, with `externalId` stored into it. -/
theorem addExternalIdAndValidate_ok {B E : Type} (env : Env B E) (externalId : String)
    (renderedConfig payload : B)
    (h : addExternalIdAndValidate env externalId renderedConfig = .returned (.ok payload)) :
    ∃ members values, env.decode renderedConfig = some (.obj members)
      ∧ anyMembers env.toJson members = .ok values
      ∧ payload = env.encode (mapStore (mapOfMembers values) "externalId" (.str externalId)) := by
  unfold addExternalIdAndValidate unmarshalMap at h
  cases hd : env.decode renderedConfig with
  | none => simp [hd] at h
  | some v =>
    cases v with
    | obj members =>
      simp only [hd] at h
      cases ha : anyMembers env.toJson members with
      | error e => simp [ha] at h
      | ok values =>
        refine ⟨members, values, rfl, ha, ?_⟩
        simp only [ha] at h
        split_ifs at h with h1
        · simp at h
        · simp at h
          exact h.symm
    | null => simp [hd] at h
    | bool x => simp [hd] at h
    | num x => simp [hd] at h
    | str x => simp [hd] at h
    | arr x => simp [hd] at h

/-- C5, as amended: when strategy 1 falls through, `List` succeeds and every
listed object decodes to an external id other than the generated one, `Deploy`
calls `Create` once, after `List`. The payload is the encoding of the map read
from the rendered JSON object, with `externalId` stored into it. Read back, the
payload holds every key once: `externalId` with the generated id, and every
other key of the rendered object with the last value it has there, as that
value comes back out of a Go `any` (a string as it is, a number as the
`float64` it is read into). When `Create` succeeds with a response that
decodes, `Deploy` returns the `id` of that response. -/
theorem Deploy_tier3_create {σ B E : Type} (env : Env B E)
    (src : DeploySource σ B E) (properties : Properties) (renderedConfig : B) (c : Config)
    (s : σ) (payload : B) (items : List B)
    (hvalid : addExternalIdAndValidate env (env.GenerateExternalID c.Coordinate) renderedConfig
      = .returned (.ok payload))
    (htier1 : tier1FallsThrough env src c payload s)
    (hlist : (src.List (tier1State src c payload s)).1 = .ok items)
    (hitems : ∀ raw ∈ items, ∃ r0, unmarshalSloResponse env.toJson raw sloResponse.zero = .ok r0
      ∧ r0.ExternalID ≠ env.GenerateExternalID c.Coordinate) :
    (∃ members values, env.decode renderedConfig = some (.obj members)
      ∧ anyMembers env.toJson members = .ok values
      ∧ payload = env.encode (mapStore (mapOfMembers values) "externalId"
          (.str (env.GenerateExternalID c.Coordinate)))
      ∧ (readsBack env.toJson →
          ∃ sent, env.decode payload = some (.obj sent)
            ∧ (sent.map Prod.fst).Nodup
            ∧ mapLookup sent "externalId" = some (.str (env.GenerateExternalID c.Coordinate))
            ∧ (∀ k, k ≠ "externalId" →
                (mapLookup (mapOfMembers members) k = none ∧ mapLookup sent k = none)
                ∨ ∃ v a, mapLookup (mapOfMembers members) k = some v
                    ∧ anyOf env.toJson v = .ok a ∧ mapLookup sent k = some (written a))
            ∧ (∀ k text, k ≠ "externalId" →
                mapLookup (mapOfMembers members) k = some (.str text) →
                mapLookup sent k = some (.str text))
            ∧ (∀ k lit, k ≠ "externalId" →
                mapLookup (mapOfMembers members) k = some (.num lit) →
                ∃ text, env.float64 lit = some text ∧ mapLookup sent k = some (.num text))))
    ∧ (Deploy env (recording src) properties renderedConfig c (s, [])).2.2
        = tier1Calls c payload ++ [Call.list, Call.create payload]
    ∧ (∀ response r,
        (src.Create payload (src.List (tier1State src c payload s)).2).1 = .ok response →
        responseFromHttpData env response = .ok r →
        ∃ ret, (Deploy env (recording src) properties renderedConfig c (s, [])).1 = .returned ret
          ∧ ret.err = none
          ∧ mapLookup ret.entity.Properties IdParameter = some (.str r.ID)) := by
  have hscan := scanItems_no_match env.toJson (env.GenerateExternalID c.Coordinate) items
    sloResponse.zero (Or.inr rfl) hitems
  have hfind := findMatchOnRemote_recording env src (env.GenerateExternalID c.Coordinate)
    (tier1State src c payload s) (tier1Calls c payload) items ("", false) hlist hscan
  rw [Deploy_after_tier1 env src properties renderedConfig c s payload hvalid htier1]
  refine ⟨?_, ?_, ?_⟩
  · obtain ⟨members, values, hd, hany, hp⟩ :=
      addExternalIdAndValidate_ok env _ renderedConfig payload hvalid
    refine ⟨members, values, hd, hany, hp, ?_⟩
    intro hcodec
    obtain ⟨sent, hdec, hperm, hlook⟩ := hcodec
      (mapStore (mapOfMembers values) "externalId" (.str (env.GenerateExternalID c.Coordinate)))
      (mapStore_nodup _ _ _ (mapOfMembers_nodup values))
      (request_values env.toJson members values _ hany)
    have hother : ∀ k, k ≠ "externalId" →
        (mapLookup (mapOfMembers members) k = none ∧ mapLookup sent k = none)
        ∨ ∃ v a, mapLookup (mapOfMembers members) k = some v
            ∧ anyOf env.toJson v = .ok a ∧ mapLookup sent k = some (written a) := by
      intro k hk
      have h1 := hlook k
      rw [mapLookup_mapStore, if_neg (fun h => hk h.symm)] at h1
      rcases anyMembers_lookup env.toJson members values hany k with
        ⟨h2, h3⟩ | ⟨v, a, h2, h3, h4⟩
      · exact Or.inl ⟨h2, by rw [h1, h3]; rfl⟩
      · exact Or.inr ⟨v, a, h2, h3, by rw [h1, h4]; rfl⟩
    refine ⟨sent, by rw [hp]; exact hdec, hperm.nodup_iff.mpr
      (mapStore_nodup _ _ _ (mapOfMembers_nodup values)), ?_, hother, ?_, ?_⟩
    · rw [hlook, mapLookup_mapStore, if_pos rfl]
      rfl
    · intro k text hk hv
      rcases hother k hk with ⟨h2, -⟩ | ⟨v, a, h2, h3, h4⟩
      · rw [h2] at hv
        cases hv
      · rw [h2] at hv
        cases hv
        simp only [anyOf, Except.ok.injEq] at h3
        subst h3
        rw [h4]
        rfl
    · intro k lit hk hv
      rcases hother k hk with ⟨h2, -⟩ | ⟨v, a, h2, h3, h4⟩
      · rw [h2] at hv
        cases hv
      · rw [h2] at hv
        cases hv
        simp only [anyOf] at h3
        cases hf : env.float64 lit with
        | none => simp [hf] at h3
        | some text =>
          simp only [hf, Except.ok.injEq] at h3
          subst h3
          exact ⟨text, rfl, by rw [h4]; rfl⟩
  · simp only [deployByExternalID, hfind, recording_Create]
    cases (src.Create payload (src.List (tier1State src c payload s)).2).1 with
    | error e => simp
    | ok response =>
      cases hresp : responseFromHttpData env response <;> simp [hresp]
  · intro response r hcreate hresp
    refine ⟨deployedAs r.ID properties c, ?_, rfl, ?_⟩
    · simp [deployByExternalID, hfind, recording_Create, hcreate, hresp]
    · simp [deployedAs, createResolveEntity, mapLookup_mapStore]

/-- C5, as amended, on the rendered config `targetRendered`, whose number
`99.50` is sent as `99.5`, and a list that holds only `otherItem`. -/
theorem Deploy_tier3_create_witness :
    (∃ sent, plainEnv.decode targetPayload = some (.obj sent)
        ∧ (sent.map Prod.fst).Nodup
        ∧ mapLookup sent "externalId"
          = some (.str (plainEnv.GenerateExternalID sloConfig.Coordinate))
        ∧ (∀ k, k ≠ "externalId" →
            (mapLookup (mapOfMembers [("target", .num "99.50"), ("name", .str "availability")]) k
                = none ∧ mapLookup sent k = none)
            ∨ ∃ v a,
                mapLookup (mapOfMembers [("target", .num "99.50"), ("name", .str "availability")])
                  k = some v
                ∧ anyOf plainEnv.toJson v = .ok a ∧ mapLookup sent k = some (written a))
        ∧ (∀ k text, k ≠ "externalId" →
            mapLookup (mapOfMembers [("target", .num "99.50"), ("name", .str "availability")]) k
              = some (.str text) →
            mapLookup sent k = some (.str text))
        ∧ (∀ k lit, k ≠ "externalId" →
            mapLookup (mapOfMembers [("target", .num "99.50"), ("name", .str "availability")]) k
              = some (.num lit) →
            ∃ text, plainEnv.float64 lit = some text ∧ mapLookup sent k = some (.num text)))
    ∧ (Deploy plainEnv (recording (fixedSource (.ok none) (.ok createdResponse)
          (.ok [otherItem]))) [] targetRendered sloConfig ((), [])).2.2
        = tier1Calls sloConfig targetPayload ++ [Call.list, Call.create targetPayload]
    ∧ ∃ ret, (Deploy plainEnv (recording (fixedSource (.ok none) (.ok createdResponse)
          (.ok [otherItem]))) [] targetRendered sloConfig ((), [])).1 = .returned ret
      ∧ ret.err = none
      ∧ mapLookup ret.entity.Properties IdParameter = some (.str "new-1") :=
  match Deploy_tier3_create plainEnv
      (fixedSource (.ok none) (.ok createdResponse) (.ok [otherItem]))
      [] targetRendered sloConfig () targetPayload [otherItem] rfl (Or.inl rfl) rfl
      (by
        intro raw h
        rw [List.mem_singleton] at h
        subst h
        exact ⟨⟨"slo-0", "monaco-other"⟩, rfl, by decide⟩) with
  | ⟨⟨members, _, hd, _, _, hsent⟩, hlog, hret⟩ =>
    ⟨by
      cases hd
      exact hsent plainJson_readsBack, hlog, hret createdResponse ⟨"new-1", ""⟩ rfl rfl⟩

/-- C5, as stated, fails on two inputs. (1) A listed object does not decode:
`List` returns the one object `{"id": 5}`, which has no external id equal to
the generated one, and `Deploy` returns an error after `List` without calling
`Create`. (2) The rendered object holds a number that is no `float64`: for
`{"limit": 12345678901234567890}` the payload of `Create` holds
`12345678901234567000` under `limit`, so that key is not unchanged. -/
theorem Deploy_tier3_counterexample :
    ((¬ ∃ raw ∈ [numericIdItem], ∃ r, unmarshalSloResponse plainJson raw sloResponse.zero = .ok r
        ∧ r.ExternalID = plainEnv.GenerateExternalID sloConfig.Coordinate)
      ∧ (Deploy plainEnv (recording (fixedSource (.ok none) (.ok createdResponse)
            (.ok [numericIdItem]))) [] sloRendered sloConfig ((), [])).2.2 = [Call.list]
      ∧ ∃ ret, (Deploy plainEnv (recording (fixedSource (.ok none) (.ok createdResponse)
            (.ok [numericIdItem]))) [] sloRendered sloConfig ((), [])).1 = .returned ret
          ∧ ret.err.isSome)
    ∧ (plainJson.decode limitRendered = some (.obj [("limit", .num "12345678901234567890")])
      ∧ (Deploy plainEnv (recording (fixedSource (.ok none) (.ok createdResponse) (.ok [])))
            [] limitRendered sloConfig ((), [])).2.2
          = [Call.list, Call.create (some (.obj [("externalId", .str sloExternalID),
              ("limit", .num "12345678901234567000")]))]
      ∧ plainJson.decode (some (.obj [("externalId", .str sloExternalID),
            ("limit", .num "12345678901234567000")]))
          = some (.obj [("externalId", .str sloExternalID),
              ("limit", .num "12345678901234567000")])
      ∧ mapLookup [("externalId", .str sloExternalID), ("limit", .num "12345678901234567000")]
            "limit" = some (.num "12345678901234567000")) := by
  refine ⟨⟨?_, rfl, ⟨_, rfl, rfl⟩⟩, rfl, rfl, rfl, rfl⟩
  rintro ⟨raw, hraw, r, hr, -⟩
  rw [List.mem_singleton] at hraw
  subst hraw
  have h2 : unmarshalSloResponse plainJson numericIdItem sloResponse.zero
      = .error .typeMismatch := rfl
  rw [h2] at hr
  cases hr

/-! ## Two runs against a store -/

theorem length_le_sum_of_mem (ids : List String) (id : String) (h : id ∈ ids) :
    id.length ≤ (ids.map String.length).sum := by
  induction ids with
  | nil => cases h
  | cons a rest ih =>
    rcases List.mem_cons.mp h with h1 | h1
    · subst h1
      simp
    · have := ih h1
      simp only [List.map_cons, List.sum_cons]
      omega

theorem freshId_not_mem (ids : List String) : freshId ids ∉ ids := by
  intro h
  have h1 := length_le_sum_of_mem ids (freshId ids) h
  have h2 : (freshId ids).length = (ids.map String.length).sum + 1 := by
    simp [freshId, String.length]
  omega

/-- Two keys in some order. -/
theorem perm_pair_cases (x y u w : String) (h : [x, y].Perm [u, w]) :
    (x = u ∧ y = w) ∨ (x = w ∧ y = u) := by
  have hx : x ∈ [u, w] := h.mem_iff.mp (by simp)
  have hy : y ∈ [u, w] := h.mem_iff.mp (by simp)
  have hu : u ∈ [x, y] := h.mem_iff.mpr (by simp)
  have hw : w ∈ [x, y] := h.mem_iff.mpr (by simp)
  simp only [List.mem_cons, List.mem_singleton, List.not_mem_nil, or_false] at hx hy hu hw
  rcases hx with h1 | h1 <;> rcases hy with h2 | h2
  · subst h1
    subst h2
    rcases hw with h3 | h3 <;> exact Or.inl ⟨rfl, h3.symm⟩
  · exact Or.inl ⟨h1, h2⟩
  · exact Or.inr ⟨h1, h2⟩
  · subst h1
    subst h2
    rcases hu with h3 | h3 <;> exact Or.inr ⟨rfl, h3.symm⟩

/-- A listed item of the store decodes to the id and the external id of the
stored object, whatever the struct held before. -/
theorem listItem_decode {B : Type} (J : Json B) (hcodec : readsBack J) (p : String × B)
    (res : sloResponse) :
    unmarshalSloResponse J (listItem J p) res = .ok ⟨p.1, storedExternalId J p.2⟩ := by
  have h1 : foldName "externalId" ≠ foldName "id" := by decide
  have h2 : ("externalId" : String) ≠ "id" := by decide
  have h3 : ("id" : String) ≠ "externalId" := by decide
  obtain ⟨members, hdec, hperm, hlook⟩ := hcodec
    [("id", .str p.1), ("externalId", .str (storedExternalId J p.2))] (by simp)
    (by
      intro q hq
      simp only [List.mem_cons, List.mem_singleton, List.not_mem_nil, or_false] at hq
      rcases hq with hq | hq <;> subst hq
      · exact ⟨.str p.1, rfl⟩
      · exact ⟨.str (storedExternalId J p.2), rfl⟩)
  have hlen := hperm.length_eq
  have hid := hlook "id"
  have hext := hlook "externalId"
  rcases members with _ | ⟨⟨ka, va⟩, _ | ⟨⟨kb, vb⟩, _ | ⟨c, rest⟩⟩⟩
  · simp at hlen
  · simp at hlen
  · simp only [List.map_cons, List.map_nil] at hperm
    rcases perm_pair_cases ka kb "id" "externalId" hperm with ⟨ha, hb⟩ | ⟨ha, hb⟩
    · subst ha
      subst hb
      simp [mapLookup, h2, h3, written] at hid hext
      subst hid
      subst hext
      simp [unmarshalSloResponse, listItem, hdec, sloResponse.setMembers, sloResponse.setMember,
        h1, written]
    · subst ha
      subst hb
      simp [mapLookup, h2, h3, written] at hid hext
      subst hid
      subst hext
      simp [unmarshalSloResponse, listItem, hdec, sloResponse.setMembers, sloResponse.setMember,
        h1, written]
  · simp at hlen

/-- Replacing the payloads stored under an id that the store does not hold
changes nothing. -/
theorem map_replace_absent {B : Type} (st : List (String × B)) (id : String) (data : B)
    (h : id ∉ st.map Prod.fst) :
    st.map (fun p => if p.1 = id then (id, data) else p) = st := by
  induction st with
  | nil => rfl
  | cons a rest ih =>
    have h1 : a.1 ≠ id := fun h2 => h (by simp [h2.symm])
    have h2 : id ∉ rest.map Prod.fst := fun h3 => h (by simp at h3 ⊢; exact Or.inr h3)
    simp [h1, ih h2]

theorem storedExternalId_payload {B E : Type} (env : Env B E)
    (hcodec : readsBack env.toJson) (externalId : String)
    (renderedConfig payload : B)
    (hvalid : addExternalIdAndValidate env externalId renderedConfig = .returned (.ok payload)) :
    storedExternalId env.toJson payload = externalId := by
  obtain ⟨members, values, -, hany, hp⟩ := addExternalIdAndValidate_ok env externalId
    renderedConfig payload hvalid
  obtain ⟨sent, hdec, -, hlook⟩ := hcodec
    (mapStore (mapOfMembers values) "externalId" (.str externalId))
    (mapStore_nodup _ _ _ (mapOfMembers_nodup values))
    (request_values env.toJson members values externalId hany)
  have h1 := hlook "externalId"
  rw [mapLookup_mapStore, if_pos rfl] at h1
  rw [← hp] at hdec
  simp [storedExternalId, hdec, h1, written]

theorem responseFromHttpData_created {B E : Type} (env : Env B E)
    (hcodec : readsBack env.toJson) (id : String) :
    responseFromHttpData env (env.encode [("id", .str id)]) = .ok ⟨id, ""⟩ := by
  obtain ⟨members, hdec, hperm, hlook⟩ := hcodec [("id", .str id)] (by simp)
    (by
      intro q hq
      rw [List.mem_singleton] at hq
      subst hq
      exact ⟨.str id, rfl⟩)
  have hlen := hperm.length_eq
  have hid := hlook "id"
  rcases members with _ | ⟨⟨ka, va⟩, _ | ⟨b, rest⟩⟩
  · simp at hlen
  · simp only [List.map_cons, List.map_nil, List.perm_singleton, List.cons.injEq, and_true]
      at hperm
    subst hperm
    simp only [mapLookup, if_true, Option.map_some', Option.some.injEq] at hid
    subst hid
    simp [responseFromHttpData, unmarshalSloResponse, hdec, sloResponse.setMembers,
      sloResponse.setMember, sloResponse.zero, written]
  · simp at hlen

/-- C6: against a store that holds no object with the generated external id,
and with a codec that reads back the maps it writes, two runs of `Deploy` for a
config without `OriginObjectId` and a valid payload go as follows. The first
run lists, creates one object and returns without error the fresh id that the
store gave it. The second run lists, updates that object (no `Create`) and
returns without error the same id. The one object of the store with that
external id is then the created one. -/
theorem Deploy_twice_on_store {B E : Type} (env : Env B E) (notFound : E)
    (properties : Properties) (renderedConfig : B) (c : Config) (st : List (String × B))
    (payload : B)
    (hcodec : readsBack env.toJson)
    (hid : c.OriginObjectId = "")
    (hvalid : addExternalIdAndValidate env (env.GenerateExternalID c.Coordinate) renderedConfig
      = .returned (.ok payload))
    (hstore : ∀ p ∈ st, storedExternalId env.toJson p.2 ≠ env.GenerateExternalID c.Coordinate) :
    Deploy env (recording (storeSource env.toJson notFound)) properties renderedConfig c (st, [])
      = (.returned (deployedAs (freshId (st.map Prod.fst)) properties c),
          (st ++ [(freshId (st.map Prod.fst), payload)], [Call.list, Call.create payload]))
    ∧ Deploy env (recording (storeSource env.toJson notFound)) properties renderedConfig c
        (st ++ [(freshId (st.map Prod.fst), payload)], [])
      = (.returned (deployedAs (freshId (st.map Prod.fst)) properties c),
          (st ++ [(freshId (st.map Prod.fst), payload)],
            [Call.list, Call.update (freshId (st.map Prod.fst)) payload]))
    ∧ ((st ++ [(freshId (st.map Prod.fst), payload)]).filter
        (fun p => storedExternalId env.toJson p.2 = env.GenerateExternalID c.Coordinate)).length
        = 1
    ∧ (deployedAs (freshId (st.map Prod.fst)) properties c : Returned E).err = none
    ∧ mapLookup (deployedAs (freshId (st.map Prod.fst)) properties c : Returned E).entity.Properties
        IdParameter = some (.str (freshId (st.map Prod.fst)))
    ∧ freshId (st.map Prod.fst) ∉ st.map Prod.fst
    ∧ (st ++ [(freshId (st.map Prod.fst), payload)]).filter
        (fun p => storedExternalId env.toJson p.2 = env.GenerateExternalID c.Coordinate)
      = [(freshId (st.map Prod.fst), payload)] := by
  have hnew := storedExternalId_payload env hcodec _ renderedConfig payload hvalid
  have hitems : ∀ raw ∈ st.map (listItem env.toJson),
      ∃ r0, unmarshalSloResponse env.toJson raw sloResponse.zero = .ok r0
        ∧ r0.ExternalID ≠ env.GenerateExternalID c.Coordinate := by
    intro raw hraw
    obtain ⟨p, hp, rfl⟩ := List.mem_map.mp hraw
    exact ⟨_, listItem_decode env.toJson hcodec p _, hstore p hp⟩
  have hfall : ∀ st1, tier1FallsThrough env (storeSource env.toJson notFound) c payload st1 :=
    fun _ => Or.inl hid
  have hnone : st.filter (fun p => storedExternalId env.toJson p.2
      = env.GenerateExternalID c.Coordinate) = [] := by
    rw [List.filter_eq_nil_iff]
    intro p hp
    simpa using hstore p hp
  refine ⟨?_, ?_, ?_, rfl, ?_, freshId_not_mem _, ?_⟩
  · have hscan := scanItems_no_match env.toJson (env.GenerateExternalID c.Coordinate)
      (st.map (listItem env.toJson)) sloResponse.zero (Or.inr rfl) hitems
    have hfind := findMatchOnRemote_recording env (storeSource env.toJson notFound)
      (env.GenerateExternalID c.Coordinate) st [] (st.map (listItem env.toJson)) ("", false)
      rfl hscan
    rw [Deploy_after_tier1 env _ properties renderedConfig c st payload hvalid (hfall st)]
    simp only [tier1State, tier1Calls, hid, if_true, deployByExternalID, hfind, recording_Create]
    simp [storeSource, responseFromHttpData_created env hcodec]
  · have hscan := scanItems_match env.toJson (env.GenerateExternalID c.Coordinate)
      (st.map (listItem env.toJson)) [] (listItem env.toJson (freshId (st.map Prod.fst), payload))
      ⟨freshId (st.map Prod.fst), storedExternalId env.toJson payload⟩ sloResponse.zero
      (Or.inr rfl) hitems (listItem_decode env.toJson hcodec _ _) hnew
      (fun res => by rw [listItem_decode env.toJson hcodec, listItem_decode env.toJson hcodec])
    have hfind := findMatchOnRemote_recording env (storeSource env.toJson notFound)
      (env.GenerateExternalID c.Coordinate) (st ++ [(freshId (st.map Prod.fst), payload)]) []
      (st.map (listItem env.toJson)
        ++ listItem env.toJson (freshId (st.map Prod.fst), payload) :: [])
      (freshId (st.map Prod.fst), true) (by simp [storeSource]) hscan
    rw [Deploy_after_tier1 env _ properties renderedConfig c _ payload hvalid (hfall _)]
    simp only [tier1State, tier1Calls, hid, if_true, deployByExternalID, hfind, recording_Update]
    simp [storeSource, map_replace_absent st _ payload (freshId_not_mem (st.map Prod.fst))]
  · simp [List.filter_append, hnone, hnew]
  · simp [deployedAs, createResolveEntity, mapLookup_mapStore]
  · simp [List.filter_append, hnone, hnew]

/-- C6 on a store that holds one object with another external id. -/
theorem Deploy_twice_on_store_witness :
    Deploy plainEnv (recording (storeSource plainJson true)) [] sloRendered sloConfig
        ([("slo-0", otherItem)], [])
      = (.returned (deployedAs (freshId ["slo-0"]) [] sloConfig),
          ([("slo-0", otherItem)] ++ [(freshId ["slo-0"], sloPayload)],
            [Call.list, Call.create sloPayload]))
    ∧ Deploy plainEnv (recording (storeSource plainJson true)) [] sloRendered sloConfig
        ([("slo-0", otherItem)] ++ [(freshId ["slo-0"], sloPayload)], [])
      = (.returned (deployedAs (freshId ["slo-0"]) [] sloConfig),
          ([("slo-0", otherItem)] ++ [(freshId ["slo-0"], sloPayload)],
            [Call.list, Call.update (freshId ["slo-0"]) sloPayload]))
    ∧ (([("slo-0", otherItem)] ++ [(freshId ["slo-0"], sloPayload)]).filter
        (fun p => storedExternalId plainJson p.2
          = plainEnv.GenerateExternalID sloConfig.Coordinate)).length = 1
    ∧ (deployedAs (freshId ["slo-0"]) [] sloConfig : Returned Bool).err = none
    ∧ mapLookup (deployedAs (freshId ["slo-0"]) [] sloConfig : Returned Bool).entity.Properties
        IdParameter = some (.str (freshId ["slo-0"]))
    ∧ freshId ["slo-0"] ∉ ["slo-0"]
    ∧ ([("slo-0", otherItem)] ++ [(freshId ["slo-0"], sloPayload)]).filter
        (fun p => storedExternalId plainJson p.2
          = plainEnv.GenerateExternalID sloConfig.Coordinate)
      = [(freshId ["slo-0"], sloPayload)] :=
  Deploy_twice_on_store plainEnv true [] sloRendered sloConfig [("slo-0", otherItem)] sloPayload
    plainJson_readsBack rfl rfl
    (by
      intro p h
      rw [List.mem_singleton] at h
      subst h
      decide)

/-! ## The id written into the properties -/

theorem findMatchOnRemote_recording_eq {σ B E : Type} (env : Env B E)
    (src : DeploySource σ B E) (externalId : String) (s : σ) (log : List (Call B)) :
    findMatchOnRemote env (recording src) externalId (s, log)
      = ((findMatchOnRemote env src externalId s).1,
          ((findMatchOnRemote env src externalId s).2, log ++ [Call.list])) := by
  unfold findMatchOnRemote
  rw [recording_List]
  rcases hL : src.List s with ⟨res, s1⟩
  cases res with
  | error e => rfl
  | ok items =>
    cases hscan : scanItems env.toJson externalId items sloResponse.zero <;> simp [hscan]

/-- A return of strategies 2 and 3 without error is `deployedAs` of
the id that `findMatchOnRemote` matched, after `List` and an `Update` of that
id, or of the id decoded from the response of `Create`, after `List` and that
`Create`. -/
theorem deployByExternalID_ok {σ B E : Type} (env : Env B E) (src : DeploySource σ B E)
    (properties : Properties) (payload : B) (externalID : String) (c : Config) (s s1 : σ)
    (log0 log : List (Call B)) (ret : Returned E)
    (h : deployByExternalID env (recording src) properties payload externalID c (s, log0)
      = (ret, (s1, log)))
    (hok : ret.err = none) :
    ∃ id, ret = deployedAs id properties c
      ∧ (((findMatchOnRemote env src externalID s).1 = .ok (id, true)
            ∧ log = log0 ++ [Call.list, Call.update id payload])
        ∨ (∃ response r,
            (src.Create payload (findMatchOnRemote env src externalID s).2).1 = .ok response
            ∧ responseFromHttpData env response = .ok r ∧ r.ID = id
            ∧ log = log0 ++ [Call.list, Call.create payload])) := by
  simp only [deployByExternalID, findMatchOnRemote_recording_eq] at h
  cases hf : (findMatchOnRemote env src externalID s).1 with
  | error e =>
    simp only [hf] at h
    injection h with h2 h3
    subst h2
    simp [deployFailed] at hok
  | ok r =>
    obtain ⟨id, b⟩ := r
    cases b with
    | true =>
      simp only [hf, recording_Update] at h
      cases hu : (src.Update id payload (findMatchOnRemote env src externalID s).2).1 with
      | error e =>
        simp only [hu] at h
        injection h with h2 h3
        subst h2
        simp [deployFailed] at hok
      | ok response =>
        simp only [hu] at h
        injection h with h2 h3
        injection h3 with h4 h5
        refine ⟨id, h2.symm, Or.inl ⟨rfl, ?_⟩⟩
        rw [← h5]
        simp
    | false =>
      simp only [hf, recording_Create] at h
      cases hc : (src.Create payload (findMatchOnRemote env src externalID s).2).1 with
      | error e =>
        simp only [hc] at h
        injection h with h2 h3
        subst h2
        simp [deployFailed] at hok
      | ok response =>
        simp only [hc] at h
        cases hr : responseFromHttpData env response with
        | error e =>
          simp only [hr] at h
          injection h with h2 h3
          subst h2
          simp [deployFailed] at hok
        | ok r =>
          simp only [hr] at h
          injection h with h2 h3
          injection h3 with h4 h5
          refine ⟨r.ID, h2.symm, Or.inr ⟨response, r, rfl, hr, rfl, ?_⟩⟩
          rw [← h5]
          simp

/-- C7: whenever `Deploy` returns without error, the entity has the
coordinate of the config and its properties are the input properties with
`id` set to the id finally used and every other key unchanged. That id is
`OriginObjectId` when the update by it succeeded (strategy 1), the id that
`findMatchOnRemote` matched and `Update` was called on (strategy 2), or the
id decoded from the response of `Create` (strategy 3). -/
theorem Deploy_injects_id {σ B E : Type} (env : Env B E) (src : DeploySource σ B E)
    (properties : Properties) (renderedConfig : B) (c : Config) (s s1 : σ)
    (log : List (Call B)) (ret : Returned E)
    (h : Deploy env (recording src) properties renderedConfig c (s, [])
      = (.returned ret, (s1, log)))
    (hok : ret.err = none) :
    ret.entity.Coordinate = c.Coordinate
    ∧ ∃ id payload,
        addExternalIdAndValidate env (env.GenerateExternalID c.Coordinate) renderedConfig
          = .returned (.ok payload)
        ∧ ret.entity.Properties = mapStore properties IdParameter (.str id)
        ∧ (∀ k, mapLookup ret.entity.Properties k
            = if k = IdParameter then some (.str id) else mapLookup properties k)
        ∧ idFinallyUsed env src c payload s log id := by
  have hprops : ∀ id : String, ∀ k,
      mapLookup (mapStore properties IdParameter (.str id)) k
        = if k = IdParameter then some (.str id) else mapLookup properties k := by
    intro id k
    rw [mapLookup_mapStore]
    by_cases hk : k = IdParameter
    · subst hk
      simp
    · rw [if_neg hk, if_neg (fun h1 => hk h1.symm)]
  unfold Deploy at h
  cases hv : addExternalIdAndValidate env (env.GenerateExternalID c.Coordinate)
      renderedConfig with
  | panicked => simp [hv] at h
  | returned v =>
    cases v with
    | error e =>
      simp only [hv] at h
      injection h with h2 h3
      injection h2 with h2
      subst h2
      simp [deployFailed] at hok
    | ok payload =>
      simp only [hv] at h
      by_cases hid : c.OriginObjectId = ""
      · simp only [hid, ne_eq, not_true_eq_false, if_false] at h
        injection h with h2 h3
        injection h2 with h2
        obtain ⟨id, hret, hcase⟩ := deployByExternalID_ok env src properties payload
          (env.GenerateExternalID c.Coordinate) c s s1 [] log ret
          (Prod.ext h2 h3) hok
        subst hret
        refine ⟨rfl, id, payload, rfl, rfl, hprops id, Or.inr ?_⟩
        simpa [tier1State, tier1Calls, hid] using hcase
      · simp only [ne_eq, hid, not_false_eq_true, if_true, recording_Update] at h
        cases hu : (src.Update c.OriginObjectId payload s).1 with
        | ok response =>
          simp only [hu] at h
          injection h with h2 h3
          injection h2 with h2
          injection h3 with h4 h5
          subst h2
          refine ⟨rfl, c.OriginObjectId, payload, rfl, rfl, hprops _,
            Or.inl ⟨hid, rfl, ⟨response, hu⟩, ?_⟩⟩
          rw [← h5]
          simp
        | error e =>
          simp only [hu] at h
          cases hnf : env.IsNotFoundError e with
          | false =>
            simp only [hnf] at h
            injection h with h2 h3
            injection h2 with h2
            subst h2
            simp [deployFailed] at hok
          | true =>
            simp only [hnf] at h
            injection h with h2 h3
            injection h2 with h2
            obtain ⟨id, hret, hcase⟩ := deployByExternalID_ok env src properties payload
              (env.GenerateExternalID c.Coordinate) c (src.Update c.OriginObjectId payload s).2
              s1 ([] ++ [Call.update c.OriginObjectId payload]) log ret
              (Prod.ext h2 h3) hok
            subst hret
            refine ⟨rfl, id, payload, rfl, rfl, hprops id, Or.inr ?_⟩
            simpa [tier1State, tier1Calls, hid] using hcase

/-- C7 on a deploy that updates the matched object `slo-1`. -/
theorem Deploy_injects_id_witness :
    (deployedAs "slo-1" [("name", .str "availability")]
        sloConfig : Returned Bool).entity.Coordinate = sloConfig.Coordinate
    ∧ ∃ id payload,
        addExternalIdAndValidate plainEnv (plainEnv.GenerateExternalID sloConfig.Coordinate)
          sloRendered = .returned (.ok payload)
        ∧ (deployedAs "slo-1" [("name", .str "availability")]
            sloConfig : Returned Bool).entity.Properties
          = mapStore [("name", .str "availability")] IdParameter (.str id)
        ∧ (∀ k, mapLookup (deployedAs "slo-1" [("name", .str "availability")]
              sloConfig : Returned Bool).entity.Properties k
            = if k = IdParameter then some (.str id)
              else mapLookup [("name", .str "availability")] k)
        ∧ idFinallyUsed plainEnv listingSource sloConfig payload ()
            [Call.list, Call.update "slo-1" sloPayload] id :=
  Deploy_injects_id plainEnv listingSource [("name", .str "availability")] sloRendered
    sloConfig () () [Call.list, Call.update "slo-1" sloPayload]
    (deployedAs "slo-1" [("name", .str "availability")] sloConfig) rfl rfl

/-! ## Classic deploy -/

/-- C8: for a classic config whose API is in the catalog and enforces unique
names, whose name `extractConfigName` gives and the entity map does not hold,
`deployClassicConfig` makes exactly one call, `UpsertConfigByName` with that
API, that name and the rendered config; when the call returns the entity `e`,
the result has no error, `EntityName = e.Name`, the coordinate of the config,
`Skip = false`, and the input properties with `id` set to `e.Id`, `name` set to
`e.Name` and every other key unchanged. -/
theorem deployClassicConfig_upsert_by_name {σ E N : Type} (env : ClassicEnv N)
    (client : ConfigClient σ E) (apis : APIs) (entities : entityMap)
    (properties : Properties) (renderedConfig : String) (conf : Config) (s : σ)
    (tApi configName : String) (apiToDeploy : API)
    (htype : conf.Type_ = .ClassicApiType tApi)
    (hapi : apiLookup apis tApi = some apiToDeploy)
    (hunique : apiToDeploy.NonUniqueName = false)
    (hname : env.extractConfigName conf properties = .ok configName)
    (hnew : entities.contains apiToDeploy.ID configName = false) :
    (deployClassicConfig env (recordingClient client) apis entities properties renderedConfig
        conf (s, [])).2.2 = [ClientCall.byName apiToDeploy configName renderedConfig]
    ∧ ∀ e, (client.UpsertConfigByName apiToDeploy configName renderedConfig s).1 = .ok e →
        ∃ ret, (deployClassicConfig env (recordingClient client) apis entities properties
            renderedConfig conf (s, [])).1 = ret
          ∧ ret.err = none
          ∧ ret.entity.EntityName = e.Name
          ∧ ret.entity.Coordinate = conf.Coordinate
          ∧ ret.entity.Skip = false
          ∧ ∀ k, mapLookup ret.entity.Properties k =
              if k = NameParameter then some (.str e.Name)
              else if k = IdParameter then some (.str e.Id)
              else mapLookup properties k := by
  constructor
  · simp only [deployClassicConfig, htype, hapi, hname, hnew, hunique, recordingClient]
    cases (client.UpsertConfigByName apiToDeploy configName renderedConfig s).1 <;> simp
  · intro e he
    refine ⟨_, rfl, ?_, ?_, ?_, ?_, ?_⟩
    all_goals
      simp only [deployClassicConfig, htype, hapi, hname, hnew, hunique, recordingClient, he]
      simp
    intro k
    rw [mapLookup_mapStore, mapLookup_mapStore]
    by_cases h1 : k = NameParameter
    · subst h1
      simp
    · have h1s : ¬ NameParameter = k := fun h => h1 h.symm
      by_cases h2 : k = IdParameter
      · subst h2
        rw [if_neg h1s, if_neg h1, if_pos rfl]
      · have h2s : ¬ IdParameter = k := fun h => h2 h.symm
        rw [if_neg h1s, if_neg h2s, if_neg h1, if_neg h2]

/-- C8 on `profileConfig` with the name `my profile`. -/
theorem deployClassicConfig_upsert_by_name_witness :
    (deployClassicConfig plainClassicEnv (recordingClient echoClient) demoApis demoEntities
        [("name", .str "my profile"), ("threshold", .num "5")] "rendered" profileConfig
        ((), [])).2.2
      = [ClientCall.byName ⟨"alerting-profile", false, ""⟩ "my profile" "rendered"]
    ∧ ∀ e, (echoClient.UpsertConfigByName ⟨"alerting-profile", false, ""⟩ "my profile"
          "rendered" ()).1 = .ok e →
        ∃ ret, (deployClassicConfig plainClassicEnv (recordingClient echoClient) demoApis
            demoEntities [("name", .str "my profile"), ("threshold", .num "5")] "rendered"
            profileConfig ((), [])).1 = ret
          ∧ ret.err = none
          ∧ ret.entity.EntityName = e.Name
          ∧ ret.entity.Coordinate = profileConfig.Coordinate
          ∧ ret.entity.Skip = false
          ∧ ∀ k, mapLookup ret.entity.Properties k =
              if k = NameParameter then some (.str e.Name)
              else if k = IdParameter then some (.str e.Id)
              else mapLookup [("name", .str "my profile"), ("threshold", .num "5")] k :=
  deployClassicConfig_upsert_by_name plainClassicEnv echoClient demoApis demoEntities
    [("name", .str "my profile"), ("threshold", .num "5")] "rendered" profileConfig ()
    "alerting-profile" "my profile" ⟨"alerting-profile", false, ""⟩ rfl rfl rfl rfl rfl

/-- C9: for a config that is not of a classic API type, and for a classic
config whose API name is not in the catalog, `deployClassicConfig` returns an
error, makes no call on the client and leaves the remote state as it was,
whatever the entity map, the properties and the rendered config are. -/
theorem deployClassicConfig_unknown_api {σ E N : Type} (env : ClassicEnv N)
    (client : ConfigClient σ E) (apis : APIs) (entities : entityMap)
    (properties : Properties) (renderedConfig : String) (conf : Config) (s : σ)
    (h : (∃ id, conf.Type_ = .other id)
      ∨ (∃ tApi, conf.Type_ = .ClassicApiType tApi ∧ apiLookup apis tApi = none)) :
    ∃ ret, deployClassicConfig env (recordingClient client) apis entities properties
        renderedConfig conf (s, []) = (ret, (s, []))
      ∧ ret.err.isSome ∧ ret.entity.Properties = [] ∧ ret.properties = properties := by
  rcases h with ⟨id, hid⟩ | ⟨tApi, htype, hapi⟩
  · exact ⟨classicFailed properties (.notClassic id), by simp [deployClassicConfig, hid],
      rfl, rfl, rfl⟩
  · exact ⟨classicFailed properties (.unknownApi tApi),
      by simp [deployClassicConfig, htype, hapi], rfl, rfl, rfl⟩

/-- C9 on `unknownApiConfig`. -/
theorem deployClassicConfig_unknown_api_witness :
    ∃ ret, deployClassicConfig plainClassicEnv (recordingClient echoClient) demoApis
        demoEntities [("name", .str "x")] "rendered" unknownApiConfig ((), []) = (ret, ((), []))
      ∧ ret.err.isSome ∧ ret.entity.Properties = [] ∧ ret.properties = [("name", .str "x")] :=
  deployClassicConfig_unknown_api plainClassicEnv echoClient demoApis demoEntities
    [("name", .str "x")] "rendered" unknownApiConfig ()
    (Or.inr ⟨"no-such-api", rfl, rfl⟩)

/-- The one call of a deploy to a `NonUniqueName` API that reaches the client. -/
theorem deployClassicConfig_nonunique_log {σ E N : Type} (env : ClassicEnv N)
    (client : ConfigClient σ E) (apis : APIs) (entities : entityMap)
    (properties : Properties) (renderedConfig : String) (conf : Config) (s : σ)
    (tApi configName : String) (apiToDeploy : API)
    (htype : conf.Type_ = .ClassicApiType tApi)
    (hapi : apiLookup apis tApi = some apiToDeploy)
    (hnonunique : apiToDeploy.NonUniqueName = true)
    (hname : env.extractConfigName conf properties = .ok configName) :
    (deployClassicConfig env (recordingClient client) apis entities properties
        renderedConfig conf (s, [])).2.2
      = [ClientCall.byNonUniqueNameAndId apiToDeploy
          (if env.IsUUID conf.Coordinate.ConfigId || env.IsMeId conf.Coordinate.ConfigId
            then conf.Coordinate.ConfigId
            else env.GenerateUUIDFromConfigId conf.Coordinate.Project conf.Coordinate.ConfigId)
          configName renderedConfig] := by
  simp only [deployClassicConfig, htype, hapi, hname, hnonunique, upsertNonUniqueNameConfig,
    recordingClient]
  cases hu : (env.IsUUID conf.Coordinate.ConfigId || env.IsMeId conf.Coordinate.ConfigId)
  · simp only [Bool.not_true, Bool.and_false, Bool.false_eq_true, if_false, if_true,
      Bool.not_false, List.nil_append]
    cases (client.UpsertConfigByNonUniqueNameAndId apiToDeploy
      (env.GenerateUUIDFromConfigId conf.Coordinate.Project conf.Coordinate.ConfigId)
      configName renderedConfig s).1 <;> rfl
  · simp only [Bool.not_true, Bool.and_false, Bool.false_eq_true, if_false, if_true,
      List.nil_append]
    cases (client.UpsertConfigByNonUniqueNameAndId apiToDeploy conf.Coordinate.ConfigId
      configName renderedConfig s).1 <;> rfl

/-- C10: a deploy to a `NonUniqueName` API that reaches the client makes one
call, `UpsertConfigByNonUniqueNameAndId`, whose identifier is the `ConfigId`
itself when `IsUUID` or `IsMeId` accepts it and
`GenerateUUIDFromConfigId(Project, ConfigId)` otherwise. Two such deploys of
configs with the same `Project` and `ConfigId` pass the same identifier,
whatever their API, type, name, properties, entity map and rendered config. -/
theorem deployClassicConfig_nonunique_identifier {σ E N : Type} (env : ClassicEnv N)
    (client : ConfigClient σ E) (apis apis2 : APIs) (entities entities2 : entityMap)
    (properties properties2 : Properties) (renderedConfig renderedConfig2 : String)
    (conf conf2 : Config) (s s2 : σ) (tApi tApi2 configName configName2 : String)
    (apiToDeploy apiToDeploy2 : API)
    (htype : conf.Type_ = .ClassicApiType tApi)
    (hapi : apiLookup apis tApi = some apiToDeploy)
    (hnonunique : apiToDeploy.NonUniqueName = true)
    (hname : env.extractConfigName conf properties = .ok configName)
    (htype2 : conf2.Type_ = .ClassicApiType tApi2)
    (hapi2 : apiLookup apis2 tApi2 = some apiToDeploy2)
    (hnonunique2 : apiToDeploy2.NonUniqueName = true)
    (hname2 : env.extractConfigName conf2 properties2 = .ok configName2)
    (hproject : conf2.Coordinate.Project = conf.Coordinate.Project)
    (hconfigId : conf2.Coordinate.ConfigId = conf.Coordinate.ConfigId) :
    ∃ identifier,
      identifier = (if env.IsUUID conf.Coordinate.ConfigId || env.IsMeId conf.Coordinate.ConfigId
        then conf.Coordinate.ConfigId
        else env.GenerateUUIDFromConfigId conf.Coordinate.Project conf.Coordinate.ConfigId)
      ∧ (deployClassicConfig env (recordingClient client) apis entities properties
          renderedConfig conf (s, [])).2.2
        = [ClientCall.byNonUniqueNameAndId apiToDeploy identifier configName renderedConfig]
      ∧ (deployClassicConfig env (recordingClient client) apis2 entities2 properties2
          renderedConfig2 conf2 (s2, [])).2.2
        = [ClientCall.byNonUniqueNameAndId apiToDeploy2 identifier configName2
            renderedConfig2] := by
  refine ⟨_, rfl, ?_, ?_⟩
  · exact deployClassicConfig_nonunique_log env client apis entities properties renderedConfig
      conf s tApi configName apiToDeploy htype hapi hnonunique hname
  · have h2 := deployClassicConfig_nonunique_log env client apis2 entities2 properties2
      renderedConfig2 conf2 s2 tApi2 configName2 apiToDeploy2 htype2 hapi2 hnonunique2 hname2
    rw [hproject, hconfigId] at h2
    exact h2

/-- C10 on `dashboardConfig` and `boardCopyConfig`, which share project and
config id. -/
theorem deployClassicConfig_nonunique_identifier_witness :
    ∃ identifier,
      identifier = (if plainClassicEnv.IsUUID dashboardConfig.Coordinate.ConfigId
          || plainClassicEnv.IsMeId dashboardConfig.Coordinate.ConfigId
        then dashboardConfig.Coordinate.ConfigId
        else plainClassicEnv.GenerateUUIDFromConfigId dashboardConfig.Coordinate.Project
          dashboardConfig.Coordinate.ConfigId)
      ∧ (deployClassicConfig plainClassicEnv (recordingClient echoClient) demoApis demoEntities
          [("name", .str "taken")] "rendered" dashboardConfig ((), [])).2.2
        = [ClientCall.byNonUniqueNameAndId ⟨"dashboard", true, ""⟩ identifier "taken"
            "rendered"]
      ∧ (deployClassicConfig plainClassicEnv (recordingClient echoClient) demoApis
          { contains := fun _ _ => false } [("name", .str "copy"), ("owner", .str "me")]
          "other payload" boardCopyConfig ((), [])).2.2
        = [ClientCall.byNonUniqueNameAndId ⟨"dashboard", true, ""⟩ identifier "copy"
            "other payload"] :=
  deployClassicConfig_nonunique_identifier plainClassicEnv echoClient demoApis demoApis
    demoEntities { contains := fun _ _ => false } [("name", .str "taken")]
    [("name", .str "copy"), ("owner", .str "me")] "rendered" "other payload"
    dashboardConfig boardCopyConfig () () "dashboard" "dashboard" "taken" "copy"
    ⟨"dashboard", true, ""⟩ ⟨"dashboard", true, ""⟩ rfl rfl rfl rfl rfl rfl rfl rfl rfl rfl

/-! ## The duplicate guard of the classic deploy -/

/-- The one call of a deploy to a name-unique API whose name is new. -/
theorem deployClassicConfig_unique_log {σ E N : Type} (env : ClassicEnv N)
    (client : ConfigClient σ E) (apis : APIs) (entities : entityMap)
    (properties : Properties) (renderedConfig : String) (conf : Config) (s : σ)
    (tApi configName : String) (apiToDeploy : API)
    (htype : conf.Type_ = .ClassicApiType tApi)
    (hapi : apiLookup apis tApi = some apiToDeploy)
    (hunique : apiToDeploy.NonUniqueName = false)
    (hname : env.extractConfigName conf properties = .ok configName)
    (hnew : entities.contains apiToDeploy.ID configName = false) :
    (deployClassicConfig env (recordingClient client) apis entities properties renderedConfig
        conf (s, [])).2.2 = [ClientCall.byName apiToDeploy configName renderedConfig] := by
  simp only [deployClassicConfig, htype, hapi, hname, hnew, hunique, recordingClient]
  cases (client.UpsertConfigByName apiToDeploy configName renderedConfig s).1 <;> simp

/-- A name that the entity map holds for a name-unique API is rejected: the
error names the coordinate of the config and the name, nothing is called and
the properties are untouched. -/
theorem deployClassicConfig_rejects_duplicate {σ E N : Type} (env : ClassicEnv N)
    (client : ConfigClient σ E) (apis : APIs) (entities : entityMap)
    (properties : Properties) (renderedConfig : String) (conf : Config) (s : σ)
    (tApi configName : String) (apiToDeploy : API)
    (htype : conf.Type_ = .ClassicApiType tApi)
    (hapi : apiLookup apis tApi = some apiToDeploy)
    (hunique : apiToDeploy.NonUniqueName = false)
    (hname : env.extractConfigName conf properties = .ok configName)
    (hdup : entities.contains apiToDeploy.ID configName = true) :
    deployClassicConfig env client apis entities properties renderedConfig conf s
      = (classicFailed properties (.duplicatedName conf.Coordinate configName), s) := by
  simp [deployClassicConfig, htype, hapi, hname, hdup, hunique]

/-- C11: for a classic config with a known API and an extractable name,
`deployClassicConfig` returns an error with no call made on the client if and
only if the entity map holds that name for that API and the API enforces
unique names. For a `NonUniqueName` API the upsert by id is called, whatever
the entity map holds. -/
theorem deployClassicConfig_duplicate_guard {σ E N : Type} (env : ClassicEnv N)
    (client : ConfigClient σ E) (apis : APIs) (entities : entityMap)
    (properties : Properties) (renderedConfig : String) (conf : Config) (s : σ)
    (tApi configName : String) (apiToDeploy : API)
    (htype : conf.Type_ = .ClassicApiType tApi)
    (hapi : apiLookup apis tApi = some apiToDeploy)
    (hname : env.extractConfigName conf properties = .ok configName) :
    ((∃ ret, deployClassicConfig env (recordingClient client) apis entities properties
          renderedConfig conf (s, []) = (ret, (s, [])) ∧ ret.err.isSome)
      ↔ (entities.contains apiToDeploy.ID configName = true
          ∧ apiToDeploy.NonUniqueName = false))
    ∧ (apiToDeploy.NonUniqueName = true →
        (deployClassicConfig env (recordingClient client) apis entities properties
          renderedConfig conf (s, [])).2.2
        = [ClientCall.byNonUniqueNameAndId apiToDeploy
            (if env.IsUUID conf.Coordinate.ConfigId || env.IsMeId conf.Coordinate.ConfigId
              then conf.Coordinate.ConfigId
              else env.GenerateUUIDFromConfigId conf.Coordinate.Project
                conf.Coordinate.ConfigId)
            configName renderedConfig]) := by
  refine ⟨⟨?_, ?_⟩, ?_⟩
  · rintro ⟨ret, hret, -⟩
    have hlog : (deployClassicConfig env (recordingClient client) apis entities properties
        renderedConfig conf (s, [])).2.2 = [] := by rw [hret]
    cases hnu : apiToDeploy.NonUniqueName with
    | true =>
      rw [deployClassicConfig_nonunique_log env client apis entities properties renderedConfig
        conf s tApi configName apiToDeploy htype hapi hnu hname] at hlog
      cases hlog
    | false =>
      cases hc : entities.contains apiToDeploy.ID configName with
      | true => exact ⟨rfl, rfl⟩
      | false =>
        rw [deployClassicConfig_unique_log env client apis entities properties renderedConfig
          conf s tApi configName apiToDeploy htype hapi hnu hname hc] at hlog
        cases hlog
  · rintro ⟨hdup, hunique⟩
    exact ⟨_, deployClassicConfig_rejects_duplicate env (recordingClient client) apis entities
      properties renderedConfig conf (s, []) tApi configName apiToDeploy htype hapi hunique
      hname hdup, rfl⟩
  · intro hnu
    exact deployClassicConfig_nonunique_log env client apis entities properties renderedConfig
      conf s tApi configName apiToDeploy htype hapi hnu hname

/-- C11 on `profileConfig` with the name `taken`, which `demoEntities` holds. -/
theorem deployClassicConfig_duplicate_guard_witness :
    ((∃ ret, deployClassicConfig plainClassicEnv (recordingClient echoClient) demoApis
          demoEntities [("name", .str "taken")] "rendered" profileConfig ((), [])
          = (ret, ((), [])) ∧ ret.err.isSome)
      ↔ (demoEntities.contains (API.mk "alerting-profile" false "").ID "taken" = true
          ∧ (API.mk "alerting-profile" false "").NonUniqueName = false))
    ∧ ((API.mk "alerting-profile" false "").NonUniqueName = true →
        (deployClassicConfig plainClassicEnv (recordingClient echoClient) demoApis
          demoEntities [("name", .str "taken")] "rendered" profileConfig ((), [])).2.2
        = [ClientCall.byNonUniqueNameAndId (API.mk "alerting-profile" false "")
            (if plainClassicEnv.IsUUID profileConfig.Coordinate.ConfigId
                || plainClassicEnv.IsMeId profileConfig.Coordinate.ConfigId
              then profileConfig.Coordinate.ConfigId
              else plainClassicEnv.GenerateUUIDFromConfigId profileConfig.Coordinate.Project
                profileConfig.Coordinate.ConfigId)
            "taken" "rendered"]) :=
  deployClassicConfig_duplicate_guard plainClassicEnv echoClient demoApis demoEntities
    [("name", .str "taken")] "rendered" profileConfig () "alerting-profile" "taken"
    ⟨"alerting-profile", false, ""⟩ rfl rfl rfl

/-- C12, as amended: a config rejected because the entity map holds its name
gets an error that names the coordinate of the rejected config and the
duplicated name; the error is the same whichever entity map holds the name,
so it does not tell which deployed config holds it. -/
theorem deployClassicConfig_duplicate_error {σ E N : Type} (env : ClassicEnv N)
    (client : ConfigClient σ E) (apis : APIs) (entities entities2 : entityMap)
    (properties : Properties) (renderedConfig : String) (conf : Config) (s : σ)
    (tApi configName : String) (apiToDeploy : API)
    (htype : conf.Type_ = .ClassicApiType tApi)
    (hapi : apiLookup apis tApi = some apiToDeploy)
    (hunique : apiToDeploy.NonUniqueName = false)
    (hname : env.extractConfigName conf properties = .ok configName)
    (hdup : entities.contains apiToDeploy.ID configName = true)
    (hdup2 : entities2.contains apiToDeploy.ID configName = true) :
    (deployClassicConfig env client apis entities properties renderedConfig conf s).1.err
      = some (.duplicatedName conf.Coordinate configName)
    ∧ deployClassicConfig env client apis entities2 properties renderedConfig conf s
      = deployClassicConfig env client apis entities properties renderedConfig conf s := by
  rw [deployClassicConfig_rejects_duplicate env client apis entities properties renderedConfig
      conf s tApi configName apiToDeploy htype hapi hunique hname hdup,
    deployClassicConfig_rejects_duplicate env client apis entities2 properties renderedConfig
      conf s tApi configName apiToDeploy htype hapi hunique hname hdup2]
  exact ⟨rfl, rfl⟩

/-- C12, as amended, on `profileConfig` and two entity maps in which configs
of different coordinates hold the name `taken`. -/
theorem deployClassicConfig_duplicate_error_witness :
    (deployClassicConfig plainClassicEnv echoClient demoApis
        (entityMapOf [⟨⟨"project", "alerting-profile", "first"⟩, "alerting-profile", "taken"⟩])
        [("name", .str "taken")] "rendered" profileConfig ()).1.err
      = some (.duplicatedName profileConfig.Coordinate "taken")
    ∧ deployClassicConfig plainClassicEnv echoClient demoApis
        (entityMapOf [⟨⟨"other", "alerting-profile", "second"⟩, "alerting-profile", "taken"⟩])
        [("name", .str "taken")] "rendered" profileConfig ()
      = deployClassicConfig plainClassicEnv echoClient demoApis
        (entityMapOf [⟨⟨"project", "alerting-profile", "first"⟩, "alerting-profile", "taken"⟩])
        [("name", .str "taken")] "rendered" profileConfig () :=
  deployClassicConfig_duplicate_error plainClassicEnv echoClient demoApis
    (entityMapOf [⟨⟨"project", "alerting-profile", "first"⟩, "alerting-profile", "taken"⟩])
    (entityMapOf [⟨⟨"other", "alerting-profile", "second"⟩, "alerting-profile", "taken"⟩])
    [("name", .str "taken")] "rendered" profileConfig () "alerting-profile" "taken"
    ⟨"alerting-profile", false, ""⟩ rfl rfl rfl rfl rfl rfl

/-- C12, as stated, fails: the name `taken` is held once by the deployed
config `project:alerting-profile:first` and once by
`other:alerting-profile:second`; `profileConfig` is rejected with one and the
same error, which holds the coordinate of `profileConfig` and the name only. -/
theorem deployClassicConfig_duplicate_counterexample :
    (⟨"project", "alerting-profile", "first"⟩ : Coordinate)
        ≠ ⟨"other", "alerting-profile", "second"⟩
    ∧ deployClassicConfig plainClassicEnv echoClient demoApis
        (entityMapOf [⟨⟨"project", "alerting-profile", "first"⟩, "alerting-profile", "taken"⟩])
        [("name", .str "taken")] "rendered" profileConfig ()
      = (classicFailed [("name", .str "taken")]
          (.duplicatedName ⟨"project", "alerting-profile", "profile"⟩ "taken"), ())
    ∧ deployClassicConfig plainClassicEnv echoClient demoApis
        (entityMapOf [⟨⟨"other", "alerting-profile", "second"⟩, "alerting-profile", "taken"⟩])
        [("name", .str "taken")] "rendered" profileConfig ()
      = (classicFailed [("name", .str "taken")]
          (.duplicatedName ⟨"project", "alerting-profile", "profile"⟩ "taken"), ()) :=
  ⟨by decide, rfl, rfl⟩

/-! ## What a deploy returns -/

/-- Strategies 2 and 3 return either an error return, with the properties as
they were and the empty entity, or the entity made by `createResolveEntity`. -/
theorem deployByExternalID_shape {σ B E : Type} (env : Env B E) (src : DeploySource σ B E)
    (properties : Properties) (payload : B) (externalID : String) (c : Config) (s : σ) :
    (∃ reason cause, (deployByExternalID env src properties payload externalID c s).1
        = deployFailed properties c reason cause)
    ∨ (∃ id, (deployByExternalID env src properties payload externalID c s).1
        = deployedAs id properties c) := by
  unfold deployByExternalID
  rcases hf : findMatchOnRemote env src externalID s with ⟨res, s1⟩
  cases res with
  | error e => exact Or.inl ⟨_, _, rfl⟩
  | ok r =>
    obtain ⟨id, b⟩ := r
    cases b with
    | true =>
      simp only []
      rcases hu : src.Update id payload s1 with ⟨ures, s2⟩
      cases ures with
      | error e => exact Or.inl ⟨_, _, rfl⟩
      | ok response => exact Or.inr ⟨_, rfl⟩
    | false =>
      simp only []
      rcases hc : src.Create payload s1 with ⟨cres, s2⟩
      cases cres with
      | error e => exact Or.inl ⟨_, _, rfl⟩
      | ok response =>
        simp only []
        cases hr : responseFromHttpData env response with
        | error e => exact Or.inl ⟨_, _, rfl⟩
        | ok r => exact Or.inr ⟨_, rfl⟩

/-- The same for `Deploy`. -/
theorem Deploy_shape {σ B E : Type} (env : Env B E) (src : DeploySource σ B E)
    (properties : Properties) (renderedConfig : B) (c : Config) (s s1 : σ) (ret : Returned E)
    (h : Deploy env src properties renderedConfig c s = (.returned ret, s1)) :
    (∃ reason cause, ret = deployFailed properties c reason cause)
    ∨ (∃ id, ret = deployedAs id properties c) := by
  unfold Deploy at h
  cases hv : addExternalIdAndValidate env (env.GenerateExternalID c.Coordinate)
      renderedConfig with
  | panicked => simp [hv] at h
  | returned v =>
    cases v with
    | error e =>
      simp only [hv] at h
      injection h with h2 h3
      injection h2 with h2
      exact Or.inl ⟨_, _, h2.symm⟩
    | ok payload =>
      simp only [hv] at h
      by_cases hid : c.OriginObjectId = ""
      · simp only [hid, ne_eq, not_true_eq_false, if_false] at h
        injection h with h2 h3
        injection h2 with h2
        rw [← h2]
        exact deployByExternalID_shape env src properties payload _ c s
      · simp only [ne_eq, hid, not_false_eq_true, if_true] at h
        rcases hu : src.Update c.OriginObjectId payload s with ⟨ures, s2⟩
        rw [hu] at h
        cases ures with
        | ok response =>
          simp only [] at h
          injection h with h2 h3
          injection h2 with h2
          exact Or.inr ⟨_, h2.symm⟩
        | error e =>
          simp only [] at h
          cases hnf : env.IsNotFoundError e with
          | false =>
            simp only [hnf] at h
            injection h with h2 h3
            injection h2 with h2
            exact Or.inl ⟨_, _, h2.symm⟩
          | true =>
            simp only [hnf] at h
            injection h with h2 h3
            injection h2 with h2
            rw [← h2]
            exact deployByExternalID_shape env src properties payload _ c s2

/-- An error return of `deployClassicConfig` holds the properties as they
were and the empty entity. -/
theorem deployClassicConfig_error_shape {σ E N : Type} (env : ClassicEnv N)
    (client : ConfigClient σ E) (apis : APIs) (entities : entityMap)
    (properties : Properties) (renderedConfig : String) (conf : Config) (s : σ)
    (h : (deployClassicConfig env client apis entities properties renderedConfig conf
      s).1.err.isSome) :
    (deployClassicConfig env client apis entities properties renderedConfig conf s).1.properties
      = properties
    ∧ (deployClassicConfig env client apis entities properties renderedConfig conf s).1.entity
      = ResolvedEntity.zero := by
  unfold deployClassicConfig at h ⊢
  cases ht : conf.Type_ with
  | other id => exact ⟨rfl, rfl⟩
  | ClassicApiType tApi =>
    simp only [ht] at h ⊢
    cases ha : apiLookup apis tApi with
    | none => exact ⟨rfl, rfl⟩
    | some apiToDeploy =>
      simp only [ha] at h ⊢
      cases hn : env.extractConfigName conf properties with
      | error e => exact ⟨rfl, rfl⟩
      | ok configName =>
        simp only [hn] at h ⊢
        split_ifs at h ⊢ with hdup hnu
        · exact ⟨rfl, rfl⟩
        · rcases hu : upsertNonUniqueNameConfig env client apiToDeploy conf configName
            renderedConfig s with ⟨res, s1⟩
          rw [hu] at h
          cases res with
          | error e => exact ⟨rfl, rfl⟩
          | ok entity => simp at h
        · rcases hu : client.UpsertConfigByName apiToDeploy configName renderedConfig s
            with ⟨res, s1⟩
          rw [hu] at h
          cases res with
          | error e => exact ⟨rfl, rfl⟩
          | ok entity => simp at h

/-- C19: whenever `Deploy` returns an error, and whenever
`deployClassicConfig` returns an error, the caller's properties map is as it
was passed in and the returned entity is the empty value. -/
theorem deploy_error_leaves_properties {σ σ2 B E E2 N : Type} (env : Env B E)
    (src : DeploySource σ B E) (properties : Properties) (renderedConfig : B) (c : Config)
    (s s1 : σ) (ret : Returned E) (cenv : ClassicEnv N) (client : ConfigClient σ2 E2)
    (apis : APIs) (entities : entityMap) (classicRendered : String) (conf : Config)
    (cs : σ2) :
    (Deploy env src properties renderedConfig c s = (.returned ret, s1) → ret.err.isSome →
        ret.properties = properties ∧ ret.entity = ResolvedEntity.zero)
    ∧ ((deployClassicConfig cenv client apis entities properties classicRendered conf
          cs).1.err.isSome →
        (deployClassicConfig cenv client apis entities properties classicRendered conf
          cs).1.properties = properties
        ∧ (deployClassicConfig cenv client apis entities properties classicRendered conf
          cs).1.entity = ResolvedEntity.zero) := by
  constructor
  · intro h herr
    rcases Deploy_shape env src properties renderedConfig c s s1 ret h with
      ⟨reason, cause, hret⟩ | ⟨id, hret⟩
    · subst hret
      exact ⟨rfl, rfl⟩
    · subst hret
      simp [deployedAs] at herr
  · exact deployClassicConfig_error_shape cenv client apis entities properties classicRendered
      conf cs

/-- C19 on a deploy that fails on the listed object `{"id": 5}` and on a
classic deploy with a duplicated name. -/
theorem deploy_error_leaves_properties_witness :
    ((deployFailed [("name", .str "taken")] sloConfig
          ("error finding slo with externalID: " ++ sloExternalID)
          (.listItem .typeMismatch) : Returned Bool).properties = [("name", .str "taken")]
      ∧ (deployFailed [("name", .str "taken")] sloConfig
          ("error finding slo with externalID: " ++ sloExternalID)
          (.listItem .typeMismatch) : Returned Bool).entity = ResolvedEntity.zero)
    ∧ ((deployClassicConfig plainClassicEnv echoClient demoApis demoEntities
          [("name", .str "taken")] "rendered" profileConfig ()).1.properties
        = [("name", .str "taken")]
      ∧ (deployClassicConfig plainClassicEnv echoClient demoApis demoEntities
          [("name", .str "taken")] "rendered" profileConfig ()).1.entity
        = ResolvedEntity.zero) :=
  ⟨(deploy_error_leaves_properties plainEnv
      (fixedSource (.ok none) (.ok none) (.ok [numericIdItem])) [("name", .str "taken")]
      sloRendered sloConfig () ()
      (deployFailed [("name", .str "taken")] sloConfig
        ("error finding slo with externalID: " ++ sloExternalID) (.listItem .typeMismatch))
      plainClassicEnv echoClient demoApis demoEntities "rendered" profileConfig ()).1 rfl rfl,
   (deploy_error_leaves_properties plainEnv
      (fixedSource (.ok none) (.ok none) (.ok [numericIdItem])) [("name", .str "taken")]
      sloRendered sloConfig () ()
      (deployFailed [("name", .str "taken")] sloConfig
        ("error finding slo with externalID: " ++ sloExternalID) (.listItem .typeMismatch))
      plainClassicEnv echoClient demoApis demoEntities "rendered" profileConfig ()).2 rfl⟩

/-! ## Defects of the externalId-correlated deploy -/

/-- C16, at the failing input: `List` returns `otherItem` (id `slo-0`, another
external id) and then an object with the searched external id and no id;
`findMatchOnRemote` reports a match and returns `slo-0`, the id of the other
object, left in the struct that is shared by all items. -/
theorem findMatchOnRemote_returns_other_id :
    unmarshalSloResponse plainJson otherItem sloResponse.zero = .ok ⟨"slo-0", "monaco-other"⟩
    ∧ unmarshalSloResponse plainJson idlessItem sloResponse.zero = .ok ⟨"", sloExternalID⟩
    ∧ findMatchOnRemote plainEnv (fixedSource (.ok none) (.ok none)
        (.ok [otherItem, idlessItem])) sloExternalID ()
      = (.ok ("slo-0", true), ()) :=
  ⟨rfl, rfl, rfl⟩

/-- C18, at the failing input: on the JSON text `null`, which is valid JSON
and not an object, `addExternalIdAndValidate` returns neither a payload nor an
error; it stops in the runtime panic of a write into a nil map. -/
theorem addExternalIdAndValidate_null_panics :
    plainJson.decode (some .null) = some .null
    ∧ unmarshalMap plainJson (some .null) = .ok none
    ∧ addExternalIdAndValidate plainEnv sloExternalID (some .null) = .panicked :=
  ⟨rfl, rfl, rfl⟩

/-- A return of `Deploy` without error is the entity made by
`createResolveEntity` for the id finally used. -/
theorem Deploy_ok_cases {σ B E : Type} (env : Env B E) (src : DeploySource σ B E)
    (properties : Properties) (renderedConfig : B) (c : Config) (s s1 : σ)
    (log : List (Call B)) (ret : Returned E)
    (h : Deploy env (recording src) properties renderedConfig c (s, [])
      = (.returned ret, (s1, log)))
    (hok : ret.err = none) :
    ∃ id payload, ret = deployedAs id properties c
      ∧ idFinallyUsed env src c payload s log id := by
  unfold Deploy at h
  cases hv : addExternalIdAndValidate env (env.GenerateExternalID c.Coordinate)
      renderedConfig with
  | panicked => simp [hv] at h
  | returned v =>
    cases v with
    | error e =>
      simp only [hv] at h
      injection h with h2 h3
      injection h2 with h2
      subst h2
      simp [deployFailed] at hok
    | ok payload =>
      simp only [hv] at h
      by_cases hid : c.OriginObjectId = ""
      · simp only [hid, ne_eq, not_true_eq_false, if_false] at h
        injection h with h2 h3
        injection h2 with h2
        obtain ⟨id, hret, hcase⟩ := deployByExternalID_ok env src properties payload
          (env.GenerateExternalID c.Coordinate) c s s1 [] log ret
          (Prod.ext h2 h3) hok
        refine ⟨id, payload, hret, Or.inr ?_⟩
        simpa [tier1State, tier1Calls, hid] using hcase
      · simp only [ne_eq, hid, not_false_eq_true, if_true, recording_Update] at h
        cases hu : (src.Update c.OriginObjectId payload s).1 with
        | ok response =>
          simp only [hu] at h
          injection h with h2 h3
          injection h2 with h2
          injection h3 with h4 h5
          refine ⟨c.OriginObjectId, payload, h2.symm,
            Or.inl ⟨hid, rfl, ⟨response, hu⟩, ?_⟩⟩
          rw [← h5]
          simp
        | error e =>
          simp only [hu] at h
          cases hnf : env.IsNotFoundError e with
          | false =>
            simp only [hnf] at h
            injection h with h2 h3
            injection h2 with h2
            subst h2
            simp [deployFailed] at hok
          | true =>
            simp only [hnf] at h
            injection h with h2 h3
            injection h2 with h2
            obtain ⟨id, hret, hcase⟩ := deployByExternalID_ok env src properties payload
              (env.GenerateExternalID c.Coordinate) c (src.Update c.OriginObjectId payload s).2
              s1 ([] ++ [Call.update c.OriginObjectId payload]) log ret
              (Prod.ext h2 h3) hok
            refine ⟨id, payload, hret, Or.inr ?_⟩
            simpa [tier1State, tier1Calls, hid] using hcase

/-- Decoding members none of which is named `id` leaves the `ID` of the struct
as it was. -/
theorem setMembers_keeps_ID (members : List (String × JVal)) (res r : sloResponse)
    (hno : ∀ p ∈ members, foldName p.1 ≠ foldName "id")
    (h : res.setMembers members = .ok r) : r.ID = res.ID := by
  induction members generalizing res with
  | nil =>
    simp only [sloResponse.setMembers, Except.ok.injEq] at h
    rw [← h]
  | cons p rest ih =>
    obtain ⟨k, v⟩ := p
    have hk : foldName k ≠ foldName "id" := hno (k, v) (List.mem_cons_self _ _)
    simp only [sloResponse.setMembers] at h
    cases hs : res.setMember k v with
    | error e => simp [hs] at h
    | ok res1 =>
      rw [hs] at h
      have h1 : res1.ID = res.ID := by
        unfold sloResponse.setMember at hs
        rw [if_neg hk] at hs
        split_ifs at hs
        · cases v <;> simp at hs <;> subst hs <;> rfl
        · simp only [Except.ok.injEq] at hs
          rw [← hs]
      rw [ih res1 (fun q hq => hno q (List.mem_cons_of_mem _ hq)) h, h1]

/-- A JSON object without a member named `id`, decoded into a fresh struct,
gives the empty `ID`. -/
theorem unmarshalSloResponse_no_id {B : Type} (J : Json B) (raw : B)
    (members : List (String × JVal)) (r : sloResponse)
    (hdec : J.decode raw = some (.obj members))
    (hno : ∀ p ∈ members, foldName p.1 ≠ foldName "id")
    (h : unmarshalSloResponse J raw sloResponse.zero = .ok r) : r.ID = "" := by
  simp only [unmarshalSloResponse, hdec] at h
  exact setMembers_keeps_ID members sloResponse.zero r hno h

/-- A return of strategies 2 and 3 without error is the entity made for the
id that `findMatchOnRemote` matched, after a successful `Update` of that id,
or, when nothing matched, for the id decoded from the response of a successful
`Create`. -/
theorem deployByExternalID_id {σ B E : Type} (env : Env B E) (src : DeploySource σ B E)
    (properties : Properties) (payload : B) (externalID : String) (c : Config) (s : σ)
    (hok : (deployByExternalID env src properties payload externalID c s).1.err = none) :
    ∃ id, (deployByExternalID env src properties payload externalID c s).1
        = deployedAs id properties c
      ∧ (((findMatchOnRemote env src externalID s).1 = .ok (id, true)
            ∧ ∃ response, (src.Update id payload (findMatchOnRemote env src externalID s).2).1
                = .ok response)
        ∨ ((∃ id0, (findMatchOnRemote env src externalID s).1 = .ok (id0, false))
            ∧ ∃ response r,
                (src.Create payload (findMatchOnRemote env src externalID s).2).1 = .ok response
                ∧ responseFromHttpData env response = .ok r ∧ r.ID = id)) := by
  unfold deployByExternalID at hok ⊢
  rcases hf : findMatchOnRemote env src externalID s with ⟨res, s1⟩
  rw [hf] at hok
  cases res with
  | error e => simp [deployFailed] at hok
  | ok r =>
    obtain ⟨id, b⟩ := r
    cases b with
    | true =>
      simp only [] at hok ⊢
      rcases hu : src.Update id payload s1 with ⟨ures, s2⟩
      rw [hu] at hok
      cases ures with
      | error e => simp [deployFailed] at hok
      | ok response => exact ⟨id, rfl, Or.inl ⟨rfl, response, by rw [hu]⟩⟩
    | false =>
      simp only [] at hok ⊢
      rcases hc : src.Create payload s1 with ⟨cres, s2⟩
      rw [hc] at hok
      cases cres with
      | error e => simp [deployFailed] at hok
      | ok response =>
        simp only [] at hok ⊢
        cases hr : responseFromHttpData env response with
        | error e => simp [hr, deployFailed] at hok
        | ok r => exact ⟨r.ID, rfl, Or.inr ⟨⟨id, rfl⟩, response, r, rfl, hr, rfl⟩⟩

/-- The match of `findMatchOnRemote` has the empty id when the object listed
first has the searched external id and no member named `id`. -/
theorem findMatchOnRemote_first_no_id {σ B E : Type} (env : Env B E)
    (src : DeploySource σ B E) (externalId : String) (s : σ) (raw : B) (rest : List B)
    (members : List (String × JVal)) (r0 : sloResponse) (id : String)
    (hlist : (src.List s).1 = .ok (raw :: rest))
    (hdec : env.decode raw = some (.obj members))
    (hno : ∀ p ∈ members, foldName p.1 ≠ foldName "id")
    (hr0 : unmarshalSloResponse env.toJson raw sloResponse.zero = .ok r0)
    (hext : r0.ExternalID = externalId)
    (hfind : (findMatchOnRemote env src externalId s).1 = .ok (id, true)) : id = "" := by
  have hid := unmarshalSloResponse_no_id env.toJson raw members r0 hdec hno hr0
  unfold findMatchOnRemote at hfind
  rcases hL : src.List s with ⟨res, s1⟩
  rw [hL] at hlist hfind
  simp only [] at hlist
  subst hlist
  simp only [scanItems, hr0, hext, if_true, hid] at hfind
  injection hfind with h1
  injection h1 with h2
  exact h2.symm

/-- C20, as amended: whenever `Deploy` returns without error, the `id` entry
of the resolved properties is a string. It is `OriginObjectId`, which is not
empty, when the update by it succeeded. Otherwise strategy 1 fell through and
the entry is the id that `findMatchOnRemote` returned for its match, which
`Update` then accepted, or, with no match, the `ID` decoded from the response
of `Create`. The matched id is empty when the object listed first has the
generated external id and no member named `id`; the created id is empty when
the response is an object with no member named `id`. -/
theorem Deploy_ok_id_entry {σ B E : Type} (env : Env B E) (src : DeploySource σ B E)
    (properties : Properties) (renderedConfig : B) (c : Config) (s s1 : σ) (ret : Returned E)
    (h : Deploy env src properties renderedConfig c s = (.returned ret, s1))
    (hok : ret.err = none) :
    ∃ id payload,
      addExternalIdAndValidate env (env.GenerateExternalID c.Coordinate) renderedConfig
        = .returned (.ok payload)
      ∧ mapLookup ret.entity.Properties IdParameter = some (.str id)
      ∧ ((c.OriginObjectId ≠ "" ∧ id = c.OriginObjectId ∧ id ≠ ""
            ∧ ∃ response, (src.Update c.OriginObjectId payload s).1 = .ok response)
        ∨ (tier1FallsThrough env src c payload s
            ∧ (findMatchOnRemote env src (env.GenerateExternalID c.Coordinate)
                (tier1State src c payload s)).1 = .ok (id, true)
            ∧ (∃ response, (src.Update id payload (findMatchOnRemote env src
                (env.GenerateExternalID c.Coordinate) (tier1State src c payload s)).2).1
                = .ok response)
            ∧ ∀ raw rest members r0,
                (src.List (tier1State src c payload s)).1 = .ok (raw :: rest) →
                env.decode raw = some (.obj members) →
                (∀ p ∈ members, foldName p.1 ≠ foldName "id") →
                unmarshalSloResponse env.toJson raw sloResponse.zero = .ok r0 →
                r0.ExternalID = env.GenerateExternalID c.Coordinate →
                id = "")
        ∨ (tier1FallsThrough env src c payload s
            ∧ (∃ id0, (findMatchOnRemote env src (env.GenerateExternalID c.Coordinate)
                (tier1State src c payload s)).1 = .ok (id0, false))
            ∧ ∃ response r,
                (src.Create payload (findMatchOnRemote env src
                  (env.GenerateExternalID c.Coordinate) (tier1State src c payload s)).2).1
                  = .ok response
                ∧ responseFromHttpData env response = .ok r ∧ r.ID = id
                ∧ ∀ members, env.decode response = some (.obj members) →
                    (∀ p ∈ members, foldName p.1 ≠ foldName "id") → id = "")) := by
  have hentry : ∀ id : String,
      mapLookup (deployedAs id properties c : Returned E).entity.Properties IdParameter
        = some (.str id) := by
    intro id
    simp [deployedAs, createResolveEntity, mapLookup_mapStore]
  have hlater : ∀ (payload : B) (s2 : σ),
      (deployByExternalID env src properties payload (env.GenerateExternalID c.Coordinate)
        c s2).1 = ret →
      s2 = tier1State src c payload s →
      tier1FallsThrough env src c payload s →
      ∃ id, mapLookup ret.entity.Properties IdParameter = some (.str id)
        ∧ ((c.OriginObjectId ≠ "" ∧ id = c.OriginObjectId ∧ id ≠ ""
              ∧ ∃ response, (src.Update c.OriginObjectId payload s).1 = .ok response)
          ∨ (tier1FallsThrough env src c payload s
              ∧ (findMatchOnRemote env src (env.GenerateExternalID c.Coordinate)
                  (tier1State src c payload s)).1 = .ok (id, true)
              ∧ (∃ response, (src.Update id payload (findMatchOnRemote env src
                  (env.GenerateExternalID c.Coordinate) (tier1State src c payload s)).2).1
                  = .ok response)
              ∧ ∀ raw rest members r0,
                  (src.List (tier1State src c payload s)).1 = .ok (raw :: rest) →
                  env.decode raw = some (.obj members) →
                  (∀ p ∈ members, foldName p.1 ≠ foldName "id") →
                  unmarshalSloResponse env.toJson raw sloResponse.zero = .ok r0 →
                  r0.ExternalID = env.GenerateExternalID c.Coordinate →
                  id = "")
          ∨ (tier1FallsThrough env src c payload s
              ∧ (∃ id0, (findMatchOnRemote env src (env.GenerateExternalID c.Coordinate)
                  (tier1State src c payload s)).1 = .ok (id0, false))
              ∧ ∃ response r,
                  (src.Create payload (findMatchOnRemote env src
                    (env.GenerateExternalID c.Coordinate) (tier1State src c payload s)).2).1
                    = .ok response
                  ∧ responseFromHttpData env response = .ok r ∧ r.ID = id
                  ∧ ∀ members, env.decode response = some (.obj members) →
                      (∀ p ∈ members, foldName p.1 ≠ foldName "id") → id = "")) := by
    intro payload s2 hret hs2 hfall
    subst hs2
    have hok2 : (deployByExternalID env src properties payload
        (env.GenerateExternalID c.Coordinate) c (tier1State src c payload s)).1.err = none := by
      rw [hret]
      exact hok
    obtain ⟨id, hdep, hcase⟩ := deployByExternalID_id env src properties payload
      (env.GenerateExternalID c.Coordinate) c (tier1State src c payload s) hok2
    rw [hret] at hdep
    refine ⟨id, by rw [hdep]; exact hentry id, Or.inr ?_⟩
    rcases hcase with ⟨hfind, hupd⟩ | ⟨hnone, response, r, hcreate, hresp, hrid⟩
    · refine Or.inl ⟨hfall, hfind, hupd, ?_⟩
      intro raw rest members r0 hlist hdec hno hr0 hext
      exact findMatchOnRemote_first_no_id env src _ _ raw rest members r0 id hlist hdec hno hr0
        hext hfind
    · refine Or.inr ⟨hfall, hnone, response, r, hcreate, hresp, hrid, ?_⟩
      intro members hdec hno
      rw [← hrid]
      unfold responseFromHttpData at hresp
      cases hu : unmarshalSloResponse env.toJson response sloResponse.zero with
      | error e => simp [hu] at hresp
      | ok r1 =>
        simp only [hu, Except.ok.injEq] at hresp
        subst hresp
        exact unmarshalSloResponse_no_id env.toJson response members r1 hdec hno hu
  unfold Deploy at h
  cases hv : addExternalIdAndValidate env (env.GenerateExternalID c.Coordinate)
      renderedConfig with
  | panicked => simp [hv] at h
  | returned v =>
    cases v with
    | error e =>
      simp only [hv] at h
      injection h with h2 h3
      injection h2 with h2
      subst h2
      simp [deployFailed] at hok
    | ok payload =>
      simp only [hv] at h
      by_cases hid : c.OriginObjectId = ""
      · simp only [hid, ne_eq, not_true_eq_false, if_false] at h
        injection h with h2 h3
        injection h2 with h2
        obtain ⟨id, h4, h5⟩ := hlater payload s h2 (by simp [tier1State, hid]) (Or.inl hid)
        exact ⟨id, payload, rfl, h4, h5⟩
      · simp only [ne_eq, hid, not_false_eq_true, if_true] at h
        rcases hu : src.Update c.OriginObjectId payload s with ⟨ures, s2⟩
        rw [hu] at h
        cases ures with
        | ok response =>
          simp only [] at h
          injection h with h2 h3
          injection h2 with h2
          subst h2
          exact ⟨c.OriginObjectId, payload, rfl, hentry _,
            Or.inl ⟨hid, rfl, hid, response, by rw [hu]⟩⟩
        | error e =>
          simp only [] at h
          cases hnf : env.IsNotFoundError e with
          | false =>
            simp only [hnf] at h
            injection h with h2 h3
            injection h2 with h2
            subst h2
            simp [deployFailed] at hok
          | true =>
            simp only [hnf] at h
            injection h with h2 h3
            injection h2 with h2
            obtain ⟨id, h4, h5⟩ := hlater payload s2 h2 (by simp [tier1State, hid, hu])
              (Or.inr ⟨e, by rw [hu], hnf⟩)
            exact ⟨id, payload, rfl, h4, h5⟩

/-- C20, as amended, on three deploys: `pinnedConfig` updated by its origin
object id, `sloConfig` matched with the listed object `slo-1`, and `sloConfig`
created with the response `createdResponse`. -/
theorem Deploy_ok_id_entry_witness :
    (∃ id payload,
      addExternalIdAndValidate plainEnv (plainEnv.GenerateExternalID pinnedConfig.Coordinate)
        sloRendered = .returned (.ok payload)
      ∧ mapLookup (deployedAs "origin-1" [] pinnedConfig : Returned Bool).entity.Properties
          IdParameter = some (.str id)
      ∧ ((pinnedConfig.OriginObjectId ≠ "" ∧ id = pinnedConfig.OriginObjectId ∧ id ≠ ""
            ∧ ∃ response, (listingSource.Update pinnedConfig.OriginObjectId payload ()).1
                = .ok response)
        ∨ (tier1FallsThrough plainEnv listingSource pinnedConfig payload ()
            ∧ (findMatchOnRemote plainEnv listingSource
                (plainEnv.GenerateExternalID pinnedConfig.Coordinate)
                (tier1State listingSource pinnedConfig payload ())).1 = .ok (id, true)
            ∧ (∃ response, (listingSource.Update id payload (findMatchOnRemote plainEnv
                listingSource (plainEnv.GenerateExternalID pinnedConfig.Coordinate)
                (tier1State listingSource pinnedConfig payload ())).2).1 = .ok response)
            ∧ ∀ raw rest members r0,
                (listingSource.List (tier1State listingSource pinnedConfig payload ())).1
                  = .ok (raw :: rest) →
                plainEnv.decode raw = some (.obj members) →
                (∀ p ∈ members, foldName p.1 ≠ foldName "id") →
                unmarshalSloResponse plainEnv.toJson raw sloResponse.zero = .ok r0 →
                r0.ExternalID = plainEnv.GenerateExternalID pinnedConfig.Coordinate →
                id = "")
        ∨ (tier1FallsThrough plainEnv listingSource pinnedConfig payload ()
            ∧ (∃ id0, (findMatchOnRemote plainEnv listingSource
                (plainEnv.GenerateExternalID pinnedConfig.Coordinate)
                (tier1State listingSource pinnedConfig payload ())).1 = .ok (id0, false))
            ∧ ∃ response r,
                (listingSource.Create payload (findMatchOnRemote plainEnv listingSource
                  (plainEnv.GenerateExternalID pinnedConfig.Coordinate)
                  (tier1State listingSource pinnedConfig payload ())).2).1 = .ok response
                ∧ responseFromHttpData plainEnv response = .ok r ∧ r.ID = id
                ∧ ∀ members, plainEnv.decode response = some (.obj members) →
                    (∀ p ∈ members, foldName p.1 ≠ foldName "id") → id = "")))
    ∧ (∃ id payload,
      addExternalIdAndValidate plainEnv (plainEnv.GenerateExternalID sloConfig.Coordinate)
        sloRendered = .returned (.ok payload)
      ∧ mapLookup (deployedAs "slo-1" [] sloConfig : Returned Bool).entity.Properties
          IdParameter = some (.str id)
      ∧ ((sloConfig.OriginObjectId ≠ "" ∧ id = sloConfig.OriginObjectId ∧ id ≠ ""
            ∧ ∃ response, (listingSource.Update sloConfig.OriginObjectId payload ()).1
                = .ok response)
        ∨ (tier1FallsThrough plainEnv listingSource sloConfig payload ()
            ∧ (findMatchOnRemote plainEnv listingSource
                (plainEnv.GenerateExternalID sloConfig.Coordinate)
                (tier1State listingSource sloConfig payload ())).1 = .ok (id, true)
            ∧ (∃ response, (listingSource.Update id payload (findMatchOnRemote plainEnv
                listingSource (plainEnv.GenerateExternalID sloConfig.Coordinate)
                (tier1State listingSource sloConfig payload ())).2).1 = .ok response)
            ∧ ∀ raw rest members r0,
                (listingSource.List (tier1State listingSource sloConfig payload ())).1
                  = .ok (raw :: rest) →
                plainEnv.decode raw = some (.obj members) →
                (∀ p ∈ members, foldName p.1 ≠ foldName "id") →
                unmarshalSloResponse plainEnv.toJson raw sloResponse.zero = .ok r0 →
                r0.ExternalID = plainEnv.GenerateExternalID sloConfig.Coordinate →
                id = "")
        ∨ (tier1FallsThrough plainEnv listingSource sloConfig payload ()
            ∧ (∃ id0, (findMatchOnRemote plainEnv listingSource
                (plainEnv.GenerateExternalID sloConfig.Coordinate)
                (tier1State listingSource sloConfig payload ())).1 = .ok (id0, false))
            ∧ ∃ response r,
                (listingSource.Create payload (findMatchOnRemote plainEnv listingSource
                  (plainEnv.GenerateExternalID sloConfig.Coordinate)
                  (tier1State listingSource sloConfig payload ())).2).1 = .ok response
                ∧ responseFromHttpData plainEnv response = .ok r ∧ r.ID = id
                ∧ ∀ members, plainEnv.decode response = some (.obj members) →
                    (∀ p ∈ members, foldName p.1 ≠ foldName "id") → id = "")))
    ∧ (∃ id payload,
      addExternalIdAndValidate plainEnv (plainEnv.GenerateExternalID sloConfig.Coordinate)
        sloRendered = .returned (.ok payload)
      ∧ mapLookup (deployedAs "new-1" [] sloConfig : Returned Bool).entity.Properties
          IdParameter = some (.str id)
      ∧ ((sloConfig.OriginObjectId ≠ "" ∧ id = sloConfig.OriginObjectId ∧ id ≠ ""
            ∧ ∃ response, (creatingSource.Update sloConfig.OriginObjectId payload ()).1
                = .ok response)
        ∨ (tier1FallsThrough plainEnv creatingSource sloConfig payload ()
            ∧ (findMatchOnRemote plainEnv creatingSource
                (plainEnv.GenerateExternalID sloConfig.Coordinate)
                (tier1State creatingSource sloConfig payload ())).1 = .ok (id, true)
            ∧ (∃ response, (creatingSource.Update id payload (findMatchOnRemote plainEnv
                creatingSource (plainEnv.GenerateExternalID sloConfig.Coordinate)
                (tier1State creatingSource sloConfig payload ())).2).1 = .ok response)
            ∧ ∀ raw rest members r0,
                (creatingSource.List (tier1State creatingSource sloConfig payload ())).1
                  = .ok (raw :: rest) →
                plainEnv.decode raw = some (.obj members) →
                (∀ p ∈ members, foldName p.1 ≠ foldName "id") →
                unmarshalSloResponse plainEnv.toJson raw sloResponse.zero = .ok r0 →
                r0.ExternalID = plainEnv.GenerateExternalID sloConfig.Coordinate →
                id = "")
        ∨ (tier1FallsThrough plainEnv creatingSource sloConfig payload ()
            ∧ (∃ id0, (findMatchOnRemote plainEnv creatingSource
                (plainEnv.GenerateExternalID sloConfig.Coordinate)
                (tier1State creatingSource sloConfig payload ())).1 = .ok (id0, false))
            ∧ ∃ response r,
                (creatingSource.Create payload (findMatchOnRemote plainEnv creatingSource
                  (plainEnv.GenerateExternalID sloConfig.Coordinate)
                  (tier1State creatingSource sloConfig payload ())).2).1 = .ok response
                ∧ responseFromHttpData plainEnv response = .ok r ∧ r.ID = id
                ∧ ∀ members, plainEnv.decode response = some (.obj members) →
                    (∀ p ∈ members, foldName p.1 ≠ foldName "id") → id = ""))) :=
  ⟨Deploy_ok_id_entry plainEnv listingSource [] sloRendered pinnedConfig () ()
      (deployedAs "origin-1" [] pinnedConfig) rfl rfl,
   Deploy_ok_id_entry plainEnv listingSource [] sloRendered sloConfig () ()
      (deployedAs "slo-1" [] sloConfig) rfl rfl,
   Deploy_ok_id_entry plainEnv creatingSource [] sloRendered sloConfig () ()
      (deployedAs "new-1" [] sloConfig) rfl rfl⟩

/-- C20, as stated, fails on two inputs. (1) `Create` answers with the object
`{}`, which has no `id`: `Deploy` returns without error and the `id` entry of
the resolved properties is the empty string. (2) `List` returns an object with
the generated external id and no `id`: `Deploy` updates the id `""` and
returns without error, the `id` entry being the empty string. -/
theorem Deploy_empty_id_counterexample :
    (Deploy plainEnv (recording (fixedSource (.ok none) (.ok (some (.obj []))) (.ok [])))
        [] sloRendered sloConfig ((), [])
      = (.returned (deployedAs "" [] sloConfig), ((), [Call.list, Call.create sloPayload]))
    ∧ (deployedAs "" [] sloConfig : Returned Bool).err = none
    ∧ mapLookup (deployedAs "" [] sloConfig : Returned Bool).entity.Properties IdParameter
      = some (.str ""))
    ∧ Deploy plainEnv (recording (fixedSource (.ok none) (.ok none) (.ok [idlessItem])))
        [] sloRendered sloConfig ((), [])
      = (.returned (deployedAs "" [] sloConfig), ((), [Call.list, Call.update "" sloPayload])) :=
  ⟨⟨rfl, rfl, rfl⟩, rfl⟩

/-! ## Reading a report file -/

/-- The loop over lines that all decode returns the records read so far
followed by the decoded lines, in order. -/
theorem readRecords_all_decode {B J R : Type} (unmarshal : B → Except J R) (lines : List B)
    (records acc : List R)
    (h : List.Forall₂ (fun line r => unmarshal line = .ok r) lines records) :
    readRecords unmarshal lines acc = .ok (acc ++ records) := by
  induction h generalizing acc with
  | nil => simp [readRecords]
  | cons hline _ ih => simp [readRecords, hline, ih]

/-- Lines that all decode have their list of records. -/
theorem forall2_of_all_decode {B J R : Type} (unmarshal : B → Except J R) (lines : List B)
    (h : ∀ line ∈ lines, ∃ r, unmarshal line = .ok r) :
    ∃ records, List.Forall₂ (fun line r => unmarshal line = .ok r) lines records := by
  induction lines with
  | nil => exact ⟨[], List.Forall₂.nil⟩
  | cons line rest ih =>
    obtain ⟨r, hr⟩ := h line (List.mem_cons_self _ _)
    obtain ⟨records, hrest⟩ := ih (fun l hl => h l (List.mem_cons_of_mem _ hl))
    exact ⟨r :: records, List.Forall₂.cons hr hrest⟩

/-- The loop ends with an error when some line does not decode. -/
theorem readRecords_some_fails {B J R : Type} (unmarshal : B → Except J R) (lines : List B)
    (acc : List R) (h : ∃ line ∈ lines, ∃ e, unmarshal line = .error e) :
    ∃ e, readRecords unmarshal lines acc = .error e := by
  induction lines generalizing acc with
  | nil =>
    obtain ⟨line, hmem, -⟩ := h
    cases hmem
  | cons line rest ih =>
    cases hl : unmarshal line with
    | error e => exact ⟨e, by simp [readRecords, hl]⟩
    | ok r =>
      obtain ⟨l, hmem, e, he⟩ := h
      rcases List.mem_cons.mp hmem with h1 | h1
      · subst h1
        rw [hl] at he
        cases he
      · obtain ⟨e1, he1⟩ := ih (acc ++ [r]) ⟨l, h1, e, he⟩
        exact ⟨e1, by simp [readRecords, hl, he1]⟩

/-- C13, as amended: for a file that opens and that the scanner reads to its
end, `ReadReportFile` returns the records of the lines, one per line and in
file order, with no error when every line decodes (the empty list for a file
without lines), and an error with no records when some line does not decode. -/
theorem ReadReportFile_reads_lines {B E J R : Type}
    (Open : String → Except E (ScannedFile B E)) (unmarshal : B → Except J R)
    (filename : String) (f : ScannedFile B E)
    (hopen : Open filename = .ok f) (hend : f.err = none) :
    ((∀ line ∈ f.lines, ∃ r, unmarshal line = .ok r) →
      ∃ records, ReadReportFile Open unmarshal filename = (records, none)
        ∧ List.Forall₂ (fun line r => unmarshal line = .ok r) f.lines records)
    ∧ (f.lines = [] → ReadReportFile Open unmarshal filename = ([], none))
    ∧ ((∃ line ∈ f.lines, ∃ e, unmarshal line = .error e) →
      ∃ e, ReadReportFile Open unmarshal filename = ([], some (.unmarshal e))) := by
  refine ⟨?_, ?_, ?_⟩
  · intro hall
    obtain ⟨records, hrec⟩ := forall2_of_all_decode unmarshal f.lines hall
    refine ⟨records, ?_, hrec⟩
    simp [ReadReportFile, hopen, hend, readRecords_all_decode unmarshal f.lines records [] hrec]
  · intro hempty
    simp [ReadReportFile, hopen, hend, hempty, readRecords]
  · intro hfail
    obtain ⟨e, he⟩ := readRecords_some_fails unmarshal f.lines [] hfail
    exact ⟨e, by simp [ReadReportFile, hopen, he]⟩

/-- C13, as amended, on a file of three lines that decode, and on a file whose
second line does not decode. -/
theorem ReadReportFile_reads_lines_witness :
    (∃ records, ReadReportFile (oneFile ⟨[some 1, some 2, some 3], none⟩) plainUnmarshal
          "report.jsonl" = (records, none)
        ∧ List.Forall₂ (fun line r => plainUnmarshal line = .ok r)
          [some 1, some 2, some 3] records)
    ∧ (∃ e, ReadReportFile (oneFile ⟨[some 1, none, some 3], none⟩) plainUnmarshal
          "report.jsonl" = ([], some (.unmarshal e))) :=
  ⟨(ReadReportFile_reads_lines (oneFile ⟨[some 1, some 2, some 3], none⟩) plainUnmarshal
      "report.jsonl" ⟨[some 1, some 2, some 3], none⟩ rfl rfl).1
      (by
        intro line h
        simp only [List.mem_cons, List.mem_singleton, List.not_mem_nil, or_false] at h
        rcases h with h | h | h <;> subst h <;> exact ⟨_, rfl⟩),
   (ReadReportFile_reads_lines (oneFile ⟨[some 1, none, some 3], none⟩) plainUnmarshal
      "report.jsonl" ⟨[some 1, none, some 3], none⟩ rfl rfl).2.2
      ⟨none, by simp, .invalid, rfl⟩⟩

/-- C13, as stated, fails on a file that the scanner does not read to its
end: the first line decodes to the record `1`, the scanner hands it out and
then stops with an error at a line that is too long. `ReadReportFile` returns
no record and no error: neither the records of the lines nor an error. -/
theorem ReadReportFile_counterexample :
    oneFile ⟨[some 1], some "bufio.Scanner: token too long"⟩ "report.jsonl"
      = .ok ⟨[some 1], some "bufio.Scanner: token too long"⟩
    ∧ plainUnmarshal (some 1) = .ok 1
    ∧ ReadReportFile (oneFile ⟨[some 1], some "bufio.Scanner: token too long"⟩)
        plainUnmarshal "report.jsonl" = ([], none) :=
  ⟨rfl, rfl, rfl⟩

/-- When the scanner stops with an error after lines that all decode,
`ReadReportFile` returns no records and a nil error. -/
theorem ReadReportFile_scanner_error {B E J R : Type}
    (Open : String → Except E (ScannedFile B E)) (unmarshal : B → Except J R)
    (filename : String) (f : ScannedFile B E) (e : E)
    (hopen : Open filename = .ok f) (herr : f.err = some e)
    (hall : ∀ line ∈ f.lines, ∃ r, unmarshal line = .ok r) :
    ReadReportFile Open unmarshal filename = ([], none) := by
  obtain ⟨records, hrec⟩ := forall2_of_all_decode unmarshal f.lines hall
  simp [ReadReportFile, hopen, herr, readRecords_all_decode unmarshal f.lines records [] hrec]

/-- C17, at the failing input: the only line of the file is longer than the
scanner's maximum token size, so the scanner hands out nothing and stops with
`bufio.ErrTooLong`. `ReadReportFile` returns the empty list and a nil error. -/
theorem ReadReportFile_drops_scanner_error :
    ReadReportFile (oneFile ⟨[], some "bufio.Scanner: token too long"⟩)
      plainUnmarshal "report.jsonl" = ([], none) :=
  rfl

/-! ## The dry-run settings client -/

/-- C15, as amended: two calls of `Upsert` in a row with the same object
return no error and the same `Name`, the `ConfigId`. For a schema other than
`builtin:management-zones` they return the same entity, whose `Id` is the
`ConfigId`, and do not touch the random source. For
`builtin:management-zones` the `Id` of each call is the encoding of the UUID
drawn by that call. -/
theorem DummySettingsClient_Upsert_twice {ρ : Type} (env : DummyEnv ρ) (obj : SettingsObject)
    (rng : ρ) :
    (DummySettingsClient.Upsert env obj rng).1.2 = none
    ∧ (DummySettingsClient.Upsert env obj (DummySettingsClient.Upsert env obj rng).2).1.2 = none
    ∧ (DummySettingsClient.Upsert env obj rng).1.1.Name = obj.Coordinate.ConfigId
    ∧ (DummySettingsClient.Upsert env obj (DummySettingsClient.Upsert env obj rng).2).1.1.Name
        = obj.Coordinate.ConfigId
    ∧ (obj.SchemaId ≠ "builtin:management-zones" →
        (DummySettingsClient.Upsert env obj rng).1.1 = ⟨obj.Coordinate.ConfigId,
          obj.Coordinate.ConfigId⟩
        ∧ (DummySettingsClient.Upsert env obj (DummySettingsClient.Upsert env obj rng).2).1
          = (DummySettingsClient.Upsert env obj rng).1
        ∧ (DummySettingsClient.Upsert env obj rng).2 = rng)
    ∧ (obj.SchemaId = "builtin:management-zones" →
        (DummySettingsClient.Upsert env obj rng).1.1.Id = env.base64 (env.newUUID rng).1
        ∧ (DummySettingsClient.Upsert env obj (DummySettingsClient.Upsert env obj rng).2).1.1.Id
          = env.base64 (env.newUUID (env.newUUID rng).2).1) := by
  by_cases h : obj.SchemaId = "builtin:management-zones"
  · simp [DummySettingsClient.Upsert, h]
  · simp [DummySettingsClient.Upsert, h]

/-- C15, as amended, on `tagObject`. -/
theorem DummySettingsClient_Upsert_twice_witness :
    (DummySettingsClient.Upsert listedUUIDs tagObject ["u1", "u2"]).1.1 = ⟨"tag", "tag"⟩
    ∧ (DummySettingsClient.Upsert listedUUIDs tagObject
        (DummySettingsClient.Upsert listedUUIDs tagObject ["u1", "u2"]).2).1
      = (DummySettingsClient.Upsert listedUUIDs tagObject ["u1", "u2"]).1
    ∧ (DummySettingsClient.Upsert listedUUIDs tagObject ["u1", "u2"]).2 = ["u1", "u2"] :=
  (DummySettingsClient_Upsert_twice listedUUIDs tagObject ["u1", "u2"]).2.2.2.2.1 (by decide)

/-- C15, as stated, fails for `builtin:management-zones`: with a random source
that hands out two different UUIDs, two calls with the same object return
entities with different `Id`. -/
theorem DummySettingsClient_Upsert_counterexample :
    (DummySettingsClient.Upsert listedUUIDs zoneObject
        ["6ba7b810-9dad-41d1-80b4-00c04fd430c8", "6ba7b811-9dad-41d1-80b4-00c04fd430c8"]).1.1.Id
      ≠ (DummySettingsClient.Upsert listedUUIDs zoneObject
          (DummySettingsClient.Upsert listedUUIDs zoneObject
            ["6ba7b810-9dad-41d1-80b4-00c04fd430c8",
              "6ba7b811-9dad-41d1-80b4-00c04fd430c8"]).2).1.1.Id := by
  decide

/-! ## The calendar -/

theorem isLeap_iff (year : Int) :
    isLeap year = true ↔ (year % 4 = 0 ∧ (year % 100 ≠ 0 ∨ year % 400 = 0)) := by
  simp [isLeap]

/-- years counted from year 1 in cycles of 400, 100, 4 and 1 years -/
theorem year_cycles (a b c e : Int) (hb0 : 0 ≤ b) (hb : b ≤ 3) (hc0 : 0 ≤ c) (hc : c ≤ 24)
    (he0 : 0 ≤ e) (he : e ≤ 3) :
    (400 * a + 100 * b + 4 * c + e) / 4 = 100 * a + 25 * b + c
    ∧ (400 * a + 100 * b + 4 * c + e) / 100 = 4 * a + b
    ∧ (400 * a + 100 * b + 4 * c + e) / 400 = a
    ∧ (isLeap (400 * a + 100 * b + 4 * c + e + 1) = true ↔ (e = 3 ∧ (c < 24 ∨ b = 3))) := by
  refine ⟨by omega, by omega, by omega, ?_⟩
  rw [isLeap_iff]
  constructor
  · rintro ⟨h4, h100⟩
    omega
  · rintro ⟨h3, h⟩
    omega

theorem yearDay_cycles (z : Int) :
    ∃ a b c e r : Int, yearDay z = (400 * a + 100 * b + 4 * c + e + 1, r)
      ∧ z + 719162 = 146097 * a + 36524 * b + 1461 * c + 365 * e + r
      ∧ 0 ≤ b ∧ b ≤ 3 ∧ 0 ≤ c ∧ c ≤ 24 ∧ 0 ≤ e ∧ e ≤ 3 ∧ 0 ≤ r
      ∧ (r ≤ 364 ∨ (r = 365 ∧ e = 3 ∧ (c < 24 ∨ b = 3))) := by
  refine ⟨(z + 719162) / 146097, _, _, _, _, rfl, ?_⟩
  generalize hN : z + 719162 = N
  generalize ha : N / 146097 = a
  have ha1 : 146097 * a ≤ N ∧ N < 146097 * a + 146097 := by omega
  generalize hd1 : N - 146097 * a = d1
  have hd1b : 0 ≤ d1 ∧ d1 < 146097 := by omega
  generalize hq : d1 / 36524 = q
  have hqb : 36524 * q ≤ d1 ∧ d1 < 36524 * q + 36524 := by omega
  have hq4 : 0 ≤ q ∧ q ≤ 4 := by omega
  generalize hb : (if q = 4 then 3 else q) = b
  have hbb : 0 ≤ b ∧ b ≤ 3 ∧ (q = 4 → b = 3) ∧ (q ≠ 4 → b = q) := by
    split_ifs at hb <;> omega
  generalize hd2 : d1 - 36524 * b = d2
  have hd2b : 0 ≤ d2 ∧ d2 ≤ 36524 ∧ (b < 3 → d2 < 36524) := by omega
  generalize hc : d2 / 1461 = c
  have hcb : 1461 * c ≤ d2 ∧ d2 < 1461 * c + 1461 := by omega
  have hc24 : 0 ≤ c ∧ c ≤ 24 := by omega
  generalize hd3 : d2 - 1461 * c = d3
  have hd3b : 0 ≤ d3 ∧ d3 ≤ 1460 := by omega
  generalize hp : d3 / 365 = p
  have hpb : 365 * p ≤ d3 ∧ d3 < 365 * p + 365 := by omega
  generalize he : (if p = 4 then 3 else p) = e
  have heb : 0 ≤ e ∧ e ≤ 3 ∧ (p = 4 → e = 3) ∧ (p ≠ 4 → e = p) := by
    split_ifs at he <;> omega
  refine ⟨by omega, hbb.1, hbb.2.1, hc24.1, hc24.2, heb.1, heb.2.1, by omega, ?_⟩
  by_cases hp4 : p = 4
  · right
    have : e = 3 := heb.2.2.1 hp4
    refine ⟨by omega, this, ?_⟩
    by_cases hb3 : b = 3
    · exact Or.inr hb3
    · left
      omega
  · left
    have : e = p := heb.2.2.2 hp4
    omega

theorem yearDay_spec (z : Int) :
    0 ≤ (yearDay z).2
    ∧ (yearDay z).2 < (if isLeap (yearDay z).1 then 366 else 365)
    ∧ 365 * ((yearDay z).1 - 1) + ((yearDay z).1 - 1) / 4 - ((yearDay z).1 - 1) / 100
        + ((yearDay z).1 - 1) / 400 + (yearDay z).2 - 719162 = z := by
  obtain ⟨a, b, c, e, r, hyd, hz, hb0, hb, hc0, hc, he0, he, hr0, hr⟩ := yearDay_cycles z
  obtain ⟨h4, h100, h400, hleap⟩ := year_cycles a b c e hb0 hb hc0 hc he0 he
  rw [hyd]
  simp only []
  have e1 : 400 * a + 100 * b + 4 * c + e + 1 - 1 = 400 * a + 100 * b + 4 * c + e := by omega
  rw [e1, h4, h100, h400]
  refine ⟨hr0, ?_, by omega⟩
  by_cases hl : isLeap (400 * a + 100 * b + 4 * c + e + 1) = true
  · rw [if_pos hl]
    omega
  · rw [if_neg hl]
    rcases hr with h | ⟨h1, h2, h3⟩
    · omega
    · exact absurd (hleap.mpr ⟨h2, h3⟩) hl


theorem monthDayOf_spec (day m d : Int) (h0 : 0 ≤ day) (h1 : day < 365)
    (h : monthDayOf day = (m, d)) :
    1 ≤ m ∧ m ≤ 12 ∧ 1 ≤ d
    ∧ d ≤ (if m = 2 then 28 else if m = 4 ∨ m = 6 ∨ m = 9 ∨ m = 11 then 30 else 31)
    ∧ daysBefore m + (d - 1) = day ∧ (3 ≤ m ↔ 59 ≤ day) := by
  unfold monthDayOf at h
  by_cases c1 : day < 31
  · rw [if_pos c1] at h
    obtain ⟨rfl, rfl⟩ := Prod.mk.inj h
    have hb : daysBefore 1 = 0 := by decide
    have hl : (if (1 : Int) = 2 then (28 : Int) else if (1 : Int) = 4 ∨ (1 : Int) = 6 ∨ (1 : Int) = 9 ∨ (1 : Int) = 11 then 30 else 31) = 31 := by decide
    rw [hb, hl]
    omega
  by_cases c2 : day < 59
  · rw [if_neg c1, if_pos c2] at h
    obtain ⟨rfl, rfl⟩ := Prod.mk.inj h
    have hb : daysBefore 2 = 31 := by decide
    have hl : (if (2 : Int) = 2 then (28 : Int) else if (2 : Int) = 4 ∨ (2 : Int) = 6 ∨ (2 : Int) = 9 ∨ (2 : Int) = 11 then 30 else 31) = 28 := by decide
    rw [hb, hl]
    omega
  by_cases c3 : day < 90
  · rw [if_neg c1, if_neg c2, if_pos c3] at h
    obtain ⟨rfl, rfl⟩ := Prod.mk.inj h
    have hb : daysBefore 3 = 59 := by decide
    have hl : (if (3 : Int) = 2 then (28 : Int) else if (3 : Int) = 4 ∨ (3 : Int) = 6 ∨ (3 : Int) = 9 ∨ (3 : Int) = 11 then 30 else 31) = 31 := by decide
    rw [hb, hl]
    omega
  by_cases c4 : day < 120
  · rw [if_neg c1, if_neg c2, if_neg c3, if_pos c4] at h
    obtain ⟨rfl, rfl⟩ := Prod.mk.inj h
    have hb : daysBefore 4 = 90 := by decide
    have hl : (if (4 : Int) = 2 then (28 : Int) else if (4 : Int) = 4 ∨ (4 : Int) = 6 ∨ (4 : Int) = 9 ∨ (4 : Int) = 11 then 30 else 31) = 30 := by decide
    rw [hb, hl]
    omega
  by_cases c5 : day < 151
  · rw [if_neg c1, if_neg c2, if_neg c3, if_neg c4, if_pos c5] at h
    obtain ⟨rfl, rfl⟩ := Prod.mk.inj h
    have hb : daysBefore 5 = 120 := by decide
    have hl : (if (5 : Int) = 2 then (28 : Int) else if (5 : Int) = 4 ∨ (5 : Int) = 6 ∨ (5 : Int) = 9 ∨ (5 : Int) = 11 then 30 else 31) = 31 := by decide
    rw [hb, hl]
    omega
  by_cases c6 : day < 181
  · rw [if_neg c1, if_neg c2, if_neg c3, if_neg c4, if_neg c5, if_pos c6] at h
    obtain ⟨rfl, rfl⟩ := Prod.mk.inj h
    have hb : daysBefore 6 = 151 := by decide
    have hl : (if (6 : Int) = 2 then (28 : Int) else if (6 : Int) = 4 ∨ (6 : Int) = 6 ∨ (6 : Int) = 9 ∨ (6 : Int) = 11 then 30 else 31) = 30 := by decide
    rw [hb, hl]
    omega
  by_cases c7 : day < 212
  · rw [if_neg c1, if_neg c2, if_neg c3, if_neg c4, if_neg c5, if_neg c6, if_pos c7] at h
    obtain ⟨rfl, rfl⟩ := Prod.mk.inj h
    have hb : daysBefore 7 = 181 := by decide
    have hl : (if (7 : Int) = 2 then (28 : Int) else if (7 : Int) = 4 ∨ (7 : Int) = 6 ∨ (7 : Int) = 9 ∨ (7 : Int) = 11 then 30 else 31) = 31 := by decide
    rw [hb, hl]
    omega
  by_cases c8 : day < 243
  · rw [if_neg c1, if_neg c2, if_neg c3, if_neg c4, if_neg c5, if_neg c6, if_neg c7, if_pos c8] at h
    obtain ⟨rfl, rfl⟩ := Prod.mk.inj h
    have hb : daysBefore 8 = 212 := by decide
    have hl : (if (8 : Int) = 2 then (28 : Int) else if (8 : Int) = 4 ∨ (8 : Int) = 6 ∨ (8 : Int) = 9 ∨ (8 : Int) = 11 then 30 else 31) = 31 := by decide
    rw [hb, hl]
    omega
  by_cases c9 : day < 273
  · rw [if_neg c1, if_neg c2, if_neg c3, if_neg c4, if_neg c5, if_neg c6, if_neg c7, if_neg c8, if_pos c9] at h
    obtain ⟨rfl, rfl⟩ := Prod.mk.inj h
    have hb : daysBefore 9 = 243 := by decide
    have hl : (if (9 : Int) = 2 then (28 : Int) else if (9 : Int) = 4 ∨ (9 : Int) = 6 ∨ (9 : Int) = 9 ∨ (9 : Int) = 11 then 30 else 31) = 30 := by decide
    rw [hb, hl]
    omega
  by_cases c10 : day < 304
  · rw [if_neg c1, if_neg c2, if_neg c3, if_neg c4, if_neg c5, if_neg c6, if_neg c7, if_neg c8, if_neg c9, if_pos c10] at h
    obtain ⟨rfl, rfl⟩ := Prod.mk.inj h
    have hb : daysBefore 10 = 273 := by decide
    have hl : (if (10 : Int) = 2 then (28 : Int) else if (10 : Int) = 4 ∨ (10 : Int) = 6 ∨ (10 : Int) = 9 ∨ (10 : Int) = 11 then 30 else 31) = 31 := by decide
    rw [hb, hl]
    omega
  by_cases c11 : day < 334
  · rw [if_neg c1, if_neg c2, if_neg c3, if_neg c4, if_neg c5, if_neg c6, if_neg c7, if_neg c8, if_neg c9, if_neg c10, if_pos c11] at h
    obtain ⟨rfl, rfl⟩ := Prod.mk.inj h
    have hb : daysBefore 11 = 304 := by decide
    have hl : (if (11 : Int) = 2 then (28 : Int) else if (11 : Int) = 4 ∨ (11 : Int) = 6 ∨ (11 : Int) = 9 ∨ (11 : Int) = 11 then 30 else 31) = 30 := by decide
    rw [hb, hl]
    omega
  rw [if_neg c1, if_neg c2, if_neg c3, if_neg c4, if_neg c5, if_neg c6, if_neg c7, if_neg c8, if_neg c9, if_neg c10, if_neg c11] at h
  obtain ⟨rfl, rfl⟩ := Prod.mk.inj h
  have hb : daysBefore 12 = 334 := by decide
  have hl : (if (12 : Int) = 2 then (28 : Int) else if (12 : Int) = 4 ∨ (12 : Int) = 6 ∨ (12 : Int) = 9 ∨ (12 : Int) = 11 then 30 else 31) = 31 := by decide
  rw [hb, hl]
  omega

theorem monthDay_spec (leap : Bool) (yday m d : Int) (h0 : 0 ≤ yday)
    (h1 : yday < (if leap then 366 else 365)) (h : monthDay leap yday = (m, d)) :
    1 ≤ m ∧ m ≤ 12 ∧ 1 ≤ d
    ∧ d ≤ (if m = 2 then (if leap then 29 else 28)
        else if m = 4 ∨ m = 6 ∨ m = 9 ∨ m = 11 then 30 else 31)
    ∧ daysBefore m + (if leap = true ∧ 3 ≤ m then 1 else 0) + (d - 1) = yday := by
  cases leap
  · simp only [monthDay, Bool.false_eq_true, false_and, if_false] at h h1 ⊢
    obtain ⟨hm1, hm12, hd1, hdn, hsum, -⟩ := monthDayOf_spec yday m d h0 h1 h
    exact ⟨hm1, hm12, hd1, hdn, by omega⟩
  · simp only [monthDay, true_and, if_true] at h h1 ⊢
    by_cases h59 : yday = 59
    · rw [if_pos h59] at h
      obtain ⟨rfl, rfl⟩ := Prod.mk.inj h
      simp [daysBefore]
      omega
    · rw [if_neg h59] at h
      by_cases hgt : 59 < yday
      · rw [if_pos hgt] at h
        obtain ⟨hm1, hm12, hd1, hdn, hsum, hm3⟩ := monthDayOf_spec (yday - 1) m d (by omega)
          (by omega) h
        have h3 : 3 ≤ m := hm3.mpr (by omega)
        refine ⟨hm1, hm12, hd1, ?_, ?_⟩
        · rw [if_neg (by omega)]
          rw [if_neg (by omega)] at hdn
          exact hdn
        · rw [if_pos h3]
          omega
      · rw [if_neg hgt] at h
        obtain ⟨hm1, hm12, hd1, hdn, hsum, hm3⟩ := monthDayOf_spec yday m d h0 (by omega) h
        have h3 : ¬ 3 ≤ m := fun h3 => by
          have := hm3.mp h3
          omega
        refine ⟨hm1, hm12, hd1, ?_, ?_⟩
        · split_ifs at hdn ⊢ <;> omega
        · rw [if_neg h3]
          omega

/-- the civil date of a day is a valid date and is the date of that day -/
theorem civilFromDays_spec (z : Int) :
    1 ≤ (civilFromDays z).2.1 ∧ (civilFromDays z).2.1 ≤ 12
    ∧ 1 ≤ (civilFromDays z).2.2
    ∧ (civilFromDays z).2.2 ≤ daysIn (civilFromDays z).2.1 (civilFromDays z).1
    ∧ daysFromCivil (civilFromDays z).1 (civilFromDays z).2.1 (civilFromDays z).2.2 = z := by
  obtain ⟨hy0, hy1, hyz⟩ := yearDay_spec z
  obtain ⟨hm1, hm12, hd1, hdn, hmd⟩ := monthDay_spec (isLeap (yearDay z).1) (yearDay z).2
    (monthDay (isLeap (yearDay z).1) (yearDay z).2).1
    (monthDay (isLeap (yearDay z).1) (yearDay z).2).2 hy0 hy1 rfl
  refine ⟨hm1, hm12, hd1, hdn, ?_⟩
  simp only [civilFromDays, daysFromCivil]
  omega

/-! ## The RFC3339 text of a time -/

theorem digitValue_digitChar (d : Nat) (h : d < 10) : digitValue (digitChar d) = some d := by
  interval_cases d <;> rfl

theorem appendInt_two (x : Nat) (h : x < 100) :
    appendInt x 2 = [digitChar (x / 10), digitChar (x % 10)] := by
  have h1 : x / 10 % 10 = x / 10 := by omega
  simp [appendInt, h, fixedDigits, h1]

theorem appendInt_four (x : Nat) (h : x < 10000) :
    appendInt x 4 = [digitChar (x / 1000), digitChar (x / 100 % 10), digitChar (x / 10 % 10),
      digitChar (x % 10)] := by
  have h1 : x / 10 / 10 / 10 % 10 = x / 1000 := by omega
  have h2 : x / 10 / 10 % 10 = x / 100 % 10 := by omega
  simp [appendInt, h, fixedDigits, h1, h2]

theorem parseUint_two (x lo hi : Nat) (h : x < 100) :
    parseUint [digitChar (x / 10), digitChar (x % 10)] lo hi
      = if lo ≤ x ∧ x ≤ hi then some x else none := by
  have e : (0 * 10 + x / 10) * 10 + x % 10 = x := by omega
  simp only [parseUint, parseDigits, digitValue_digitChar (x / 10) (by omega),
    digitValue_digitChar (x % 10) (by omega), e]

theorem parseUint_four (x lo hi : Nat) (h : x < 10000) :
    parseUint [digitChar (x / 1000), digitChar (x / 100 % 10), digitChar (x / 10 % 10),
      digitChar (x % 10)] lo hi = if lo ≤ x ∧ x ≤ hi then some x else none := by
  have e : (((0 * 10 + x / 1000) * 10 + x / 100 % 10) * 10 + x / 10 % 10) * 10 + x % 10 = x := by
    omega
  simp only [parseUint, parseDigits, digitValue_digitChar (x / 1000) (by omega),
    digitValue_digitChar (x / 100 % 10) (by omega), digitValue_digitChar (x / 10 % 10) (by omega),
    digitValue_digitChar (x % 10) (by omega), e]

theorem parseRFC3339_fields (y1 y2 y3 y4 m1 m2 d1 d2 h1 h2 n1 n2 s1 s2 : Char)
    (rest : List Char) :
    parseRFC3339 ([y1, y2, y3, y4] ++ '-' :: ([m1, m2] ++ '-' :: ([d1, d2] ++ 'T' :: ([h1, h2]
      ++ ':' :: ([n1, n2] ++ ':' :: ([s1, s2] ++ rest))))))
      = parseFields [y1, y2, y3, y4] [m1, m2] [d1, d2] [h1, h2] [n1, n2] [s1, s2]
          ['-', '-', 'T', ':', ':'] rest :=
  rfl

theorem daysIn_le (month year : Int) : 28 ≤ daysIn month year ∧ daysIn month year ≤ 31 := by
  unfold daysIn
  split_ifs <;> omega

/-- the zone text of an offset of whole minutes below 24 hours reads back as the offset, and
holds no fraction of a second -/
theorem parseZone_zoneText (offset k : Int) (hk : offset = 60 * k) (h1 : -86400 < offset)
    (h2 : offset < 86400) :
    parseFraction (zoneText offset) = (0, zoneText offset)
    ∧ parseZone (zoneText offset) = some offset := by
  by_cases h0 : offset = 0
  · subst h0
    exact ⟨rfl, rfl⟩
  · have hz : offset.tdiv 60 = k := by
      rw [hk]
      exact Int.mul_tdiv_cancel_left k (by decide)
    obtain ⟨n, hn⟩ : ∃ n : Nat, k.natAbs = n := ⟨_, rfl⟩
    have hkb : n < 1440 := by omega
    have hh : n / 60 < 100 := by omega
    have hm : n % 60 < 100 := by omega
    have c1 : 0 ≤ n / 60 ∧ n / 60 ≤ 23 := by omega
    have c2 : 0 ≤ n % 60 ∧ n % 60 ≤ 59 := by omega
    simp only [zoneText, h0, if_false, hz, hn, appendInt_two _ hh, appendInt_two _ hm]
    by_cases hneg : k < 0
    · simp only [hneg, if_true]
      refine ⟨rfl, ?_⟩
      simp only [List.cons_append, List.nil_append, parseZone, parseUint_two _ _ _ hh,
        parseUint_two _ _ _ hm]
      rw [if_pos c1, if_pos c2]
      simp
      omega
    · simp only [hneg, if_false]
      refine ⟨rfl, ?_⟩
      simp only [List.cons_append, List.nil_append, parseZone, parseUint_two _ _ _ hh,
        parseUint_two _ _ _ hm]
      rw [if_pos c1, if_pos c2]
      simp
      omega


theorem parseRFC3339_formatRFC3339 (t : JSONTime) (k : Int)
    (hy0 : 0 ≤ (civilFromDays ((t.sec + t.offset) / 86400)).1)
    (hy1 : (civilFromDays ((t.sec + t.offset) / 86400)).1 ≤ 9999)
    (hk : t.offset = 60 * k) (h1 : -86400 < t.offset) (h2 : t.offset < 86400) :
    parseRFC3339 (formatRFC3339 t) = some ⟨t.sec, 0, t.offset⟩ := by
  obtain ⟨hm1, hm12, hd1, hdn, hdays⟩ := civilFromDays_spec ((t.sec + t.offset) / 86400)
  obtain ⟨hfrac, hzone⟩ := parseZone_zoneText t.offset k hk h1 h2
  unfold formatRFC3339
  simp only []
  generalize hdate : civilFromDays ((t.sec + t.offset) / 86400) = date at *
  obtain ⟨y, m, d⟩ := date
  simp only [] at hy0 hy1 hm1 hm12 hd1 hdn hdays ⊢
  have hd31 := (daysIn_le m y).2
  obtain ⟨Y, rfl⟩ : ∃ Y : Nat, y = Y := ⟨y.toNat, by omega⟩
  obtain ⟨M, rfl⟩ : ∃ M : Nat, m = M := ⟨m.toNat, by omega⟩
  obtain ⟨D, rfl⟩ : ∃ D : Nat, d = D := ⟨d.toNat, by omega⟩
  obtain ⟨clock, hclock⟩ : ∃ clock : Nat, (t.sec + t.offset) % 86400 = clock :=
    ⟨((t.sec + t.offset) % 86400).toNat, by omega⟩
  have hc : clock < 86400 := by omega
  have hY : Y < 10000 := by omega
  have hM : M < 100 := by omega
  have hD : D < 100 := by omega
  have hH : clock / 3600 < 100 := by omega
  have hN : clock % 3600 / 60 < 100 := by omega
  have hS : clock % 60 < 100 := by omega
  have hneg : ¬ ((Y : Int) < 0) := by omega
  simp only [appendYear, hneg, if_false, Int.toNat_ofNat, hclock, appendInt_four Y hY,
    appendInt_two M hM, appendInt_two D hD, appendInt_two _ hH, appendInt_two _ hN,
    appendInt_two _ hS]
  rw [parseRFC3339_fields]
  simp only [parseFields, parseUint_four Y _ _ hY, parseUint_two M _ _ hM,
    parseUint_two D _ _ hD, parseUint_two _ _ _ hH, parseUint_two _ _ _ hN,
    parseUint_two _ _ _ hS]
  have r1 : 0 ≤ Y ∧ Y ≤ 9999 := by omega
  have r2 : 1 ≤ M ∧ M ≤ 12 := by omega
  have r3 : 1 ≤ D ∧ D ≤ (daysIn (M : Int) (Y : Int)).toNat := by omega
  have r4 : 0 ≤ clock / 3600 ∧ clock / 3600 ≤ 23 := by omega
  have r5 : 0 ≤ clock % 3600 / 60 ∧ clock % 3600 / 60 ≤ 59 := by omega
  have r6 : 0 ≤ clock % 60 ∧ clock % 60 ≤ 59 := by omega
  rw [if_pos r1, if_pos r2]
  simp only []
  rw [if_pos r3, if_pos r4, if_pos r5, if_pos r6]
  simp only [if_true, hfrac, hzone, hdays]
  congr 2
  omega

/-- C14, as amended: with a codec that reads back the string it wrote, for
every time whose year is in 0..9999 and whose zone offset is a whole number
of minutes below 24 hours, `MarshalJSON` returns the JSON string of the
RFC3339 text of the time, and `UnmarshalJSON` of that output returns no error
and the time of the same second and the same offset with no nanoseconds: the
time itself when it has a whole number of seconds, its truncation to whole
seconds otherwise. -/
theorem JSONTime_round_trip {B : Type} (J : StringJson B) (t t0 : JSONTime) (k : Int)
    (hJ : ∀ s, J.decode (J.encodeString s) = some (.str s))
    (hy0 : 0 ≤ (civilFromDays ((t.sec + t.offset) / 86400)).1)
    (hy1 : (civilFromDays ((t.sec + t.offset) / 86400)).1 ≤ 9999)
    (hk : t.offset = 60 * k) (h1 : -86400 < t.offset) (h2 : t.offset < 86400) :
    JSONTime.MarshalJSON J t = .ok (J.encodeString (String.mk (formatRFC3339 t)))
    ∧ parseRFC3339 (formatRFC3339 t) = some ⟨t.sec, 0, t.offset⟩
    ∧ JSONTime.UnmarshalJSON J t0 (J.encodeString (String.mk (formatRFC3339 t)))
      = (⟨t.sec, 0, t.offset⟩, none)
    ∧ (t.nsec = 0 →
      JSONTime.UnmarshalJSON J t0 (J.encodeString (String.mk (formatRFC3339 t))) = (t, none)) := by
  have hparse := parseRFC3339_formatRFC3339 t k hy0 hy1 hk h1 h2
  have hun : JSONTime.UnmarshalJSON J t0 (J.encodeString (String.mk (formatRFC3339 t)))
      = (⟨t.sec, 0, t.offset⟩, none) := by
    simp [JSONTime.UnmarshalJSON, unmarshalString, hJ, hparse]
  refine ⟨rfl, hparse, hun, ?_⟩
  intro hnsec
  rw [hun]
  cases t
  simp_all

/-- C14, as amended, on 2024-11-04T14:20:00+01:00 with five nanoseconds, and on
2000-02-29T00:00:00Z in the zone -05:30 with a whole number of seconds. -/
theorem JSONTime_round_trip_witness :
    (JSONTime.MarshalJSON plainStringJson ⟨1730726400, 5, 3600⟩
        = .ok (plainStringJson.encodeString (String.mk (formatRFC3339 ⟨1730726400, 5, 3600⟩)))
      ∧ parseRFC3339 (formatRFC3339 ⟨1730726400, 5, 3600⟩) = some ⟨1730726400, 0, 3600⟩
      ∧ JSONTime.UnmarshalJSON plainStringJson ⟨0, 0, 0⟩
          (plainStringJson.encodeString (String.mk (formatRFC3339 ⟨1730726400, 5, 3600⟩)))
        = (⟨1730726400, 0, 3600⟩, none)
      ∧ ((⟨1730726400, 5, 3600⟩ : JSONTime).nsec = 0 →
        JSONTime.UnmarshalJSON plainStringJson ⟨0, 0, 0⟩
          (plainStringJson.encodeString (String.mk (formatRFC3339 ⟨1730726400, 5, 3600⟩)))
        = (⟨1730726400, 5, 3600⟩, none)))
    ∧ JSONTime.UnmarshalJSON plainStringJson ⟨0, 0, 0⟩
        (plainStringJson.encodeString (String.mk (formatRFC3339 ⟨951782400, 0, -19800⟩)))
      = (⟨951782400, 0, -19800⟩, none) :=
  ⟨JSONTime_round_trip plainStringJson ⟨1730726400, 5, 3600⟩ ⟨0, 0, 0⟩ 60 (fun _ => rfl)
      (by decide) (by decide) (by decide) (by decide) (by decide),
   (JSONTime_round_trip plainStringJson ⟨951782400, 0, -19800⟩ ⟨0, 0, 0⟩ (-330) (fun _ => rfl)
      (by decide) (by decide) (by decide) (by decide) (by decide)).2.2.2 rfl⟩

/-- C14, as stated, fails for a zone offset of 100 hours, a whole number of
minutes: the time 1970-01-01T00:00:00Z in that zone has a whole number of
seconds and the year 1970; `MarshalJSON` writes
`1970-01-05T04:00:00+100:00`, and `UnmarshalJSON` of that output returns the
error of `time.Parse` and leaves the receiver as it was. -/
theorem JSONTime_round_trip_counterexample :
    (360000 : Int) = 60 * 6000
    ∧ (civilFromDays (((⟨0, 0, 360000⟩ : JSONTime).sec + 360000) / 86400)).1 = 1970
    ∧ JSONTime.MarshalJSON plainStringJson ⟨0, 0, 360000⟩
      = .ok (some (.str "1970-01-05T04:00:00+100:00"))
    ∧ JSONTime.UnmarshalJSON plainStringJson ⟨7, 0, 0⟩
        (some (.str "1970-01-05T04:00:00+100:00")) = (⟨7, 0, 0⟩, some .parse) := by
  refine ⟨by decide, by decide, ?_, by decide⟩
  show Except.ok (some (JVal.str (String.mk (formatRFC3339 ⟨0, 0, 360000⟩))))
    = Except.ok (some (JVal.str "1970-01-05T04:00:00+100:00"))
  have h : String.mk (formatRFC3339 ⟨0, 0, 360000⟩) = "1970-01-05T04:00:00+100:00" := by decide
  rw [h]

end Monaco
